import Mathlib

/-!
# Switch-statement analysis of `clang/Sema/SemaStmt.cpp`

A shallow embedding of the switch-related entry points of `SemaStmt.cpp`
(`ActOnCaseStmt`, `ActOnDefaultStmt`, `ActOnStartOfSwitchStmt`,
`ConvertIntegerToTypeWarnOnOverflow`, `CmpCaseVals`, `CaseCompareFunctor`,
`ActOnFinishSwitchStmt`) together with the properties proved about them.

Conventions of the embedding:
* pointers to AST nodes are addresses (`Nat`); a freshly allocated node gets its
  address as an extra argument of the function that executes the `new`;
* `SourceLocation` is its raw encoding;
* the diagnostic sink is the list `Sema.Diags`, in emission order;
* behaviour the C++ leaves undefined (`back()` of an empty vector, a failed
  `assert`, an out-of-bounds index) is the result `none`.
-/

set_option linter.unusedVariables false

namespace SemaStmt

/-! ## Collaborator types that `SemaStmt.cpp` only uses -/

/-- Raw encoding of a `SourceLocation`. -/
abbrev SourceLocation := Nat

/-- Modelled from the spec: `llvm::APSInt` (declared in `llvm/ADT/APSInt.h`, not part of the
analysed sources), "an arbitrary-precision signed/unsigned integer": a bit width, the bits as a
number below `2 ^ BitWidth`, and the signedness flag. -/
structure APSInt where
  BitWidth : Nat
  VAL : Fin (2 ^ BitWidth)
  IsUnsigned : Bool

namespace APSInt

/-- The low `w` bits of `x`. -/
def bits (w x : Nat) : Fin (2 ^ w) := ⟨x % 2 ^ w, Nat.mod_lt _ (Nat.two_pow_pos w)⟩

/-- Modelled from the spec: the constructor `APSInt(BitWidth)`: zero, unsigned. -/
def ofWidth (w : Nat) : APSInt := ⟨w, bits w 0, true⟩

/-- An `APSInt` of width `w` holding the low `w` bits of `x`. -/
def get (w x : Nat) (isUnsigned : Bool) : APSInt := ⟨w, bits w x, isUnsigned⟩

def getBitWidth (v : APSInt) : Nat := v.BitWidth

def isSigned (v : APSInt) : Bool := !v.IsUnsigned

def setIsSigned (v : APSInt) (Val : Bool) : APSInt := { v with IsUnsigned := !Val }

/-- Modelled from the spec: `isNegative`, "the sign bit" of the value (the top bit of the word),
as the comment `Sign bit changes meaning` at its use says. -/
def isNegative (v : APSInt) : Bool := decide (2 ^ (v.BitWidth - 1) ≤ v.VAL.val)

/-- The two's-complement reading of the bits. -/
def getSExtValue (v : APSInt) : Int :=
  if v.isNegative then (v.VAL.val : Int) - 2 ^ v.BitWidth else (v.VAL.val : Int)

/-- The plain binary reading of the bits. -/
def getZExtValue (v : APSInt) : Int := (v.VAL.val : Int)

/-- The mathematical integer the value denotes under its own signedness. -/
def toInt (v : APSInt) : Int := if v.IsUnsigned then v.getZExtValue else v.getSExtValue

/-- Modelled from the spec: `toString`, the decimal "textual form" of the value under its
signedness; the text is represented by the integer it spells. -/
def toString (v : APSInt) : Int := v.toInt

/-- Modelled from the spec: "truncate to `newWidth` bits". -/
def trunc (v : APSInt) (width : Nat) : APSInt := ⟨width, bits width v.VAL.val, v.IsUnsigned⟩

def zext (v : APSInt) (width : Nat) : APSInt := ⟨width, bits width v.VAL.val, v.IsUnsigned⟩

def sext (v : APSInt) (width : Nat) : APSInt :=
  ⟨width, bits width (if v.isNegative then v.VAL.val + (2 ^ width - 2 ^ v.BitWidth) else v.VAL.val),
    v.IsUnsigned⟩

/-- Modelled from the spec: "sign/zero-extend per the value's current signedness". -/
def extend (v : APSInt) (width : Nat) : APSInt :=
  if v.IsUnsigned then v.zext width else v.sext width

def ult (a b : APSInt) : Bool := decide (a.VAL.val < b.VAL.val)

def slt (a b : APSInt) : Bool := decide (a.getSExtValue < b.getSExtValue)

/-- The `operator<` of `APSInt`: unsigned or signed comparison by the signedness of the left
operand (both operands are expected to agree in width and signedness). -/
def lt (a b : APSInt) : Bool := if a.IsUnsigned then a.ult b else a.slt b

/-- The `operator>`. -/
def gt (a b : APSInt) : Bool := if a.IsUnsigned then b.ult a else b.slt a

/-- The `operator<=`. -/
def le (a b : APSInt) : Bool := if a.IsUnsigned then !b.ult a else !b.slt a

/-- The `operator>=`. -/
def ge (a b : APSInt) : Bool := if a.IsUnsigned then !a.ult b else !a.slt b

/-- The `operator==`: equality of the bits. -/
def eq (a b : APSInt) : Bool := decide (a.VAL.val = b.VAL.val)

/-- The `operator!=`. -/
def ne (a b : APSInt) : Bool := !a.eq b

end APSInt

instance : DecidableEq APSInt := fun a b =>
  if h : a.BitWidth = b.BitWidth ∧ a.VAL.val = b.VAL.val ∧ a.IsUnsigned = b.IsUnsigned then
    isTrue (by
      obtain ⟨w, v, u⟩ := a
      obtain ⟨w2, v2, u2⟩ := b
      obtain ⟨h1, h2, h3⟩ := h
      simp only at h1 h2 h3
      subst h1 h3
      have : v = v2 := Fin.ext h2
      subst this
      rfl)
  else
    isFalse (by
      intro hab
      subst hab
      exact h ⟨rfl, rfl, rfl⟩)

/-- The queries `SemaStmt.cpp` makes of a `QualType`: `isIntegerType()`,
`isSignedIntegerType()`, `Context.getTypeSize`, `isVoidType()` and `isScalarType()`. -/
structure QualType where
  isIntegerType : Bool
  isSignedIntegerType : Bool
  TypeSize : Nat
  isVoidType : Bool
  isScalarType : Bool
deriving DecidableEq

/-- What `SemaStmt.cpp` asks of an `Expr`: its type, the outcome of
`isIntegerConstantExpr` (the value, or the location written to `ExpLoc` when it is not an
integer constant expression) and its source range. -/
structure Expr where
  getType : QualType
  ICE : Option APSInt
  ExpLoc : SourceLocation
  getLocStart : SourceLocation
  getLocEnd : SourceLocation
deriving DecidableEq

/-- The diagnostic identifiers of namespace `diag` used by the statement analysis;
`warn_ret_stack_addr` is the one the check for the address of local storage reports. -/
inductive diag where
  | err_case_label_not_integer_constant_expr
  | err_case_not_in_switch
  | err_default_not_in_switch
  | err_typecheck_statement_requires_integer
  | err_multiple_default_labels_defined
  | err_first_label
  | warn_case_value_overflow
  | err_duplicate_case
  | err_duplicate_case_prev
  | warn_case_empty_range
  | err_redefinition_of_label
  | err_previous_definition
  | ext_return_has_expr
  | ext_return_missing_expr
  | warn_return_missing_expr
  | err_typecheck_return_incompatible
  | ext_typecheck_return_pointer_int
  | ext_typecheck_return_incompatible_pointer
  | ext_typecheck_return_discards_qualifiers
  | warn_ret_stack_addr
  | ext_mixed_decls_code
  | warn_unused_expr
  | err_typecheck_statement_requires_scalar
  | err_non_variable_decl_in_for
  | err_continue_not_in_loop
  | err_break_not_in_loop_or_switch
  | err_invalid_output_constraint_in_asm
  | err_invalid_lvalue_in_asm_output
  | err_invalid_input_constraint_in_asm
  | err_invalid_type_in_asm_input
  | err_unknown_register_name_in_asm
deriving DecidableEq

/-- A pointer to an `IdentifierInfo`; the name of the identifier is represented by the
identifier itself. -/
abbrev IdentifierInfo := Nat

/-- An argument of a diagnostic. -/
inductive DiagArg where
  | str (text : Int)
  | typeName (T : QualType)
  | range (B E : SourceLocation)
  | ident (Name : IdentifierInfo)
  | cstr (Text : String)
deriving DecidableEq

/-- One call of `Diag(Loc, DiagID, args...)`. -/
structure Diagnostic where
  Loc : SourceLocation
  ID : diag
  Args : List DiagArg
deriving DecidableEq

/-- A `CaseStmt` node; `addr` is the address of the node, `SubStmt` the address of its
sub-statement. -/
structure CaseStmt where
  addr : Nat
  getLHS : Expr
  getRHS : Option Expr
  SubStmt : Nat
  getCaseLoc : SourceLocation
deriving DecidableEq

/-- A `DefaultStmt` node. -/
structure DefaultStmt where
  addr : Nat
  getDefaultLoc : SourceLocation
  SubStmt : Nat
deriving DecidableEq

/-- A node of the case chain: `dyn_cast<DefaultStmt>` succeeds on `Default`, `cast<CaseStmt>`
on `Case`. -/
inductive SwitchCase where
  | Case (CS : CaseStmt)
  | Default (DS : DefaultStmt)
deriving DecidableEq

/-- A `SwitchStmt` node. `getSwitchCaseList` lists the chain in the order in which
`getSwitchCaseList()` / `getNextSwitchCase()` walk it. -/
structure SwitchStmt where
  addr : Nat
  getCond : Expr
  getSwitchCaseList : List SwitchCase
  Body : Option Nat
  SwitchLoc : Option SourceLocation
deriving DecidableEq

/-- Modelled from the spec: `SwitchStmt::addSwitchCase` (defined in `clang/AST/Stmt.h`, not part
of the analysed sources): the chain is "an ordered sequence of Case/Default nodes attached to a
Switch statement in source order", so a new node goes to its end. -/
def SwitchStmt.addSwitchCase (SS : SwitchStmt) (SC : SwitchCase) : SwitchStmt :=
  { SS with getSwitchCaseList := SS.getSwitchCaseList ++ [SC] }

/-- The setter `SwitchStmt::setBody`. -/
def SwitchStmt.setBody (SS : SwitchStmt) (S : Nat) (SL : SourceLocation) : SwitchStmt :=
  { SS with Body := some S, SwitchLoc := some SL }

/-- A `LabelStmt` node, the record of a label: `addr` is the address of the node,
`getSubStmt` is `none` while the label is only forward referenced. -/
structure LabelStmt where
  addr : Nat
  getIdentLoc : SourceLocation
  getID : IdentifierInfo
  getSubStmt : Option Nat
deriving DecidableEq

/-- The name of the label: the name of its identifier. -/
def LabelStmt.getName (L : LabelStmt) : IdentifierInfo := L.getID

/-- The setter `LabelStmt::setIdentLoc`. -/
def LabelStmt.setIdentLoc (L : LabelStmt) (Loc : SourceLocation) : LabelStmt :=
  { L with getIdentLoc := Loc }

/-- The setter `LabelStmt::setSubStmt`. -/
def LabelStmt.setSubStmt (L : LabelStmt) (SS : Nat) : LabelStmt :=
  { L with getSubStmt := some SS }

/-- A `GotoStmt` node; `getLabel` is the address of the `LabelStmt` it points to. -/
structure GotoStmt where
  addr : Nat
  getLabel : Nat
  GotoLoc : SourceLocation
  LabelLoc : SourceLocation
deriving DecidableEq

/-- A `ReturnStmt` node. -/
structure ReturnStmt where
  addr : Nat
  ReturnLoc : SourceLocation
  getRetValue : Option Expr
deriving DecidableEq

/-- What `ActOnForStmt` asks of a `ScopedDecl`: its location, whether
`dyn_cast<BlockVarDecl>` succeeds on it and, if so, `hasLocalStorage()`. -/
structure ScopedDecl where
  getLocation : SourceLocation
  isBlockVarDecl : Bool
  hasLocalStorage : Bool
deriving DecidableEq

/-- A `DeclStmt`: the declaration `getDecl()` and the declarators reached from it by
`getNextDeclarator()`, in order, up to the null pointer. -/
structure DeclStmt where
  getDecl : ScopedDecl
  NextDeclarators : List ScopedDecl
deriving DecidableEq

/-- The dynamic class of an expression as the warning about unused results distinguishes it,
with the operands and locations it reads. -/
inductive ExprClass where
  | BinaryOperator (getOperatorLoc : SourceLocation) (getLHS getRHS : Expr)
  | UnaryOperator (getOperatorLoc : SourceLocation) (getSubExpr : Expr)
  | Other (getExprLoc : SourceLocation)
deriving DecidableEq

/-- The dynamic class of a statement that is inspected through its address: `isa<DeclStmt>`
holds on `DeclStmt`, `dyn_cast<Expr>` succeeds on `Expr` (with `hasLocalSideEffect()` and the
class of the expression). -/
inductive StmtClass where
  | DeclStmt (DS : DeclStmt)
  | Expr (E : Expr) (hasLocalSideEffect : Bool) (Class : ExprClass)
  | Other
deriving DecidableEq

/-- A `Stmt*` whose target is inspected: the address and the dynamic class of the target. -/
structure StmtRef where
  addr : Nat
  Class : StmtClass
deriving DecidableEq

/-- The test `isa<DeclStmt>`. -/
def StmtRef.isaDeclStmt (Elt : StmtRef) : Bool :=
  match Elt.Class with
  | .DeclStmt _ => true
  | _ => false

/-- A `CompoundStmt` node with its elements. -/
structure CompoundStmt where
  addr : Nat
  Body : List StmtRef
  LBracLoc : SourceLocation
  RBracLoc : SourceLocation
deriving DecidableEq

/-- A `ForStmt` node. -/
structure ForStmt where
  addr : Nat
  First : Option StmtRef
  Second : Option Expr
  Third : Option Expr
  Body : Nat
  ForLoc : SourceLocation
deriving DecidableEq

/-- A `ContinueStmt` node. -/
structure ContinueStmt where
  addr : Nat
  ContinueLoc : SourceLocation
deriving DecidableEq

/-- A `BreakStmt` node. -/
structure BreakStmt where
  addr : Nat
  BreakLoc : SourceLocation
deriving DecidableEq

/-- What `SemaStmt.cpp` asks of a `Scope`: the enclosing scope a `break` and a `continue` bind
to (by address), `none` for the null pointer. -/
structure Scope where
  getBreakParent : Option Nat
  getContinueParent : Option Nat
deriving DecidableEq

/-- A `StringLiteral`: `getStrData` is the text of `getByteLength()` bytes. -/
structure StringLiteral where
  isWide : Bool
  getStrData : String
  getLocStart : SourceLocation
deriving DecidableEq

/-- The enumeration `Expr::isLvalueResult`: `LV_Valid`, or another enumerator given by its
number. -/
inductive isLvalueResult where
  | LV_Valid
  | LV_Other (code : Nat)
deriving DecidableEq

/-- A `ParenExpr` that is an operand of an asm statement. -/
structure ParenExpr where
  getType : QualType
  isLvalue : isLvalueResult
  getSubExpr : Expr
deriving DecidableEq

/-- An operand expression `Exprs[i]` of an asm statement: `cast<ParenExpr>` succeeds on
`Paren` and asserts on `NotParen`. -/
inductive OperandExpr where
  | Paren (PE : ParenExpr)
  | NotParen (getType : QualType) (isLvalue : isLvalueResult)
deriving DecidableEq

/-- The type of the operand. -/
def OperandExpr.getType : OperandExpr → QualType
  | .Paren PE => PE.getType
  | .NotParen T _ => T

/-- The query `Expr::isLvalue`. -/
def OperandExpr.isLvalue : OperandExpr → isLvalueResult
  | .Paren PE => PE.isLvalue
  | .NotParen _ R => R

/-- The queries `ActOnAsmStmt` makes of `Context.Target`. -/
structure TargetInfo where
  validateOutputConstraint : String → Bool
  validateInputConstraint : String → Nat → Bool
  isValidGCCRegisterName : String → Bool

/-- An `AsmStmt` node. -/
structure AsmStmt where
  addr : Nat
  AsmLoc : SourceLocation
  IsVolatile : Bool
  NumOutputs : Nat
  NumInputs : Nat
  Names : List String
  Constraints : List StringLiteral
  Exprs : List OperandExpr
  AsmStr : StringLiteral
  NumClobbers : Nat
  Clobbers : List StringLiteral
  RParenLoc : SourceLocation
deriving DecidableEq

/-- The statement a `StmtResult` carries: an already built statement given by its address, or
one of the nodes built here. -/
inductive Stmt where
  | ptr (addr : Nat)
  | Case (CS : CaseStmt)
  | Default (DS : DefaultStmt)
  | Switch (SS : SwitchStmt)
  | Label (LS : LabelStmt)
  | Goto (GS : GotoStmt)
  | Return (RS : ReturnStmt)
  | Compound (CS : CompoundStmt)
  | For (FS : ForStmt)
  | Continue (CS : ContinueStmt)
  | Break (BS : BreakStmt)
  | Asm (AS : AsmStmt)
deriving DecidableEq

/-- The type `Action::StmtResult`: `invalid` is what `return true` builds. -/
inductive StmtResult where
  | invalid
  | stmt (S : Stmt)
deriving DecidableEq

/-- What `ActOnReturnStmt` asks of the current `FunctionDecl`: its result type and the name of
its identifier. -/
structure FunctionDecl where
  getResultType : QualType
  getName : IdentifierInfo
deriving DecidableEq

/-- What `ActOnReturnStmt` asks of the current `ObjcMethodDecl`: its result type and the name
of its selector. -/
structure ObjcMethodDecl where
  getResultType : QualType
  getSelectorName : IdentifierInfo
deriving DecidableEq

/-- The language options `SemaStmt.cpp` reads. -/
structure LangOptions where
  C99 : Bool
  CPlusPlus : Bool
deriving DecidableEq

/-- The classification `AssignmentCheckResult` of the expression type checker. -/
inductive AssignmentCheckResult where
  | Compatible
  | Incompatible
  | PointerFromInt
  | IntFromPointer
  | IncompatiblePointer
  | CompatiblePointerDiscardsQualifiers
deriving DecidableEq

/-- The part of `Sema` the statement analysis reads and writes: the stack of open switches
(`back()` is the last element), the diagnostics emitted so far, the label map of the function
body (`none` for an identifier without entry), the enclosing function or method, and the
language options. -/
structure Sema where
  SwitchStack : List SwitchStmt
  Diags : List Diagnostic
  LabelMap : IdentifierInfo → Option LabelStmt
  CurFunctionDecl : Option FunctionDecl
  CurMethodDecl : Option ObjcMethodDecl
  getLangOptions : LangOptions

/-- One call of `Diag`. -/
def Sema.Diag (S : Sema) (Loc : SourceLocation) (ID : diag) (Args : List DiagArg) : Sema :=
  { S with Diags := S.Diags ++ [⟨Loc, ID, Args⟩] }

/-! ## Standard-library algorithms used by `ActOnFinishSwitchStmt` -/

/-- Insertion of `x` in front of the first element that is not less than it. -/
def stable_insert {α : Type} (comp : α → α → Bool) (x : α) : List α → List α
  | [] => [x]
  | y :: ys => if comp y x then y :: stable_insert comp x ys else x :: y :: ys

/-- The algorithm `std::stable_sort(first, last, comp)`: sorts by `comp`, keeping equivalent
elements in their original order (realised as an insertion sort from the right). -/
def stable_sort {α : Type} (comp : α → α → Bool) : List α → List α
  | [] => []
  | x :: xs => stable_insert comp x (stable_sort comp xs)

/-- The loop of `std::lower_bound`: halves `len` until it is zero. -/
def lower_bound_loop {α β : Type} (A : List α) (value : β) (comp : α → β → Bool) :
    Nat → Nat → Nat → Option Nat
  | 0, first, _ => some first
  | fuel + 1, first, len =>
    if len = 0 then some first
    else
      let half := len / 2
      let middle := first + half
      match A[middle]? with
      | none => none
      | some m =>
        if comp m value then lower_bound_loop A value comp fuel (middle + 1) (len - half - 1)
        else lower_bound_loop A value comp fuel first half

/-- The algorithm `std::lower_bound(first, last, value, comp)` on positions of `A`. -/
def lower_bound {α β : Type} (A : List α) (first last : Nat) (value : β)
    (comp : α → β → Bool) : Option Nat :=
  lower_bound_loop A value comp (last - first) first (last - first)

/-- The loop of `std::upper_bound`. -/
def upper_bound_loop {α β : Type} (A : List α) (value : β) (comp : β → α → Bool) :
    Nat → Nat → Nat → Option Nat
  | 0, first, _ => some first
  | fuel + 1, first, len =>
    if len = 0 then some first
    else
      let half := len / 2
      let middle := first + half
      match A[middle]? with
      | none => none
      | some m =>
        if comp value m then upper_bound_loop A value comp fuel first half
        else upper_bound_loop A value comp fuel (middle + 1) (len - half - 1)

/-- The algorithm `std::upper_bound(first, last, value, comp)` on positions of `A`. -/
def upper_bound {α β : Type} (A : List α) (first last : Nat) (value : β)
    (comp : β → α → Bool) : Option Nat :=
  upper_bound_loop A value comp (last - first) first (last - first)

/-- The `operator<` of `std::pair<llvm::APSInt, CaseStmt*>`: lexicographic, the pointers
compared by address. -/
def pair_lt (x y : APSInt × CaseStmt) : Bool :=
  x.1.lt y.1 || (!(y.1.lt x.1) && decide (x.2.addr < y.2.addr))

/-! ## The functions of `SemaStmt.cpp` -/

/-- The first loop of `ActOnCompoundStmt`, `for (; i != NumElts && isa<DeclStmt>(Elts[i]); ++i)`:
the value of `i` after the loop. -/
def skipDeclStmts (Elts : List StmtRef) (NumElts : Nat) : Nat → Nat → Option Nat
  | 0, _ => none
  | fuel + 1, i =>
    if i = NumElts then some i
    else
      match Elts[i]? with
      | none => none
      | some Elt =>
        if Elt.isaDeclStmt then skipDeclStmts Elts NumElts fuel (i + 1) else some i

/-- The second loop of `ActOnCompoundStmt`,
`for (; i != NumElts && !isa<DeclStmt>(Elts[i]); ++i)`: the value of `i` after the loop. -/
def skipOtherStmts (Elts : List StmtRef) (NumElts : Nat) : Nat → Nat → Option Nat
  | 0, _ => none
  | fuel + 1, i =>
    if i = NumElts then some i
    else
      match Elts[i]? with
      | none => none
      | some Elt =>
        if !Elt.isaDeclStmt then skipOtherStmts Elts NumElts fuel (i + 1) else some i

/-- The block of `ActOnCompoundStmt` that checks for declarations after statements: the
diagnostics it emits. -/
def checkMixedDecls (LangOpts : LangOptions) (Elts : List StmtRef) (NumElts : Nat) :
    Option (List Diagnostic) :=
  if !LangOpts.C99 && !LangOpts.CPlusPlus then
    match skipDeclStmts Elts NumElts (NumElts + 1) 0 with
    | none => none
    | some i1 =>
      match skipOtherStmts Elts NumElts (NumElts + 1) i1 with
      | none => none
      | some i =>
        if i ≠ NumElts then
          match Elts[i]? with
          | some ⟨_, .DeclStmt DS⟩ => some [⟨DS.getDecl.getLocation, .ext_mixed_decls_code, []⟩]
          | _ => none
        else some []
  else some []

/-- The body of the last loop of `ActOnCompoundStmt` for the element `Elt` at index `i`: the
warning about an expression whose result is unused. -/
def warnUnusedExpr (NumElts : Nat) (isStmtExpr : Bool) (i : Nat) (Elt : StmtRef) :
    List Diagnostic :=
  match Elt.Class with
  | .Expr E hasLocalSideEffect Class =>
    if hasLocalSideEffect || E.getType.isVoidType then []
    else if isStmtExpr && i == NumElts - 1 then []
    else
      match Class with
      | .BinaryOperator OperatorLoc LHS RHS =>
        [⟨OperatorLoc, .warn_unused_expr,
          [.range LHS.getLocStart LHS.getLocEnd, .range RHS.getLocStart RHS.getLocEnd]⟩]
      | .UnaryOperator OperatorLoc SubExpr =>
        [⟨OperatorLoc, .warn_unused_expr, [.range SubExpr.getLocStart SubExpr.getLocEnd]⟩]
      | .Other ExprLoc =>
        [⟨ExprLoc, .warn_unused_expr, [.range E.getLocStart E.getLocEnd]⟩]
  | _ => []

/-- The last loop of `ActOnCompoundStmt`, over the indices `0 .. NumElts - 1`: the diagnostics
it emits. -/
def warnUnusedExprs (Elts : List StmtRef) (NumElts : Nat) (isStmtExpr : Bool) :
    List Nat → Option (List Diagnostic)
  | [] => some []
  | i :: rest =>
    match Elts[i]? with
    | none => none
    | some Elt =>
      match warnUnusedExprs Elts NumElts isStmtExpr rest with
      | none => none
      | some D => some (warnUnusedExpr NumElts isStmtExpr i Elt ++ D)

/-- The function `Sema::ActOnCompoundStmt`; `newCS` is the address returned by
`new CompoundStmt`. The result is `none` when an element is read beyond the list `Elts`. -/
def ActOnCompoundStmt (S : Sema) (newCS : Nat) (L R : SourceLocation) (Elts : List StmtRef)
    (NumElts : Nat) (isStmtExpr : Bool) : Option (StmtResult × Sema) :=
  match checkMixedDecls S.getLangOptions Elts NumElts with
  | none => none
  | some D1 =>
    match warnUnusedExprs Elts NumElts isStmtExpr (List.range NumElts) with
    | none => none
    | some D2 =>
      some (.stmt (.Compound ⟨newCS, Elts.take NumElts, L, R⟩),
        { S with Diags := S.Diags ++ D1 ++ D2 })

/-- The function `Sema::ActOnCaseStmt`; `newCS` is the address returned by `new CaseStmt`. -/
def ActOnCaseStmt (S : Sema) (newCS : Nat) (CaseLoc : SourceLocation) (lhsval : Expr)
    (DotDotDotLoc : SourceLocation) (rhsval : Option Expr) (ColonLoc : SourceLocation)
    (subStmt : Nat) : StmtResult × Sema :=
  let SubStmt := subStmt
  let LHSVal := lhsval
  match LHSVal.ICE with
  | none =>
    (.stmt (.ptr SubStmt),
      S.Diag LHSVal.ExpLoc .err_case_label_not_integer_constant_expr
        [.range LHSVal.getLocStart LHSVal.getLocEnd])
  | some _ =>
    let (RHSVal, S1) : Option Expr × Sema :=
      match rhsval with
      | none => (none, S)
      | some R =>
        match R.ICE with
        | none =>
          (none, S.Diag R.ExpLoc .err_case_label_not_integer_constant_expr
            [.range R.getLocStart R.getLocEnd])
        | some _ => (some R, S)
    match S1.SwitchStack.getLast? with
    | none => (.stmt (.ptr SubStmt), S1.Diag CaseLoc .err_case_not_in_switch [])
    | some back =>
      let CS : CaseStmt := ⟨newCS, LHSVal, RHSVal, SubStmt, CaseLoc⟩
      (.stmt (.Case CS),
        { S1 with SwitchStack := S1.SwitchStack.dropLast ++ [back.addSwitchCase (.Case CS)] })

/-- The function `Sema::ActOnDefaultStmt`; `newDS` is the address returned by
`new DefaultStmt`. -/
def ActOnDefaultStmt (S : Sema) (newDS : Nat) (DefaultLoc : SourceLocation)
    (ColonLoc : SourceLocation) (subStmt : Nat) : StmtResult × Sema :=
  let SubStmt := subStmt
  match S.SwitchStack.getLast? with
  | none => (.stmt (.ptr SubStmt), S.Diag DefaultLoc .err_default_not_in_switch [])
  | some back =>
    let DS : DefaultStmt := ⟨newDS, DefaultLoc, SubStmt⟩
    (.stmt (.Default DS),
      { S with SwitchStack := S.SwitchStack.dropLast ++ [back.addSwitchCase (.Default DS)] })

/-- The function `Sema::ActOnLabelStmt`; `newLS` is the address returned by `new LabelStmt`.
The result is `none` when the assertion `Label mismatch!` fails. -/
def ActOnLabelStmt (S : Sema) (newLS : Nat) (IdentLoc : SourceLocation) (II : IdentifierInfo)
    (ColonLoc : SourceLocation) (subStmt : Nat) : Option (StmtResult × Sema) :=
  let SubStmt := subStmt
  match S.LabelMap II with
  | none =>
    let LabelDecl : LabelStmt := ⟨newLS, IdentLoc, II, some SubStmt⟩
    some (.stmt (.Label LabelDecl),
      { S with LabelMap := Function.update S.LabelMap II (some LabelDecl) })
  | some LabelDecl =>
    if LabelDecl.getID ≠ II then none
    else if LabelDecl.getSubStmt.isSome then
      some (.stmt (.ptr SubStmt),
        (S.Diag IdentLoc .err_redefinition_of_label [.ident LabelDecl.getName]).Diag
          LabelDecl.getIdentLoc .err_previous_definition [])
    else
      let Filled := (LabelDecl.setIdentLoc IdentLoc).setSubStmt SubStmt
      some (.stmt (.Label Filled),
        { S with LabelMap := Function.update S.LabelMap II (some Filled) })

/-- The function `Sema::ActOnStartOfSwitchStmt`; `UsualUnaryConversions` is the collaborator
that performs the integer promotions on the controlling expression, `newSS` the address
returned by `new SwitchStmt`. -/
def ActOnStartOfSwitchStmt (UsualUnaryConversions : Expr → Expr) (S : Sema) (newSS : Nat)
    (cond : Expr) : StmtResult × Sema :=
  let Cond := UsualUnaryConversions cond
  let SS : SwitchStmt := ⟨newSS, Cond, [], none, none⟩
  (.stmt (.Switch SS), { S with SwitchStack := S.SwitchStack ++ [SS] })

/-- The function `Sema::ConvertIntegerToTypeWarnOnOverflow`: the converted value and the
diagnostics emitted. -/
def ConvertIntegerToTypeWarnOnOverflow (Val : APSInt) (NewWidth : Nat) (NewSign : Bool)
    (Loc : SourceLocation) (DiagID : diag) : APSInt × List Diagnostic :=
  if NewWidth > Val.getBitWidth then
    let OldVal := Val
    let Val1 := Val.extend NewWidth
    let D : List Diagnostic :=
      if !NewSign && OldVal.isSigned && OldVal.isNegative then
        [⟨Loc, DiagID, [.str OldVal.toString, .str Val1.toString]⟩]
      else []
    (Val1.setIsSigned NewSign, D)
  else if NewWidth < Val.getBitWidth then
    let ConvVal :=
      (((Val.trunc NewWidth).setIsSigned NewSign).extend Val.getBitWidth).setIsSigned Val.isSigned
    let D : List Diagnostic :=
      if ConvVal.ne Val then [⟨Loc, DiagID, [.str Val.toString, .str ConvVal.toString]⟩]
      else []
    ((Val.trunc NewWidth).setIsSigned NewSign, D)
  else if NewSign != Val.isSigned then
    let OldVal := Val
    let Val1 := Val.setIsSigned NewSign
    let D : List Diagnostic :=
      if Val1.isNegative then [⟨Loc, DiagID, [.str OldVal.toString, .str Val1.toString]⟩]
      else []
    (Val1, D)
  else (Val, [])

/-- The three `operator()` of `CaseCompareFunctor`. -/
def CaseCompareFunctor_pair_val (LHS : APSInt × CaseStmt) (RHS : APSInt) : Bool :=
  LHS.1.lt RHS

def CaseCompareFunctor_pair_pair (LHS RHS : APSInt × CaseStmt) : Bool :=
  LHS.1.lt RHS.1

def CaseCompareFunctor_val_pair (LHS : APSInt) (RHS : APSInt × CaseStmt) : Bool :=
  LHS.lt RHS.1

/-- The predicate `CmpCaseVals`. -/
def CmpCaseVals (lhs rhs : APSInt × CaseStmt) : Bool :=
  if lhs.1.lt rhs.1 then true
  else if lhs.1.eq rhs.1 && decide (lhs.2.getCaseLoc < rhs.2.getCaseLoc) then true
  else false

/-- The local state of `ActOnFinishSwitchStmt` after its first loop. -/
structure CaseWalk where
  CaseVals : List (APSInt × CaseStmt)
  CaseRanges : List (APSInt × CaseStmt)
  CaseListIsErroneous : Bool
  Diags : List Diagnostic

/-- The first loop of `ActOnFinishSwitchStmt`: the walk over the case chain, which converts the
low bound of every case to the width and sign of the condition, files it under `CaseVals` or
`CaseRanges`, and reports every default after the first. `TheDefaultStmt` is the default seen
so far. -/
def walkSwitchCases (CondWidth : Nat) (CondIsSigned : Bool) :
    List SwitchCase → Option DefaultStmt → CaseWalk
  | [], _ => ⟨[], [], false, []⟩
  | .Default DS :: SC, TheDefaultStmt =>
    let r := walkSwitchCases CondWidth CondIsSigned SC (some DS)
    match TheDefaultStmt with
    | some Prev =>
      { r with
        Diags := [⟨DS.getDefaultLoc, .err_multiple_default_labels_defined, []⟩,
                  ⟨Prev.getDefaultLoc, .err_first_label, []⟩] ++ r.Diags
        CaseListIsErroneous := true }
    | none => r
  | .Case CS :: SC, TheDefaultStmt =>
    let LoVal := ConvertIntegerToTypeWarnOnOverflow (CS.getLHS.ICE.getD (APSInt.ofWidth 32))
      CondWidth CondIsSigned CS.getLHS.getLocStart .warn_case_value_overflow
    let r := walkSwitchCases CondWidth CondIsSigned SC TheDefaultStmt
    if CS.getRHS.isSome then
      { r with CaseRanges := (LoVal.1, CS) :: r.CaseRanges, Diags := LoVal.2 ++ r.Diags }
    else
      { r with CaseVals := (LoVal.1, CS) :: r.CaseVals, Diags := LoVal.2 ++ r.Diags }

/-- The second loop of `ActOnFinishSwitchStmt`: the scan of the sorted `CaseVals` for equal
neighbours, from index `i` up to `e = CaseVals.size() - 1`. Gives the diagnostics emitted and
whether `CaseListIsErroneous` was set. -/
def scanCaseVals (CaseVals : List (APSInt × CaseStmt)) (e : Nat) :
    Nat → Nat → Option (List Diagnostic × Bool)
  | 0, i => if i = e then some ([], false) else none
  | fuel + 1, i =>
    if i = e then some ([], false)
    else
      match CaseVals[i]?, CaseVals[i + 1]? with
      | some a, some b =>
        match scanCaseVals CaseVals e fuel (i + 1) with
        | none => none
        | some r =>
          if a.1.eq b.1 then
            some ([⟨b.2.getLHS.getLocStart, .err_duplicate_case, [.str a.1.toString]⟩,
                   ⟨a.2.getLHS.getLocStart, .err_duplicate_case_prev, []⟩] ++ r.1, true)
          else some r
      | _, _ => none

/-- The third loop of `ActOnFinishSwitchStmt`: computes the high values and erases the empty
ranges. In the C++ an erasure is followed by `--i, --e; continue` and the `++i` of the loop
header (unsigned arithmetic, so this is well defined also at `i = 0`): `i` stays and `e`
drops by one. Gives the remaining `CaseRanges`, `HiVals` and the diagnostics emitted. -/
def removeEmptyRanges (CondWidth : Nat) (CondIsSigned : Bool) :
    Nat → Nat → Nat → List (APSInt × CaseStmt) →
      Option (List (APSInt × CaseStmt) × List APSInt × List Diagnostic)
  | 0, i, e, CaseRanges => if i = e then some (CaseRanges, [], []) else none
  | fuel + 1, i, e, CaseRanges =>
    if i = e then some (CaseRanges, [], [])
    else
      match CaseRanges[i]? with
      | none => none
      | some CRi =>
        let CR := CRi.2
        match CR.getRHS with
        | none => none
        | some RHS =>
          let HiVal := ConvertIntegerToTypeWarnOnOverflow (RHS.ICE.getD (APSInt.ofWidth 32))
            CondWidth CondIsSigned RHS.getLocStart .warn_case_value_overflow
          if CRi.1.gt HiVal.1 then
            match removeEmptyRanges CondWidth CondIsSigned fuel i (e - 1)
                (CaseRanges.eraseIdx i) with
            | none => none
            | some r =>
              some (r.1, r.2.1,
                HiVal.2 ++ [⟨CR.getLHS.getLocStart, .warn_case_empty_range,
                  [.range CR.getLHS.getLocStart RHS.getLocEnd]⟩] ++ r.2.2)
          else
            match removeEmptyRanges CondWidth CondIsSigned fuel (i + 1) e CaseRanges with
            | none => none
            | some r => some (r.1, HiVal.1 :: r.2.1, HiVal.2 ++ r.2.2)

/-- The first part of the body of the fourth loop of `ActOnFinishSwitchStmt`: the check whether
the case range `[CRLo, CRHi]` overlaps with any singleton case, by the two binary-search
probes. Gives `OverlapVal` and `OverlapStmt` after the two probes. -/
def overlapWithSingletons (CaseVals : List (APSInt × CaseStmt)) (CRLo CRHi : APSInt) :
    Option (APSInt × Option CaseStmt) := do
  let O0 : APSInt × Option CaseStmt := (APSInt.ofWidth 32, none)
  let I ← lower_bound CaseVals 0 CaseVals.length CRLo CaseCompareFunctor_pair_val
  let O1 ←
    if I ≠ CaseVals.length then do
      let p ← CaseVals[I]?
      pure (if p.1.lt CRHi then (p.1, some p.2) else O0)
    else pure O0
  let I2 ← upper_bound CaseVals I CaseVals.length CRHi CaseCompareFunctor_val_pair
  if I2 ≠ 0 then do
    let p ← CaseVals[I2 - 1]?
    pure (if p.1.ge CRLo then (p.1, some p.2) else O1)
  else pure O1

/-- The body of the fourth loop of `ActOnFinishSwitchStmt` up to the report: the overlap checks
of range `i` against the singleton cases and against the range before it, giving the final
`OverlapVal` and `OverlapStmt`. -/
def findOverlap (CaseVals CaseRanges : List (APSInt × CaseStmt)) (HiVals : List APSInt)
    (i : Nat) : Option (APSInt × Option CaseStmt) := do
  let CRi ← CaseRanges[i]?
  let CRLo := CRi.1
  let CRHi ← HiVals[i]?
  let O2 ← overlapWithSingletons CaseVals CRLo CRHi
  if i ≠ 0 then do
    let PrevHi ← HiVals[i - 1]?
    if CRLo.le PrevHi then do
      let Prev ← CaseRanges[i - 1]?
      pure (PrevHi, some Prev.2)
    else pure O2
  else pure O2

/-- The fourth loop of `ActOnFinishSwitchStmt`: the rescan of the ranges for overlap with
singleton values and with the preceding range, from index `i` up to `e`. -/
def rescanCaseRanges (CaseVals CaseRanges : List (APSInt × CaseStmt)) (HiVals : List APSInt)
    (e : Nat) : Nat → Nat → Option (List Diagnostic × Bool)
  | 0, i => if i = e then some ([], false) else none
  | fuel + 1, i =>
    if i = e then some ([], false)
    else
      match CaseRanges[i]?, findOverlap CaseVals CaseRanges HiVals i with
      | some CRi, some (OverlapVal, OverlapStmt) =>
        match rescanCaseRanges CaseVals CaseRanges HiVals e fuel (i + 1) with
        | none => none
        | some r =>
          match OverlapStmt with
          | some O =>
            some ([⟨CRi.2.getLHS.getLocStart, .err_duplicate_case, [.str OverlapVal.toString]⟩,
                   ⟨O.getLHS.getLocStart, .err_duplicate_case_prev, []⟩] ++ r.1, true)
          | none => some r
      | _, _ => none

/-- The block `if (!CaseVals.empty()) { for ... }` of `ActOnFinishSwitchStmt`: the scan of all
the sorted `CaseVals`. -/
def scanAllCaseVals (CaseVals : List (APSInt × CaseStmt)) : Option (List Diagnostic × Bool) :=
  if CaseVals.length ≠ 0 then
    scanCaseVals CaseVals (CaseVals.length - 1) (CaseVals.length - 1) 0
  else some ([], false)

/-- The block `if (!CaseRanges.empty()) { ... }` of `ActOnFinishSwitchStmt`: sorts the case
ranges, removes the empty ones and rescans the rest against the sorted `CaseVals`. -/
def checkCaseRanges (CondWidth : Nat) (CondIsSigned : Bool)
    (CaseVals CaseRanges : List (APSInt × CaseStmt)) : Option (List Diagnostic × Bool) :=
  if CaseRanges.length ≠ 0 then
    let Sorted := stable_sort pair_lt CaseRanges
    match removeEmptyRanges CondWidth CondIsSigned Sorted.length 0 Sorted.length Sorted with
    | none => none
    | some R3 =>
      match rescanCaseRanges CaseVals R3.1 R3.2.1 R3.1.length R3.1.length 0 with
      | none => none
      | some R => some (R3.2.2 ++ R.1, R.2)
  else some ([], false)

/-- The part of `ActOnFinishSwitchStmt` below the integer-type check: the diagnostics emitted
and the final value of `CaseListIsErroneous`. -/
def checkSwitchCases (CondWidth : Nat) (CondIsSigned : Bool) (chain : List SwitchCase) :
    Option (List Diagnostic × Bool) :=
  let W := walkSwitchCases CondWidth CondIsSigned chain none
  let CaseVals := stable_sort CmpCaseVals W.CaseVals
  match scanAllCaseVals CaseVals,
      checkCaseRanges CondWidth CondIsSigned CaseVals W.CaseRanges with
  | some R2, some R4 =>
    some (W.Diags ++ R2.1 ++ R4.1, W.CaseListIsErroneous || R2.2 || R4.2)
  | _, _ => none

/-- The function `Sema::ActOnFinishSwitchStmt`. `Switch` is the address of the switch the
caller finishes; the result is `none` when the stack is empty or the assertion
`switch stack missing push/pop!` fails. -/
def ActOnFinishSwitchStmt (S : Sema) (SwitchLoc : SourceLocation) (Switch : Nat)
    (Body : Nat) : Option (StmtResult × Sema) :=
  let BodyStmt := Body
  match S.SwitchStack.getLast? with
  | none => none
  | some back =>
    if back.addr ≠ Switch then none
    else
      let SS := back.setBody BodyStmt SwitchLoc
      let S1 : Sema := { S with SwitchStack := S.SwitchStack.dropLast }
      let CondExpr := SS.getCond
      let CondType := CondExpr.getType
      if !CondType.isIntegerType then
        some (.invalid, S1.Diag SwitchLoc .err_typecheck_statement_requires_integer
          [.typeName CondType, .range CondExpr.getLocStart CondExpr.getLocEnd])
      else
        let CondWidth := CondType.TypeSize
        let CondIsSigned := CondType.isSignedIntegerType
        match checkSwitchCases CondWidth CondIsSigned SS.getSwitchCaseList with
        | none => none
        | some r =>
          let S2 : Sema := { S1 with Diags := S1.Diags ++ r.1 }
          if r.2 then some (.invalid, S2) else some (.stmt (.Switch SS), S2)

/-- The loop of `ActOnForStmt` over the declarators of the first clause. -/
def checkForDecls (S : Sema) : List ScopedDecl → Sema
  | [] => S
  | D :: rest =>
    let BVD : Bool := D.isBlockVarDecl
    let BVD : Bool := if BVD && !D.hasLocalStorage then false else BVD
    if BVD == false then
      checkForDecls (S.Diag D.getLocation .err_non_variable_decl_in_for []) rest
    else checkForDecls S rest

/-- The function `Sema::ActOnForStmt`; `newFS` is the address returned by `new ForStmt`, and
`DefaultFunctionArrayConversion` the conversion of the expression type checker. -/
def ActOnForStmt (DefaultFunctionArrayConversion : Expr → Expr) (S : Sema) (newFS : Nat)
    (ForLoc LParenLoc : SourceLocation) (first : Option StmtRef) (second third : Option Expr)
    (RParenLoc : SourceLocation) (body : Nat) : StmtResult × Sema :=
  let First := first
  let Third := third
  let Body := body
  let S1 : Sema :=
    match First with
    | some ⟨_, .DeclStmt DS⟩ => checkForDecls S (DS.getDecl :: DS.NextDeclarators)
    | _ => S
  match second with
  | some Sec =>
    let Second := DefaultFunctionArrayConversion Sec
    let SecondType := Second.getType
    if !SecondType.isScalarType then
      (.invalid, S1.Diag ForLoc .err_typecheck_statement_requires_scalar
        [.typeName SecondType, .range Second.getLocStart Second.getLocEnd])
    else (.stmt (.For ⟨newFS, First, some Second, Third, Body, ForLoc⟩), S1)
  | none => (.stmt (.For ⟨newFS, First, none, Third, Body, ForLoc⟩), S1)

/-- The function `Sema::ActOnGotoStmt`; `newLS` is the address returned by `new LabelStmt`
(when it is executed), `newGS` the address returned by `new GotoStmt`. -/
def ActOnGotoStmt (S : Sema) (newLS newGS : Nat) (GotoLoc LabelLoc : SourceLocation)
    (LabelII : IdentifierInfo) : StmtResult × Sema :=
  match S.LabelMap LabelII with
  | none =>
    let LabelDecl : LabelStmt := ⟨newLS, LabelLoc, LabelII, none⟩
    (.stmt (.Goto ⟨newGS, LabelDecl.addr, GotoLoc, LabelLoc⟩),
      { S with LabelMap := Function.update S.LabelMap LabelII (some LabelDecl) })
  | some LabelDecl => (.stmt (.Goto ⟨newGS, LabelDecl.addr, GotoLoc, LabelLoc⟩), S)

/-- The function `Sema::ActOnContinueStmt`; `newCS` is the address returned by
`new ContinueStmt`. -/
def ActOnContinueStmt (S : Sema) (newCS : Nat) (ContinueLoc : SourceLocation)
    (CurScope : Scope) : StmtResult × Sema :=
  match CurScope.getContinueParent with
  | none => (.invalid, S.Diag ContinueLoc .err_continue_not_in_loop [])
  | some _ => (.stmt (.Continue ⟨newCS, ContinueLoc⟩), S)

/-- The function `Sema::ActOnBreakStmt`; `newBS` is the address returned by `new BreakStmt`. -/
def ActOnBreakStmt (S : Sema) (newBS : Nat) (BreakLoc : SourceLocation)
    (CurScope : Scope) : StmtResult × Sema :=
  match CurScope.getBreakParent with
  | none => (.invalid, S.Diag BreakLoc .err_break_not_in_loop_or_switch [])
  | some _ => (.stmt (.Break ⟨newBS, BreakLoc⟩), S)

/-- The function `Sema::ActOnReturnStmt`; `newRS` is the address returned by
`new ReturnStmt`. The collaborators are parameters: `CheckSingleAssignmentConstraints`
classifies the expression against the result type (and gives the expression back, possibly
replaced by its converted form), `CheckReturnStackAddr` is the check for the address of local
storage, given by the diagnostics it emits. The result is `none` when there is neither a
current function nor a current method. -/
def ActOnReturnStmt
    (CheckSingleAssignmentConstraints : QualType → Expr → AssignmentCheckResult × Expr)
    (CheckReturnStackAddr : Expr → QualType → SourceLocation → List Diagnostic)
    (S : Sema) (newRS : Nat) (ReturnLoc : SourceLocation) (rex : Option Expr) :
    Option (StmtResult × Sema) :=
  let RetValExp := rex
  let Cur : Option (QualType × IdentifierInfo) :=
    match S.CurFunctionDecl with
    | some F => some (F.getResultType, F.getName)
    | none =>
      match S.CurMethodDecl with
      | some M => some (M.getResultType, M.getSelectorName)
      | none => none
  match Cur with
  | none => none
  | some (lhsType, funcName) =>
    if lhsType.isVoidType then
      match RetValExp with
      | some E =>
        some (.stmt (.Return ⟨newRS, ReturnLoc, RetValExp⟩),
          S.Diag ReturnLoc .ext_return_has_expr
            [.ident funcName, .range E.getLocStart E.getLocEnd])
      | none => some (.stmt (.Return ⟨newRS, ReturnLoc, RetValExp⟩), S)
    else
      match RetValExp with
      | none =>
        if S.getLangOptions.C99 then
          some (.stmt (.Return ⟨newRS, ReturnLoc, none⟩),
            S.Diag ReturnLoc .ext_return_missing_expr [.ident funcName])
        else
          some (.stmt (.Return ⟨newRS, ReturnLoc, none⟩),
            S.Diag ReturnLoc .warn_return_missing_expr [.ident funcName])
      | some E =>
        let rhsType := E.getType
        let Checked := CheckSingleAssignmentConstraints lhsType E
        let result := Checked.1
        let RetValExp2 := Checked.2
        let Args : List DiagArg :=
          [.typeName lhsType, .typeName rhsType,
           .range RetValExp2.getLocStart RetValExp2.getLocEnd]
        let S1 : Sema :=
          match result with
          | .Compatible => S
          | .Incompatible => S.Diag ReturnLoc .err_typecheck_return_incompatible Args
          | .PointerFromInt => S.Diag ReturnLoc .ext_typecheck_return_pointer_int Args
          | .IntFromPointer => S.Diag ReturnLoc .ext_typecheck_return_pointer_int Args
          | .IncompatiblePointer =>
            S.Diag ReturnLoc .ext_typecheck_return_incompatible_pointer Args
          | .CompatiblePointerDiscardsQualifiers =>
            S.Diag ReturnLoc .ext_typecheck_return_discards_qualifiers Args
        let S2 : Sema :=
          { S1 with Diags := S1.Diags ++ CheckReturnStackAddr RetValExp2 lhsType ReturnLoc }
        some (.stmt (.Return ⟨newRS, ReturnLoc, some RetValExp2⟩), S2)

/-- The first loop of `ActOnAsmStmt`, over the indices of the output operands: `some none`
when every output passes, `some (some d)` when the loop leaves the function with the
diagnostic `d`, `none` when an assertion fails or an array is read beyond its end. -/
def checkAsmOutputs (Target : TargetInfo) (Constraints : List StringLiteral)
    (Exprs : List OperandExpr) : List Nat → Option (Option Diagnostic)
  | [] => some none
  | i :: rest =>
    match Constraints[i]? with
    | none => none
    | some Literal =>
      if Literal.isWide then none
      else
        let OutputConstraint := Literal.getStrData
        if !Target.validateOutputConstraint OutputConstraint then
          some (some ⟨Literal.getLocStart, .err_invalid_output_constraint_in_asm, []⟩)
        else
          match Exprs[i]? with
          | none => none
          | some OutputExpr =>
            let Result := OutputExpr.isLvalue
            if Result ≠ .LV_Valid then
              match OutputExpr with
              | .Paren PE =>
                some (some ⟨PE.getSubExpr.getLocStart, .err_invalid_lvalue_in_asm_output,
                  [.range PE.getSubExpr.getLocStart PE.getSubExpr.getLocEnd]⟩)
              | .NotParen _ _ => none
            else checkAsmOutputs Target Constraints Exprs rest

/-- The second loop of `ActOnAsmStmt`, over the indices of the input operands. -/
def checkAsmInputs (Target : TargetInfo) (NumOutputs : Nat) (Constraints : List StringLiteral)
    (Exprs : List OperandExpr) : List Nat → Option (Option Diagnostic)
  | [] => some none
  | i :: rest =>
    match Constraints[i]? with
    | none => none
    | some Literal =>
      if Literal.isWide then none
      else
        let InputConstraint := Literal.getStrData
        if !Target.validateInputConstraint InputConstraint NumOutputs then
          some (some ⟨Literal.getLocStart, .err_invalid_input_constraint_in_asm, []⟩)
        else
          match Exprs[i]? with
          | none => none
          | some InputExpr =>
            if InputExpr.getType.isVoidType then
              match InputExpr with
              | .Paren PE =>
                some (some ⟨PE.getSubExpr.getLocStart, .err_invalid_type_in_asm_input,
                  [.typeName PE.getType,
                   .range PE.getSubExpr.getLocStart PE.getSubExpr.getLocEnd]⟩)
              | .NotParen _ _ => none
            else checkAsmInputs Target NumOutputs Constraints Exprs rest

/-- The third loop of `ActOnAsmStmt`, over the indices of the clobbers. -/
def checkAsmClobbers (Target : TargetInfo) (Clobbers : List StringLiteral) :
    List Nat → Option (Option Diagnostic)
  | [] => some none
  | i :: rest =>
    match Clobbers[i]? with
    | none => none
    | some Literal =>
      if Literal.isWide then none
      else
        let Clobber := Literal.getStrData
        if !Target.isValidGCCRegisterName Clobber then
          some (some ⟨Literal.getLocStart, .err_unknown_register_name_in_asm, [.cstr Clobber]⟩)
        else checkAsmClobbers Target Clobbers rest

/-- The function `Sema::ActOnAsmStmt`; `Target` is `Context.Target`, `newAS` the address
returned by `new AsmStmt`. The arrays are lists read by index. The result is `none` when an
assertion fails (a wide string literal, an operand that is not a `ParenExpr` where
`cast<ParenExpr>` is applied) or an array is read beyond its end. -/
def ActOnAsmStmt (Target : TargetInfo) (S : Sema) (newAS : Nat) (AsmLoc : SourceLocation)
    (IsVolatile : Bool) (NumOutputs NumInputs : Nat) (Names : List String)
    (Constraints : List StringLiteral) (Exprs : List OperandExpr) (AsmString : StringLiteral)
    (NumClobbers : Nat) (Clobbers : List StringLiteral) (RParenLoc : SourceLocation) :
    Option (StmtResult × Sema) :=
  match checkAsmOutputs Target Constraints Exprs (List.range NumOutputs) with
  | none => none
  | some (some d) => some (.invalid, S.Diag d.Loc d.ID d.Args)
  | some none =>
    match checkAsmInputs Target NumOutputs Constraints Exprs
        (List.range' NumOutputs NumInputs) with
    | none => none
    | some (some d) => some (.invalid, S.Diag d.Loc d.ID d.Args)
    | some none =>
      match checkAsmClobbers Target Clobbers (List.range NumClobbers) with
      | none => none
      | some (some d) => some (.invalid, S.Diag d.Loc d.ID d.Args)
      | some none =>
        some (.stmt (.Asm ⟨newAS, AsmLoc, IsVolatile, NumOutputs, NumInputs, Names, Constraints,
          Exprs, AsmString, NumClobbers, Clobbers, RParenLoc⟩), S)

/-! ## Auxiliary definitions for the statements and proofs -/

/-- The value has width `w` and signedness flag `u`. -/
def APSInt.Shape (w : Nat) (u : Bool) (v : APSInt) : Prop := v.BitWidth = w ∧ v.IsUnsigned = u

instance (w : Nat) (u : Bool) (v : APSInt) : Decidable (APSInt.Shape w u v) :=
  inferInstanceAs (Decidable (v.BitWidth = w ∧ v.IsUnsigned = u))

/-- The list form of the scan of the sorted `CaseVals` for equal neighbours. -/
def adjacentDuplicates : List (APSInt × CaseStmt) → List Diagnostic × Bool
  | a :: b :: rest =>
    if a.1.eq b.1 then
      ([⟨b.2.getLHS.getLocStart, .err_duplicate_case, [.str a.1.toString]⟩,
        ⟨a.2.getLHS.getLocStart, .err_duplicate_case_prev, []⟩] ++
          (adjacentDuplicates (b :: rest)).1, true)
    else adjacentDuplicates (b :: rest)
  | _ => ([], false)

/-- The converted high value of a case range and the diagnostics of the conversion. -/
def HiValOf (CondWidth : Nat) (CondIsSigned : Bool) (CS : CaseStmt) : APSInt × List Diagnostic :=
  match CS.getRHS with
  | some RHS =>
    ConvertIntegerToTypeWarnOnOverflow (RHS.ICE.getD (APSInt.ofWidth 32)) CondWidth CondIsSigned
      RHS.getLocStart .warn_case_value_overflow
  | none => (APSInt.ofWidth 32, [])

/-- The test of the third loop: the low value is bigger than the high value. -/
def isEmptyRange (CondWidth : Nat) (CondIsSigned : Bool) (p : APSInt × CaseStmt) : Bool :=
  p.1.gt (HiValOf CondWidth CondIsSigned p.2).1

/-- The diagnostics the third loop emits for one range. -/
def rangeDiags (CondWidth : Nat) (CondIsSigned : Bool) (p : APSInt × CaseStmt) :
    List Diagnostic :=
  (HiValOf CondWidth CondIsSigned p.2).2 ++
    if isEmptyRange CondWidth CondIsSigned p then
      [⟨p.2.getLHS.getLocStart, .warn_case_empty_range,
        [.range p.2.getLHS.getLocStart ((p.2.getRHS.map Expr.getLocEnd).getD 0)]⟩]
    else []

/-- The list form of the overlap checks of one range: `prev` is the range before it. -/
def overlapOf (w : Nat) (s : Bool) (V : List (APSInt × CaseStmt))
    (prev : Option (APSInt × CaseStmt)) (CRi : APSInt × CaseStmt) :
    Option (APSInt × Option CaseStmt) :=
  (overlapWithSingletons V CRi.1 (HiValOf w s CRi.2).1).map fun O2 =>
    match prev with
    | some P =>
      if CRi.1.le (HiValOf w s P.2).1 then ((HiValOf w s P.2).1, some P.2) else O2
    | none => O2

/-- The list form of the rescan of the ranges. -/
def rescanList (w : Nat) (s : Bool) (V : List (APSInt × CaseStmt)) :
    Option (APSInt × CaseStmt) → List (APSInt × CaseStmt) → Option (List Diagnostic × Bool)
  | _, [] => some ([], false)
  | prev, CRi :: rest =>
    match overlapOf w s V prev CRi, rescanList w s V (some CRi) rest with
    | some O, some r =>
      match O.2 with
      | some OverlapStmt =>
        some ([⟨CRi.2.getLHS.getLocStart, .err_duplicate_case, [.str O.1.toString]⟩,
               ⟨OverlapStmt.getLHS.getLocStart, .err_duplicate_case_prev, []⟩] ++ r.1, true)
      | none => some r
    | _, _ => none

/-- The range before position `i`, if any. -/
def prevRange (Rs : List (APSInt × CaseStmt)) (i : Nat) : Option (APSInt × CaseStmt) :=
  if i = 0 then none else Rs[i - 1]?

/-- The converted low value of a case and the diagnostics of the conversion. -/
def LoValOf (w : Nat) (s : Bool) (CS : CaseStmt) : APSInt × List Diagnostic :=
  ConvertIntegerToTypeWarnOnOverflow (CS.getLHS.ICE.getD (APSInt.ofWidth 32)) w s
    CS.getLHS.getLocStart .warn_case_value_overflow

/-- The scalar cases of a chain with their converted values, in chain order. -/
def caseValsOf (w : Nat) (s : Bool) : List SwitchCase → List (APSInt × CaseStmt)
  | [] => []
  | .Default _ :: SC => caseValsOf w s SC
  | .Case CS :: SC =>
    if CS.getRHS.isSome then caseValsOf w s SC
    else ((LoValOf w s CS).1, CS) :: caseValsOf w s SC

/-- The case ranges of a chain with their converted low values, in chain order. -/
def caseRangesOf (w : Nat) (s : Bool) : List SwitchCase → List (APSInt × CaseStmt)
  | [] => []
  | .Default _ :: SC => caseRangesOf w s SC
  | .Case CS :: SC =>
    if CS.getRHS.isSome then ((LoValOf w s CS).1, CS) :: caseRangesOf w s SC
    else caseRangesOf w s SC

/-- The default labels of a chain, in chain order. -/
def defaultsOf : List SwitchCase → List DefaultStmt
  | [] => []
  | .Default DS :: SC => DS :: defaultsOf SC
  | .Case _ :: SC => defaultsOf SC

/-- The sort key of `CmpCaseVals`. -/
def valKey (p : APSInt × CaseStmt) : Lex (Int × Nat) := toLex (p.1.toInt, p.2.getCaseLoc)

/-- The sort key of the pair comparison. -/
def rangeKey (p : APSInt × CaseStmt) : Lex (Int × Nat) := toLex (p.1.toInt, p.2.addr)

/-- The sorted scalar cases of a chain. -/
def sortedVals (w : Nat) (s : Bool) (chain : List SwitchCase) : List (APSInt × CaseStmt) :=
  stable_sort CmpCaseVals (caseValsOf w s chain)

/-- The sorted non-empty case ranges of a chain. -/
def sortedRanges (w : Nat) (s : Bool) (chain : List SwitchCase) : List (APSInt × CaseStmt) :=
  (stable_sort pair_lt (caseRangesOf w s chain)).filter (fun p => !isEmptyRange w s p)

/-! ## The notions the properties are stated with -/

/-- The number of default labels of a chain. -/
def defaultCount (chain : List SwitchCase) : Nat :=
  chain.countP fun SC =>
    match SC with
    | .Default _ => true
    | .Case _ => false

/-- The value of the bound `E` of a case after its conversion to the type of the condition
(width `w`, signedness `s`), as a mathematical integer. -/
def renormalized (w : Nat) (s : Bool) (E : Expr) : Int :=
  (ConvertIntegerToTypeWarnOnOverflow (E.ICE.getD (APSInt.ofWidth 32)) w s E.getLocStart
    .warn_case_value_overflow).1.toInt

/-- The renormalised values of the scalar cases of a chain (the cases without a high bound), in
chain order. -/
def scalarValues (w : Nat) (s : Bool) (chain : List SwitchCase) : List Int :=
  chain.filterMap fun SC =>
    match SC with
    | .Case CS =>
      match CS.getRHS with
      | none => some (renormalized w s CS.getLHS)
      | some _ => none
    | .Default _ => none

/-- The renormalised bounds `(low, high)` of the case ranges of a chain, in chain order. -/
def rangeBounds (w : Nat) (s : Bool) (chain : List SwitchCase) : List (Int × Int) :=
  chain.filterMap fun SC =>
    match SC with
    | .Case CS =>
      match CS.getRHS with
      | some RHS => some (renormalized w s CS.getLHS, renormalized w s RHS)
      | none => none
    | .Default _ => none

/-- The bounds of the non-empty case ranges of a chain: those with `low ≤ high`. -/
def nonEmptyRanges (w : Nat) (s : Bool) (chain : List SwitchCase) : List (Int × Int) :=
  (rangeBounds w s chain).filter fun r => decide (r.1 ≤ r.2)

/-- The bounds of a case range as integers. -/
def boundsOf (w : Nat) (s : Bool) (p : APSInt × CaseStmt) : Int × Int :=
  (p.1.toInt, (HiValOf w s p.2).1.toInt)

/-- The two diagnostics of a duplicate case: the error at `later`, which names the value of
`earlier`, and the note at `earlier`. -/
def duplicateCaseDiags (earlier later : APSInt × CaseStmt) : List Diagnostic :=
  [⟨later.2.getLHS.getLocStart, .err_duplicate_case, [.str earlier.1.toString]⟩,
   ⟨earlier.2.getLHS.getLocStart, .err_duplicate_case_prev, []⟩]

/-- The diagnostics of the check for multiple default labels: the error and its note. -/
def isMultipleDefaultDiag (d : Diagnostic) : Bool :=
  decide (d.ID = .err_multiple_default_labels_defined) || decide (d.ID = .err_first_label)

/-- The diagnostics of a duplicate case: the error and its note. -/
def isDuplicateCaseDiag (d : Diagnostic) : Bool :=
  decide (d.ID = .err_duplicate_case) || decide (d.ID = .err_duplicate_case_prev)

/-- For the defaults `L` of a chain in chain order: for every default after the first, the
"multiple default labels" error at it and the note at the default before it. -/
def multipleDefaultDiags (L : List DefaultStmt) : List Diagnostic :=
  (L.tail.zip L).flatMap fun cp =>
    [⟨cp.1.getDefaultLoc, .err_multiple_default_labels_defined, []⟩,
     ⟨cp.2.getDefaultLoc, .err_first_label, []⟩]

/-- The node is a case range whose renormalised low bound exceeds its renormalised high
bound. -/
def isEmptyRangeCase (w : Nat) (s : Bool) (SC : SwitchCase) : Bool :=
  match SC with
  | .Case CS =>
    match CS.getRHS with
    | some RHS => decide (renormalized w s RHS < renormalized w s CS.getLHS)
    | none => false
  | .Default _ => false

/-- One label action of the parser within a function body: `goto LabelII;` or the definition
`II: subStmt`, each with the addresses its `new` expressions return. -/
inductive LabelOp where
  | Goto (newLS newGS : Nat) (GotoLoc LabelLoc : SourceLocation) (LabelII : IdentifierInfo)
  | Label (newLS : Nat) (IdentLoc : SourceLocation) (II : IdentifierInfo)
      (ColonLoc : SourceLocation) (subStmt : Nat)
deriving DecidableEq

/-- The identifier a label action is about. -/
def LabelOp.ident : LabelOp → IdentifierInfo
  | .Goto _ _ _ _ X => X
  | .Label _ _ X _ _ => X

/-- Whether the action is a label definition (and not a `goto`). -/
def LabelOp.isLabel : LabelOp → Bool
  | .Goto _ _ _ _ _ => false
  | .Label _ _ _ _ _ => true

/-- The call the parser makes for one label action. -/
def LabelOp.run (S : Sema) : LabelOp → Option (StmtResult × Sema)
  | .Goto newLS newGS GotoLoc LabelLoc LabelII =>
    some (ActOnGotoStmt S newLS newGS GotoLoc LabelLoc LabelII)
  | .Label newLS IdentLoc II ColonLoc subStmt =>
    ActOnLabelStmt S newLS IdentLoc II ColonLoc subStmt

/-- The calls for a sequence of label actions, in order, with the results they return. -/
def runLabelOps (S : Sema) : List LabelOp → Option (List StmtResult × Sema)
  | [] => some ([], S)
  | op :: ops =>
    match op.run S with
    | none => none
    | some R =>
      match runLabelOps R.2 ops with
      | none => none
      | some Rs => some (R.1 :: Rs.1, Rs.2)

/-- The state at function entry: the label map is empty. -/
def Sema.atFunctionEntry (S : Sema) : Sema := { S with LabelMap := fun _ => none }

/-- The condition the assertion `Label mismatch!` checks, for every entry of the label map. -/
def LabelMapConsistent (S : Sema) : Prop :=
  ∀ (X : IdentifierInfo) (L : LabelStmt), S.LabelMap X = some L → L.getID = X

/-- The result type and the name of the function being analysed, as `ActOnReturnStmt` reads them:
from the current function when there is one, from the current method otherwise. -/
def Sema.Cur (S : Sema) : Option (QualType × IdentifierInfo) :=
  match S.CurFunctionDecl with
  | some F => some (F.getResultType, F.getName)
  | none =>
    match S.CurMethodDecl with
    | some M => some (M.getResultType, M.getSelectorName)
    | none => none

/-- The first declaration statement of a list of statements, if any. -/
def firstDecl : List StmtRef → Option DeclStmt
  | [] => none
  | Elt :: rest =>
    match Elt.Class with
    | .DeclStmt DS => some DS
    | _ => firstDecl rest

/-- The first declaration statement of a list of statements that comes after a statement that
is not a declaration, if any. -/
def firstDeclAfterStmt : List StmtRef → Option DeclStmt
  | [] => none
  | Elt :: rest => if Elt.isaDeclStmt then firstDeclAfterStmt rest else firstDecl rest

/-- The end of the block of `ActOnCompoundStmt` on mixed declarations: the declaration
statement at index `i`, `some none` when `i` is `NumElts`, `none` when `Elts[i]` is not a
declaration statement. -/
def declAt (Elts : List StmtRef) (NumElts : Nat) (i : Nat) : Option (Option DeclStmt) :=
  if i ≠ NumElts then
    match Elts[i]? with
    | some ⟨_, .DeclStmt DS⟩ => some (some DS)
    | _ => none
  else some none

/-- A loop over the indices `idxs` whose body either goes on (`some none`), leaves the
function with a diagnostic (`some (some d)`) or fails an assertion (`none`). -/
def loopUntil (body : Nat → Option (Option Diagnostic)) : List Nat → Option (Option Diagnostic)
  | [] => some none
  | i :: rest =>
    match body i with
    | none => none
    | some (some d) => some (some d)
    | some none => loopUntil body rest

/-- The body of the first loop of `ActOnAsmStmt` at index `i`. -/
def asmOutputStep (Target : TargetInfo) (Constraints : List StringLiteral)
    (Exprs : List OperandExpr) (i : Nat) : Option (Option Diagnostic) :=
  match Constraints[i]? with
  | none => none
  | some Literal =>
    if Literal.isWide then none
    else if !Target.validateOutputConstraint Literal.getStrData then
      some (some ⟨Literal.getLocStart, .err_invalid_output_constraint_in_asm, []⟩)
    else
      match Exprs[i]? with
      | none => none
      | some OutputExpr =>
        if OutputExpr.isLvalue ≠ .LV_Valid then
          match OutputExpr with
          | .Paren PE =>
            some (some ⟨PE.getSubExpr.getLocStart, .err_invalid_lvalue_in_asm_output,
              [.range PE.getSubExpr.getLocStart PE.getSubExpr.getLocEnd]⟩)
          | .NotParen _ _ => none
        else some none

/-- The body of the second loop of `ActOnAsmStmt` at index `i`. -/
def asmInputStep (Target : TargetInfo) (NumOutputs : Nat) (Constraints : List StringLiteral)
    (Exprs : List OperandExpr) (i : Nat) : Option (Option Diagnostic) :=
  match Constraints[i]? with
  | none => none
  | some Literal =>
    if Literal.isWide then none
    else if !Target.validateInputConstraint Literal.getStrData NumOutputs then
      some (some ⟨Literal.getLocStart, .err_invalid_input_constraint_in_asm, []⟩)
    else
      match Exprs[i]? with
      | none => none
      | some InputExpr =>
        if InputExpr.getType.isVoidType then
          match InputExpr with
          | .Paren PE =>
            some (some ⟨PE.getSubExpr.getLocStart, .err_invalid_type_in_asm_input,
              [.typeName PE.getType,
               .range PE.getSubExpr.getLocStart PE.getSubExpr.getLocEnd]⟩)
          | .NotParen _ _ => none
        else some none

/-- The body of the third loop of `ActOnAsmStmt` at index `i`. -/
def asmClobberStep (Target : TargetInfo) (Clobbers : List StringLiteral) (i : Nat) :
    Option (Option Diagnostic) :=
  match Clobbers[i]? with
  | none => none
  | some Literal =>
    if Literal.isWide then none
    else if !Target.isValidGCCRegisterName Literal.getStrData then
      some (some ⟨Literal.getLocStart, .err_unknown_register_name_in_asm,
        [.cstr Literal.getStrData]⟩)
    else some none

/-- The two checks of an output operand in the order of the specification, each with its
outcome and the diagnostic of its failure: the constraint, then the lvalue. -/
def outputChecks (Target : TargetInfo) (o : StringLiteral × ParenExpr) :
    List (Bool × Diagnostic) :=
  [(Target.validateOutputConstraint o.1.getStrData,
      ⟨o.1.getLocStart, .err_invalid_output_constraint_in_asm, []⟩),
   (decide (o.2.isLvalue = .LV_Valid),
      ⟨o.2.getSubExpr.getLocStart, .err_invalid_lvalue_in_asm_output,
        [.range o.2.getSubExpr.getLocStart o.2.getSubExpr.getLocEnd]⟩)]

/-- The two checks of an input operand in the order of the specification: the constraint
(given the number of outputs), then the type, which must not be void. -/
def inputChecks (Target : TargetInfo) (NumOutputs : Nat) (o : StringLiteral × ParenExpr) :
    List (Bool × Diagnostic) :=
  [(Target.validateInputConstraint o.1.getStrData NumOutputs,
      ⟨o.1.getLocStart, .err_invalid_input_constraint_in_asm, []⟩),
   (!o.2.getType.isVoidType,
      ⟨o.2.getSubExpr.getLocStart, .err_invalid_type_in_asm_input,
        [.typeName o.2.getType,
         .range o.2.getSubExpr.getLocStart o.2.getSubExpr.getLocEnd]⟩)]

/-- The check of a clobber: it names a valid register. -/
def clobberChecks (Target : TargetInfo) (c : StringLiteral) : List (Bool × Diagnostic) :=
  [(Target.isValidGCCRegisterName c.getStrData,
      ⟨c.getLocStart, .err_unknown_register_name_in_asm, [.cstr c.getStrData]⟩)]

/-- All the checks of an asm statement in the order of the specification: the outputs, the
inputs, the clobbers. -/
def asmChecks (Target : TargetInfo) (Outputs Inputs : List (StringLiteral × ParenExpr))
    (Clobbers : List StringLiteral) : List (Bool × Diagnostic) :=
  Outputs.flatMap (outputChecks Target) ++
    (Inputs.flatMap (inputChecks Target Outputs.length) ++
      Clobbers.flatMap (clobberChecks Target))

/-- The diagnostic of the first check of a list that fails, if any. -/
def firstFailure (checks : List (Bool × Diagnostic)) : Option Diagnostic :=
  (checks.find? (fun c => !c.1)).map (fun c => c.2)

/-! ## Sample inputs -/

/-- A 32-bit signed integer type. -/
def exInt : QualType := ⟨true, true, 32, false, true⟩

/-- A type that is not an integer type. -/
def exFloat : QualType := ⟨false, false, 32, false, true⟩

/-- The integer constant expression `v` of type `int` at location `loc`. -/
def exExpr (v loc : Nat) : Expr := ⟨exInt, some (APSInt.get 32 v false), 0, loc, loc⟩

/-- The node of the scalar case `case v:` allocated at address `a`, at location `10 * a`. -/
def exCaseStmt (a v : Nat) : CaseStmt := ⟨a, exExpr v (10 * a), none, 0, 10 * a⟩

/-- The node of the case range `case lo ... hi:` allocated at address `a`, at location
`10 * a`. -/
def exRangeStmt (a lo hi : Nat) : CaseStmt :=
  ⟨a, exExpr lo (10 * a), some (exExpr hi (10 * a + 1)), 0, 10 * a⟩

/-- The scalar case `case v:` allocated at address `a`, at location `10 * a`. -/
def exScalar (a v : Nat) : SwitchCase := .Case (exCaseStmt a v)

/-- The case range `case lo ... hi:` allocated at address `a`, at location `10 * a`. -/
def exRange (a lo hi : Nat) : SwitchCase := .Case (exRangeStmt a lo hi)

/-- The entry of `CaseVals` for `case v:` allocated at address `a`, on a 32-bit signed
condition. -/
def exVal (a v : Nat) : APSInt × CaseStmt := (APSInt.get 32 v false, exCaseStmt a v)

/-- The entry of `CaseRanges` for `case lo ... hi:` allocated at address `a`, on a 32-bit
signed condition. -/
def exRng (a lo hi : Nat) : APSInt × CaseStmt := (APSInt.get 32 lo false, exRangeStmt a lo hi)

/-- The label `default:` allocated at address `a`, at location `10 * a`. -/
def exDefault (a : Nat) : SwitchCase := .Default ⟨a, 10 * a, 0⟩

/-- An open switch at address 1 on a condition of type `T` with the given chain. -/
def exSwitch (T : QualType) (chain : List SwitchCase) : SwitchStmt :=
  ⟨1, ⟨T, none, 0, 5, 6⟩, chain, none, none⟩

/-- A `Sema` with no open switch that has emitted no diagnostic. -/
def exEmpty : Sema :=
  { SwitchStack := []
    Diags := []
    LabelMap := fun _ => none
    CurFunctionDecl := none
    CurMethodDecl := none
    getLangOptions := ⟨false, false⟩ }

/-- A `Sema` with two nested open switches: the outer one holds `case 4:`, the inner one
`default:`. -/
def exNested : Sema :=
  { exEmpty with SwitchStack := [exSwitch exInt [exScalar 2 4], exSwitch exInt [exDefault 3]] }

/-- A `Sema` whose only open switch is `exSwitch T chain`. -/
def exSema (T : QualType) (chain : List SwitchCase) : Sema :=
  { exEmpty with SwitchStack := [exSwitch T chain] }

/-- The type `void`. -/
def exVoid : QualType := ⟨false, false, 0, true, false⟩

/-- A `Sema` inside the C99 function number 77 with result type `T`. -/
def exInFunction (T : QualType) : Sema :=
  { exEmpty with CurFunctionDecl := some ⟨T, 77⟩, getLangOptions := ⟨true, false⟩ }

/-- The actions for `goto L7; L9: ...; goto L7;`. -/
def exGotos : List LabelOp :=
  [.Goto 100 200 5 6 7, .Label 101 8 9 10 11, .Goto 102 201 12 13 7]

/-- A classifier that gives every expression the classification `r` and leaves it as it is. -/
def exClassify (r : AssignmentCheckResult) : QualType → Expr → AssignmentCheckResult × Expr :=
  fun _ E => (r, E)

/-- A check for the address of local storage that reports nothing. -/
def exNoStackAddr : Expr → QualType → SourceLocation → List Diagnostic :=
  fun _ _ _ => []

/-- A check for the address of local storage that reports every expression it is given. -/
def exStackAddr : Expr → QualType → SourceLocation → List Diagnostic :=
  fun _ _ Loc => [⟨Loc, .warn_ret_stack_addr, []⟩]

/-- Case ranges sorted by low bound in which the first, two consecutive inner ones and the last
are empty: `5...2`, `6...9`, `10...4`, `11...3`, `12...15`, `20...1`. -/
def exRangesWithEmpty : List (APSInt × CaseStmt) :=
  [exRng 1 5 2, exRng 2 6 9, exRng 3 10 4, exRng 4 11 3, exRng 5 12 15, exRng 6 20 1]

/-- A target that accepts the output constraint `=r`, the input constraint `r` and the
register name `memory`. -/
def exTarget : TargetInfo :=
  { validateOutputConstraint := fun c => c == "=r"
    validateInputConstraint := fun c _ => c == "r"
    isValidGCCRegisterName := fun c => c == "memory" }

/-- Two output operands: the second one is not an lvalue. -/
def exOutputs : List (StringLiteral × ParenExpr) :=
  [(⟨false, "=r", 10⟩, ⟨exInt, .LV_Valid, exExpr 1 11⟩),
   (⟨false, "=r", 20⟩, ⟨exInt, .LV_Other 4, exExpr 2 21⟩)]

/-- One input operand, with a constraint the target rejects. -/
def exInputs : List (StringLiteral × ParenExpr) :=
  [(⟨false, "x", 30⟩, ⟨exInt, .LV_Valid, exExpr 3 31⟩)]

/-- One clobber, which is not a register name of the target. -/
def exClobbers : List StringLiteral := [⟨false, "cc", 40⟩]

/-! # Properties -/

/-! ## Values of one shape -/

theorem APSInt.val_lt (v : APSInt) : v.VAL.val < 2 ^ v.BitWidth := v.VAL.isLt

theorem APSInt.two_pow_pred_le (w : Nat) : 2 ^ (w - 1) ≤ 2 ^ w :=
  Nat.pow_le_pow_right (by decide) (Nat.sub_le w 1)

theorem APSInt.lt_eq_toInt {w : Nat} {u : Bool} {a b : APSInt} (ha : a.Shape w u)
    (hb : b.Shape w u) : a.lt b = decide (a.toInt < b.toInt) := by
  obtain ⟨_, ha2⟩ := ha
  obtain ⟨_, hb2⟩ := hb
  cases u <;>
    simp [APSInt.lt, APSInt.toInt, APSInt.ult, APSInt.slt, APSInt.getZExtValue, ha2, hb2]

theorem APSInt.gt_eq_toInt {w : Nat} {u : Bool} {a b : APSInt} (ha : a.Shape w u)
    (hb : b.Shape w u) : a.gt b = decide (b.toInt < a.toInt) := by
  obtain ⟨_, ha2⟩ := ha
  obtain ⟨_, hb2⟩ := hb
  cases u <;>
    simp [APSInt.gt, APSInt.toInt, APSInt.ult, APSInt.slt, APSInt.getZExtValue, ha2, hb2]

theorem APSInt.le_eq_toInt {w : Nat} {u : Bool} {a b : APSInt} (ha : a.Shape w u)
    (hb : b.Shape w u) : a.le b = decide (a.toInt ≤ b.toInt) := by
  obtain ⟨_, ha2⟩ := ha
  obtain ⟨_, hb2⟩ := hb
  rw [Bool.eq_iff_iff]
  cases u <;>
    simp [APSInt.le, APSInt.toInt, APSInt.ult, APSInt.slt, APSInt.getZExtValue, ha2, hb2]

theorem APSInt.ge_eq_toInt {w : Nat} {u : Bool} {a b : APSInt} (ha : a.Shape w u)
    (hb : b.Shape w u) : a.ge b = decide (b.toInt ≤ a.toInt) := by
  obtain ⟨_, ha2⟩ := ha
  obtain ⟨_, hb2⟩ := hb
  rw [Bool.eq_iff_iff]
  cases u <;>
    simp [APSInt.ge, APSInt.toInt, APSInt.ult, APSInt.slt, APSInt.getZExtValue, ha2, hb2]

theorem APSInt.eq_eq_toInt {w : Nat} {u : Bool} {a b : APSInt} (ha : a.Shape w u)
    (hb : b.Shape w u) : a.eq b = decide (a.toInt = b.toInt) := by
  obtain ⟨ha1, ha2⟩ := ha
  obtain ⟨hb1, hb2⟩ := hb
  have hla : a.VAL.val < 2 ^ w := lt_of_lt_of_eq a.val_lt (by rw [ha1])
  have hlb : b.VAL.val < 2 ^ w := lt_of_lt_of_eq b.val_lt (by rw [hb1])
  have hp := APSInt.two_pow_pred_le w
  cases u
  · simp only [APSInt.eq, APSInt.toInt, ha2, hb2, APSInt.getSExtValue, APSInt.isNegative, ha1, hb1,
      Bool.false_eq_true, if_false, decide_eq_true_eq]
    have e : ((2 : Int) ^ w) = ((2 ^ w : Nat) : Int) := by push_cast; rfl
    rw [e]
    generalize 2 ^ w = X at *
    generalize 2 ^ (w - 1) = Y at *
    by_cases h1 : a.VAL.val = b.VAL.val
    · simp [h1]
    · simp only [h1, decide_False]
      symm
      rw [decide_eq_false_iff_not]
      split_ifs <;> omega
  · simp [APSInt.eq, APSInt.toInt, ha2, hb2, APSInt.getZExtValue]

theorem APSInt.extend_BitWidth (v : APSInt) (width : Nat) : (v.extend width).BitWidth = width := by
  unfold APSInt.extend
  split <;> rfl

theorem APSInt.extend_IsUnsigned (v : APSInt) (width : Nat) :
    (v.extend width).IsUnsigned = v.IsUnsigned := by
  unfold APSInt.extend
  split <;> rfl

theorem ConvertIntegerToTypeWarnOnOverflow_shape (Val : APSInt) (NewWidth : Nat)
    (NewSign : Bool) (Loc : SourceLocation) (DiagID : diag) :
    (ConvertIntegerToTypeWarnOnOverflow Val NewWidth NewSign Loc DiagID).1.Shape NewWidth
      (!NewSign) := by
  unfold ConvertIntegerToTypeWarnOnOverflow
  by_cases h1 : NewWidth > Val.getBitWidth
  · simp only [h1, if_true]
    exact ⟨APSInt.extend_BitWidth _ _, rfl⟩
  · by_cases h2 : NewWidth < Val.getBitWidth
    · simp only [h1, h2, if_true, if_false]
      exact ⟨rfl, rfl⟩
    · have hw : Val.BitWidth = NewWidth := by
        unfold APSInt.getBitWidth at h1 h2
        omega
      by_cases h3 : NewSign = Val.isSigned
      · have h4 : (NewSign != Val.isSigned) = false := by simp [h3]
        simp only [h1, h2, h4, if_false, Bool.false_eq_true]
        refine ⟨hw, ?_⟩
        rw [h3]
        simp [APSInt.isSigned]
      · have h4 : (NewSign != Val.isSigned) = true := by simpa using h3
        simp only [h1, h2, h4, if_true, if_false]
        exact ⟨hw, rfl⟩

/-! ## Properties of the stable sort -/

section Sorting

variable {α : Type} {K : Type} [LinearOrder K]

theorem stable_insert_perm (comp : α → α → Bool) (x : α) (l : List α) :
    (stable_insert comp x l).Perm (x :: l) := by
  induction l with
  | nil => exact List.Perm.refl _
  | cons y ys ih =>
    unfold stable_insert
    split
    · exact (List.Perm.cons y ih).trans (List.Perm.swap x y ys)
    · exact List.Perm.refl _

theorem stable_sort_perm (comp : α → α → Bool) (l : List α) : (stable_sort comp l).Perm l := by
  induction l with
  | nil => exact List.Perm.refl _
  | cons x xs ih =>
    unfold stable_sort
    exact (stable_insert_perm comp x _).trans (List.Perm.cons x ih)

theorem stable_sort_mem (comp : α → α → Bool) (l : List α) (a : α) :
    a ∈ stable_sort comp l ↔ a ∈ l :=
  (stable_sort_perm comp l).mem_iff

theorem stable_insert_sorted (k : α → K) (comp : α → α → Bool) (x : α) (l : List α)
    (H : ∀ a ∈ x :: l, ∀ b ∈ x :: l, comp a b = decide (k a < k b))
    (hs : l.Pairwise (fun a b => k a ≤ k b)) :
    (stable_insert comp x l).Pairwise (fun a b => k a ≤ k b) := by
  induction l with
  | nil => simp [stable_insert]
  | cons y ys ih =>
    rw [List.pairwise_cons] at hs
    unfold stable_insert
    have hyx := H y (by simp) x (by simp)
    split
    · rename_i hc
      rw [hyx, decide_eq_true_eq] at hc
      rw [List.pairwise_cons]
      refine ⟨?_, ih ?_ hs.2⟩
      · intro z hz
        rw [(stable_insert_perm comp x ys).mem_iff, List.mem_cons] at hz
        rcases hz with rfl | hz
        · exact le_of_lt hc
        · exact hs.1 z hz
      · intro a ha b hb
        apply H
        · rcases List.mem_cons.1 ha with rfl | h
          · simp
          · simp [h]
        · rcases List.mem_cons.1 hb with rfl | h
          · simp
          · simp [h]
    · rename_i hc
      rw [hyx, decide_eq_true_eq, not_lt] at hc
      rw [List.pairwise_cons, List.pairwise_cons]
      refine ⟨?_, hs⟩
      intro z hz
      rcases List.mem_cons.1 hz with rfl | hz
      · exact hc
      · exact le_trans hc (hs.1 z hz)

theorem stable_sort_sorted (k : α → K) (comp : α → α → Bool) (l : List α)
    (H : ∀ a ∈ l, ∀ b ∈ l, comp a b = decide (k a < k b)) :
    (stable_sort comp l).Pairwise (fun a b => k a ≤ k b) := by
  induction l with
  | nil => simp [stable_sort]
  | cons x xs ih =>
    unfold stable_sort
    apply stable_insert_sorted k
    · intro a ha b hb
      apply H
      · rcases List.mem_cons.1 ha with rfl | h
        · simp
        · exact List.mem_cons_of_mem _ ((stable_sort_mem comp xs a).1 h)
      · rcases List.mem_cons.1 hb with rfl | h
        · simp
        · exact List.mem_cons_of_mem _ ((stable_sort_mem comp xs b).1 h)
    · exact ih (fun a ha b hb => H a (List.mem_cons_of_mem _ ha) b (List.mem_cons_of_mem _ hb))

theorem stable_insert_of_forall (comp : α → α → Bool) (x : α) (l : List α)
    (h : ∀ z ∈ l, comp z x = false) : stable_insert comp x l = x :: l := by
  cases l with
  | nil => rfl
  | cons y ys =>
    unfold stable_insert
    simp [h y (by simp)]

theorem filter_stable_insert (k : α → K) (comp : α → α → Bool) (p : α → Bool) (x : α)
    (l : List α) (H : ∀ a ∈ x :: l, ∀ b ∈ x :: l, comp a b = decide (k a < k b))
    (hs : l.Pairwise (fun a b => k a ≤ k b)) :
    (stable_insert comp x l).filter p =
      if p x then stable_insert comp x (l.filter p) else l.filter p := by
  induction l with
  | nil => by_cases hx : p x <;> simp [stable_insert, hx]
  | cons y ys ih =>
    rw [List.pairwise_cons] at hs
    have hyx := H y (by simp) x (by simp)
    have H2 : ∀ a ∈ x :: ys, ∀ b ∈ x :: ys, comp a b = decide (k a < k b) := by
      intro a ha b hb
      apply H
      · rcases List.mem_cons.1 ha with rfl | h
        · simp
        · simp [h]
      · rcases List.mem_cons.1 hb with rfl | h
        · simp
        · simp [h]
    by_cases hc : comp y x = true
    · have e : stable_insert comp x (y :: ys) = y :: stable_insert comp x ys := by
        simp [stable_insert, hc]
      rw [e]
      by_cases hy : p y = true
      · rw [List.filter_cons_of_pos hy, List.filter_cons_of_pos hy, ih H2 hs.2]
        by_cases hx : p x = true
        · simp [hx, stable_insert, hc]
        · simp [hx]
      · rw [List.filter_cons_of_neg hy, List.filter_cons_of_neg hy, ih H2 hs.2]
    · have e : stable_insert comp x (y :: ys) = x :: y :: ys := by
        simp [stable_insert, hc]
      rw [e]
      rw [hyx, decide_eq_true_eq, not_lt] at hc
      by_cases hx : p x = true
      · rw [List.filter_cons_of_pos hx, if_pos hx, stable_insert_of_forall]
        intro z hz
        have hz2 : z ∈ y :: ys := (List.mem_filter.1 hz).1
        rw [H z (List.mem_cons_of_mem _ hz2) x (by simp), decide_eq_false_iff_not, not_lt]
        rcases List.mem_cons.1 hz2 with rfl | h
        · exact hc
        · exact le_trans hc (hs.1 z h)
      · rw [List.filter_cons_of_neg hx, if_neg hx]

theorem filter_stable_sort (k : α → K) (comp : α → α → Bool) (p : α → Bool) (l : List α)
    (H : ∀ a ∈ l, ∀ b ∈ l, comp a b = decide (k a < k b)) :
    (stable_sort comp l).filter p = stable_sort comp (l.filter p) := by
  induction l with
  | nil => simp [stable_sort]
  | cons x xs ih =>
    have H2 : ∀ a ∈ xs, ∀ b ∈ xs, comp a b = decide (k a < k b) :=
      fun a ha b hb => H a (List.mem_cons_of_mem _ ha) b (List.mem_cons_of_mem _ hb)
    have e : stable_sort comp (x :: xs) = stable_insert comp x (stable_sort comp xs) := rfl
    rw [e, filter_stable_insert k comp p x _ ?_ (stable_sort_sorted k comp xs H2), ih H2]
    · by_cases hx : p x = true
      · rw [if_pos hx, List.filter_cons_of_pos hx]
        rfl
      · rw [if_neg hx, List.filter_cons_of_neg hx]
    · intro a ha b hb
      apply H
      · rcases List.mem_cons.1 ha with rfl | h
        · simp
        · exact List.mem_cons_of_mem _ ((stable_sort_mem comp xs a).1 h)
      · rcases List.mem_cons.1 hb with rfl | h
        · simp
        · exact List.mem_cons_of_mem _ ((stable_sort_mem comp xs b).1 h)

end Sorting

/-! ## Properties of the binary searches -/

section BinarySearch

variable {α β : Type}

theorem lower_bound_loop_spec (A : List α) (value : β) (comp : α → β → Bool)
    (mono : ∀ (i j : Nat) (x y : α), i ≤ j → A[i]? = some x → A[j]? = some y → comp y value = true →
      comp x value = true) :
    ∀ fuel first len, len ≤ fuel → first + len ≤ A.length →
      ∃ r, lower_bound_loop A value comp fuel first len = some r ∧ first ≤ r ∧
        r ≤ first + len ∧
        (∀ i x, first ≤ i → i < r → A[i]? = some x → comp x value = true) ∧
        (∀ i x, r ≤ i → i < first + len → A[i]? = some x → comp x value = false) := by
  intro fuel
  induction fuel with
  | zero =>
    intro first len hl hb
    have h0 : len = 0 := by omega
    subst h0
    refine ⟨first, rfl, le_refl _, le_refl _, ?_, ?_⟩ <;> intro i x h1 h2 <;> omega
  | succ fuel ih =>
    intro first len hl hb
    by_cases h0 : len = 0
    · subst h0
      refine ⟨first, by simp [lower_bound_loop], le_refl _, le_refl _, ?_, ?_⟩ <;>
        intro i x h1 h2 <;> omega
    · have hhalf : len / 2 < len := Nat.div_lt_self (Nat.pos_of_ne_zero h0) (by decide)
      have hm : first + len / 2 < A.length := by omega
      have hget : A[first + len / 2]? = some A[first + len / 2] := List.getElem?_eq_getElem hm
      by_cases hc : comp A[first + len / 2] value = true
      · obtain ⟨r, hr, h1, h2, h3, h4⟩ :=
          ih (first + len / 2 + 1) (len - len / 2 - 1) (by omega) (by omega)
        refine ⟨r, ?_, by omega, by omega, ?_, ?_⟩
        · rw [lower_bound_loop]
          simp only [h0, if_false, hget, hc, if_true]
          exact hr
        · intro i x hi1 hi2 hix
          by_cases hle : i ≤ first + len / 2
          · exact mono i _ x _ hle hix hget hc
          · exact h3 i x (by omega) hi2 hix
        · intro i x hi1 hi2 hix
          exact h4 i x hi1 (by omega) hix
      · obtain ⟨r, hr, h1, h2, h3, h4⟩ := ih first (len / 2) (by omega) (by omega)
        refine ⟨r, ?_, h1, by omega, h3, ?_⟩
        · rw [lower_bound_loop]
          simp only [h0, if_false, hget, hc]
          exact hr
        · intro i x hi1 hi2 hix
          by_cases hlt : i < first + len / 2
          · exact h4 i x hi1 hlt hix
          · by_contra hcon
            have hcon2 : comp x value = true := by simpa using hcon
            exact hc (mono _ i _ x (by omega) hget hix hcon2)

theorem upper_bound_loop_eq (A : List α) (value : β) (comp : β → α → Bool) :
    ∀ fuel first len, upper_bound_loop A value comp fuel first len =
      lower_bound_loop A value (fun x v => !comp v x) fuel first len := by
  intro fuel
  induction fuel with
  | zero => intro first len; rfl
  | succ fuel ih =>
    intro first len
    rw [upper_bound_loop, lower_bound_loop]
    by_cases h0 : len = 0
    · simp [h0]
    · simp only [h0, if_false]
      cases hA : A[first + len / 2]? with
      | none => rfl
      | some m =>
        simp only
        by_cases hc : comp value m = true
        · simp [hc, ih]
        · simp [hc, ih]

theorem lower_bound_spec (A : List α) (value : β) (comp : α → β → Bool) (first : Nat)
    (hf : first ≤ A.length)
    (mono : ∀ (i j : Nat) (x y : α), i ≤ j → A[i]? = some x → A[j]? = some y → comp y value = true →
      comp x value = true) :
    ∃ r, lower_bound A first A.length value comp = some r ∧ first ≤ r ∧ r ≤ A.length ∧
      (∀ i x, first ≤ i → i < r → A[i]? = some x → comp x value = true) ∧
      (∀ i x, r ≤ i → A[i]? = some x → comp x value = false) := by
  obtain ⟨r, hr, h1, h2, h3, h4⟩ :=
    lower_bound_loop_spec A value comp mono (A.length - first) first (A.length - first)
      (le_refl _) (by omega)
  refine ⟨r, hr, h1, by omega, h3, ?_⟩
  intro i x hi hix
  have hlt : i < A.length := by
    by_contra hcon
    rw [List.getElem?_eq_none (by omega)] at hix
    exact Option.noConfusion hix
  exact h4 i x hi (by omega) hix

theorem upper_bound_spec (A : List α) (value : β) (comp : β → α → Bool) (first : Nat)
    (hf : first ≤ A.length)
    (mono : ∀ (i j : Nat) (x y : α), i ≤ j → A[i]? = some x → A[j]? = some y → comp value x = true →
      comp value y = true) :
    ∃ r, upper_bound A first A.length value comp = some r ∧ first ≤ r ∧ r ≤ A.length ∧
      (∀ i x, first ≤ i → i < r → A[i]? = some x → comp value x = false) ∧
      (∀ i x, r ≤ i → A[i]? = some x → comp value x = true) := by
  have mono2 : ∀ (i j : Nat) (x y : α), i ≤ j → A[i]? = some x → A[j]? = some y →
      (fun x v => !comp v x) y value = true → (fun x v => !comp v x) x value = true := by
    intro i j x y hij hx hy h
    simp only [Bool.not_eq_true_eq_eq_false] at h ⊢
    by_contra hcon
    have := mono i j x y hij hx hy (by simpa using hcon)
    rw [h] at this
    exact Bool.noConfusion this
  obtain ⟨r, hr, h1, h2, h3, h4⟩ :=
    lower_bound_spec A value (fun x v => !comp v x) first hf mono2
  refine ⟨r, ?_, h1, h2, ?_, ?_⟩
  · unfold upper_bound
    rw [upper_bound_loop_eq]
    exact hr
  · intro i x a b c
    simpa using h3 i x a b c
  · intro i x a c
    simpa using h4 i x a c

end BinarySearch

/-! ## The overlap probes against the singleton cases -/

theorem sorted_getElem? {α : Type} (k : α → Int) (l : List α)
    (hs : l.Pairwise (fun a b => k a ≤ k b)) :
    ∀ (i j : Nat) (x y : α), i ≤ j → l[i]? = some x → l[j]? = some y → k x ≤ k y := by
  intro i j x y hij hx hy
  obtain ⟨hi, rfl⟩ := List.getElem?_eq_some.1 hx
  obtain ⟨hj, rfl⟩ := List.getElem?_eq_some.1 hy
  rcases Nat.lt_or_eq_of_le hij with h | h
  · exact (List.pairwise_iff_getElem.1 hs) i j hi hj h
  · subst h
    exact le_refl _

theorem overlapWithSingletons_spec (w : Nat) (u : Bool) (V : List (APSInt × CaseStmt))
    (lo hi : APSInt) (hV : ∀ p ∈ V, p.1.Shape w u)
    (hs : V.Pairwise (fun a b => a.1.toInt ≤ b.1.toInt))
    (hlo : lo.Shape w u) (hhi : hi.Shape w u) :
    ∃ r, overlapWithSingletons V lo hi = some r ∧
      (r.2.isSome = true ↔ ∃ p ∈ V, lo.toInt ≤ p.1.toInt ∧ p.1.toInt ≤ hi.toInt) ∧
      (∀ O, r.2 = some O → (r.1, O) ∈ V ∧ lo.toInt ≤ r.1.toInt ∧ r.1.toInt ≤ hi.toInt) := by
  have hidx := sorted_getElem? (fun p : APSInt × CaseStmt => p.1.toInt) V hs
  have hsh : ∀ (i : Nat) (x : APSInt × CaseStmt), V[i]? = some x → x.1.Shape w u :=
    fun i x h => hV x (List.getElem?_mem h)
  obtain ⟨I, hI, _, hIle, hI1, hI2⟩ :=
    lower_bound_spec V lo CaseCompareFunctor_pair_val 0 (Nat.zero_le _) (by
      intro i j x y hij hx hy h
      unfold CaseCompareFunctor_pair_val at h ⊢
      rw [APSInt.lt_eq_toInt (hsh _ _ hy) hlo, decide_eq_true_eq] at h
      rw [APSInt.lt_eq_toInt (hsh _ _ hx) hlo, decide_eq_true_eq]
      exact lt_of_le_of_lt (hidx i j x y hij hx hy) h)
  obtain ⟨J, hJ, hJge, hJle, hJ1, hJ2⟩ :=
    upper_bound_spec V hi CaseCompareFunctor_val_pair I hIle (by
      intro i j x y hij hx hy h
      unfold CaseCompareFunctor_val_pair at h ⊢
      rw [APSInt.lt_eq_toInt hhi (hsh _ _ hx), decide_eq_true_eq] at h
      rw [APSInt.lt_eq_toInt hhi (hsh _ _ hy), decide_eq_true_eq]
      exact lt_of_lt_of_le h (hidx i j x y hij hx hy))
  have kI1 : ∀ (i : Nat) (x : APSInt × CaseStmt), i < I → V[i]? = some x →
      x.1.toInt < lo.toInt := by
    intro i x hi hx
    have := hI1 i x (Nat.zero_le _) hi hx
    unfold CaseCompareFunctor_pair_val at this
    rwa [APSInt.lt_eq_toInt (hsh _ _ hx) hlo, decide_eq_true_eq] at this
  have kI2 : ∀ (i : Nat) (x : APSInt × CaseStmt), I ≤ i → V[i]? = some x →
      lo.toInt ≤ x.1.toInt := by
    intro i x hi hx
    have := hI2 i x hi hx
    unfold CaseCompareFunctor_pair_val at this
    rwa [APSInt.lt_eq_toInt (hsh _ _ hx) hlo, decide_eq_false_iff_not, not_lt] at this
  have kJ1 : ∀ (i : Nat) (x : APSInt × CaseStmt), I ≤ i → i < J → V[i]? = some x →
      x.1.toInt ≤ hi.toInt := by
    intro i x hi1 hi2 hx
    have := hJ1 i x hi1 hi2 hx
    unfold CaseCompareFunctor_val_pair at this
    rwa [APSInt.lt_eq_toInt hhi (hsh _ _ hx), decide_eq_false_iff_not, not_lt] at this
  have kJ2 : ∀ (i : Nat) (x : APSInt × CaseStmt), J ≤ i → V[i]? = some x →
      hi.toInt < x.1.toInt := by
    intro i x hi1 hx
    have := hJ2 i x hi1 hx
    unfold CaseCompareFunctor_val_pair at this
    rwa [APSInt.lt_eq_toInt hhi (hsh _ _ hx), decide_eq_true_eq] at this
  have tail : ∀ y : APSInt × Option CaseStmt,
      (∀ O, y.2 = some O → (y.1, O) ∈ V ∧ lo.toInt ≤ y.1.toInt ∧ y.1.toInt ≤ hi.toInt) →
      ∃ r, ((upper_bound V I V.length hi CaseCompareFunctor_val_pair).bind fun I2 =>
          if I2 ≠ 0 then
            V[I2 - 1]?.bind fun p => pure (if p.1.ge lo = true then (p.1, some p.2) else y)
          else pure y) = some r ∧
        (r.2.isSome = true ↔ ∃ p ∈ V, lo.toInt ≤ p.1.toInt ∧ p.1.toInt ≤ hi.toInt) ∧
        (∀ O, r.2 = some O → (r.1, O) ∈ V ∧ lo.toInt ≤ r.1.toInt ∧ r.1.toInt ≤ hi.toInt) := by
    intro y hy
    simp only [hJ, Option.some_bind]
    have hex : (∃ p ∈ V, lo.toInt ≤ p.1.toInt ∧ p.1.toInt ≤ hi.toInt) →
        ∃ (j : Nat) (p : APSInt × CaseStmt), V[j]? = some p ∧ I ≤ j ∧ j < J := by
      rintro ⟨p, hp, h1, h2⟩
      obtain ⟨j, hj⟩ := List.mem_iff_getElem?.1 hp
      refine ⟨j, p, hj, ?_, ?_⟩
      · by_contra hcon
        have := kI1 j p (by omega) hj
        omega
      · by_contra hcon
        have := kJ2 j p (by omega) hj
        omega
    have ysome : y.2.isSome = true →
        ∃ p ∈ V, lo.toInt ≤ p.1.toInt ∧ p.1.toInt ≤ hi.toInt := by
      intro h
      obtain ⟨O, hO⟩ := Option.isSome_iff_exists.1 h
      exact ⟨(y.1, O), (hy O hO).1, (hy O hO).2⟩
    by_cases hJ0 : J = 0
    · refine ⟨y, by simp [hJ0], ⟨ysome, ?_⟩, hy⟩
      intro h
      obtain ⟨j, p, _, _, h3⟩ := hex h
      omega
    · have hlt : J - 1 < V.length := by omega
      have hq : V[J - 1]? = some V[J - 1] := List.getElem?_eq_getElem hlt
      simp only [ne_eq, hJ0, not_false_eq_true, if_true, hq, Option.some_bind, Option.pure_def]
      by_cases hge : (V[J - 1]).1.ge lo = true
      · simp only [hge, if_true]
        have hge2 := hge
        rw [APSInt.ge_eq_toInt (hsh _ _ hq) hlo, decide_eq_true_eq] at hge2
        have hIJ : I ≤ J - 1 := by
          by_contra hcon
          have := kI1 (J - 1) _ (by omega) hq
          omega
        have hle := kJ1 (J - 1) _ hIJ (by omega) hq
        have hmem : V[J - 1] ∈ V := List.getElem?_mem hq
        refine ⟨_, rfl, ⟨fun _ => ⟨_, hmem, hge2, hle⟩, fun _ => rfl⟩, ?_⟩
        intro O hO
        simp only [Option.some.injEq] at hO
        subst hO
        exact ⟨hmem, hge2, hle⟩
      · simp only [hge, if_false, Bool.false_eq_true]
        refine ⟨y, rfl, ⟨ysome, ?_⟩, hy⟩
        intro h
        obtain ⟨j, p, hj, h2, h3⟩ := hex h
        exfalso
        apply hge
        rw [APSInt.ge_eq_toInt (hsh _ _ hq) hlo, decide_eq_true_eq]
        exact kI2 (J - 1) _ (by omega) hq
  unfold overlapWithSingletons
  simp only [hI, Option.bind_eq_bind, Option.some_bind]
  by_cases hIn : I = V.length
  · simp only [hIn, ne_eq, not_true_eq_false, if_false, Option.pure_def, Option.some_bind]
    rw [hIn] at tail
    exact tail _ (fun O hO => Option.noConfusion hO)
  · have hlt : I < V.length := by omega
    have hq : V[I]? = some V[I] := List.getElem?_eq_getElem hlt
    simp only [ne_eq, hIn, not_false_eq_true, if_true, hq, Option.some_bind, Option.pure_def]
    apply tail
    intro O hO
    by_cases hl : (V[I]).1.lt hi = true
    · simp only [hl, if_true, Option.some.injEq] at hO ⊢
      subst hO
      rw [APSInt.lt_eq_toInt (hsh _ _ hq) hhi, decide_eq_true_eq] at hl
      exact ⟨List.getElem?_mem hq, kI2 I _ (le_refl _) hq, le_of_lt hl⟩
    · simp only [hl, if_false, Bool.false_eq_true] at hO
      exact Option.noConfusion hO

/-! ## The loops in list form -/

theorem scanCaseVals_eq (L : List (APSInt × CaseStmt)) :
    ∀ fuel i, i + fuel + 1 = L.length →
      scanCaseVals L (L.length - 1) fuel i = some (adjacentDuplicates (L.drop i)) := by
  intro fuel
  induction fuel with
  | zero =>
    intro i h
    have hi : i < L.length := by omega
    have e : i = L.length - 1 := by omega
    rw [scanCaseVals, if_pos e, List.drop_eq_getElem_cons hi, List.drop_eq_nil_of_le (by omega)]
    rfl
  | succ fuel ih =>
    intro i h
    have hi : i < L.length := by omega
    have hi1 : i + 1 < L.length := by omega
    have e : ¬ i = L.length - 1 := by omega
    rw [scanCaseVals, if_neg e, List.getElem?_eq_getElem hi, List.getElem?_eq_getElem hi1]
    simp only
    rw [ih (i + 1) (by omega), List.drop_eq_getElem_cons hi, List.drop_eq_getElem_cons hi1]
    simp only [adjacentDuplicates]
    split <;> rfl

theorem removeEmptyRanges_eq (w : Nat) (s : Bool) :
    ∀ (todo done : List (APSInt × CaseStmt)), (∀ p ∈ todo, p.2.getRHS.isSome = true) →
      removeEmptyRanges w s todo.length done.length (done ++ todo).length (done ++ todo) =
        some (done ++ todo.filter (fun p => !isEmptyRange w s p),
          (todo.filter (fun p => !isEmptyRange w s p)).map (fun p => (HiValOf w s p.2).1),
          todo.flatMap (rangeDiags w s)) := by
  intro todo
  induction todo with
  | nil =>
    intro done _
    simp [removeEmptyRanges]
  | cons x xs ih =>
    intro done h
    obtain ⟨RHS, hR⟩ := Option.isSome_iff_exists.1 (h x (by simp))
    have hne : ¬ done.length = (done ++ x :: xs).length := by simp
    have hget : (done ++ x :: xs)[done.length]? = some x := by
      rw [List.getElem?_append_right (le_refl _)]
      simp
    rw [List.length_cons, removeEmptyRanges, if_neg hne, hget]
    simp only [hR]
    have hHi : ConvertIntegerToTypeWarnOnOverflow (RHS.ICE.getD (APSInt.ofWidth 32)) w s
        RHS.getLocStart .warn_case_value_overflow = HiValOf w s x.2 := by
      simp [HiValOf, hR]
    rw [hHi]
    by_cases hg : x.1.gt (HiValOf w s x.2).1 = true
    · have he : isEmptyRange w s x = true := hg
      have e1 : (done ++ x :: xs).eraseIdx done.length = done ++ xs := by
        rw [List.eraseIdx_append_of_length_le (le_refl _)]
        simp
      have e2 : (done ++ x :: xs).length - 1 = (done ++ xs).length := by simp
      rw [if_pos hg, e1, e2, ih done (fun p hp => h p (List.mem_cons_of_mem _ hp))]
      simp [rangeDiags, he, hR]
    · have he : isEmptyRange w s x = false := by simpa [isEmptyRange] using hg
      have e1 : done ++ x :: xs = (done ++ [x]) ++ xs := by simp
      have e2 : done.length + 1 = (done ++ [x]).length := by simp
      rw [if_neg hg, e2]
      conv_lhs => rw [e1]
      rw [ih (done ++ [x]) (fun p hp => h p (List.mem_cons_of_mem _ hp))]
      simp [rangeDiags, he, hR]

theorem findOverlap_eq (w : Nat) (s : Bool) (V Rs : List (APSInt × CaseStmt)) (i : Nat)
    (hi : i < Rs.length) :
    findOverlap V Rs (Rs.map (fun p => (HiValOf w s p.2).1)) i =
      overlapOf w s V (prevRange Rs i) Rs[i] := by
  unfold findOverlap overlapOf prevRange
  simp only [List.getElem?_eq_getElem hi, List.getElem?_map, Option.bind_eq_bind,
    Option.some_bind, Option.map_some']
  cases overlapWithSingletons V Rs[i].1 (HiValOf w s Rs[i].2).1 with
  | none => rfl
  | some O2 =>
    simp only [Option.some_bind, Option.map_some']
    by_cases h0 : i = 0
    · simp [h0]
    · have hi1 : i - 1 < Rs.length := by omega
      simp only [ne_eq, h0, not_false_eq_true, if_true, List.getElem?_eq_getElem hi1,
        Option.map_some', Option.some_bind, if_false]
      split <;> simp

theorem rescanCaseRanges_eq (w : Nat) (s : Bool) (V Rs : List (APSInt × CaseStmt)) :
    ∀ fuel i, i + fuel = Rs.length →
      rescanCaseRanges V Rs (Rs.map (fun p => (HiValOf w s p.2).1)) Rs.length fuel i =
        rescanList w s V (prevRange Rs i) (Rs.drop i) := by
  intro fuel
  induction fuel with
  | zero =>
    intro i h
    have e : i = Rs.length := by omega
    rw [rescanCaseRanges, if_pos e, List.drop_eq_nil_of_le (by omega)]
    rfl
  | succ fuel ih =>
    intro i h
    have hi : i < Rs.length := by omega
    have e : ¬ i = Rs.length := by omega
    have hp : prevRange Rs (i + 1) = some Rs[i] := by
      simp [prevRange, List.getElem?_eq_getElem hi]
    rw [rescanCaseRanges, if_neg e, List.getElem?_eq_getElem hi, findOverlap_eq w s V Rs i hi,
      ih (i + 1) (by omega), List.drop_eq_getElem_cons hi, rescanList, hp]
    cases overlapOf w s V (prevRange Rs i) Rs[i] with
    | none => rfl
    | some O =>
      cases rescanList w s V (some Rs[i]) (List.drop (i + 1) Rs) with
      | none => rfl
      | some r =>
        obtain ⟨OV, OS⟩ := O
        cases OS <;> rfl

/-! ## The first loop -/

theorem LoValOf_shape (w : Nat) (s : Bool) (CS : CaseStmt) : (LoValOf w s CS).1.Shape w (!s) :=
  ConvertIntegerToTypeWarnOnOverflow_shape _ _ _ _ _

theorem HiValOf_shape (w : Nat) (s : Bool) (CS : CaseStmt) (h : CS.getRHS.isSome = true) :
    (HiValOf w s CS).1.Shape w (!s) := by
  obtain ⟨R, hR⟩ := Option.isSome_iff_exists.1 h
  unfold HiValOf
  rw [hR]
  exact ConvertIntegerToTypeWarnOnOverflow_shape _ _ _ _ _

theorem walk_CaseVals (w : Nat) (s : Bool) (chain : List SwitchCase) :
    ∀ d, (walkSwitchCases w s chain d).CaseVals = caseValsOf w s chain := by
  induction chain with
  | nil => intro d; rfl
  | cons SC rest ih =>
    intro d
    cases SC with
    | Default DS =>
      cases d <;> simp [walkSwitchCases, caseValsOf, ih]
    | Case CS =>
      by_cases h : CS.getRHS.isSome = true <;>
        simp [walkSwitchCases, caseValsOf, ih, h, LoValOf]

theorem walk_CaseRanges (w : Nat) (s : Bool) (chain : List SwitchCase) :
    ∀ d, (walkSwitchCases w s chain d).CaseRanges = caseRangesOf w s chain := by
  induction chain with
  | nil => intro d; rfl
  | cons SC rest ih =>
    intro d
    cases SC with
    | Default DS =>
      cases d <;> simp [walkSwitchCases, caseRangesOf, ih]
    | Case CS =>
      by_cases h : CS.getRHS.isSome = true <;>
        simp [walkSwitchCases, caseRangesOf, ih, h, LoValOf]

theorem caseValsOf_shape (w : Nat) (s : Bool) (chain : List SwitchCase) :
    ∀ p ∈ caseValsOf w s chain, p.1.Shape w (!s) := by
  induction chain with
  | nil => intro p hp; cases hp
  | cons SC rest ih =>
    intro p hp
    cases SC with
    | Default DS => exact ih p hp
    | Case CS =>
      unfold caseValsOf at hp
      split at hp
      · exact ih p hp
      · rcases List.mem_cons.1 hp with rfl | h
        · exact LoValOf_shape w s CS
        · exact ih p h

theorem caseRangesOf_shape (w : Nat) (s : Bool) (chain : List SwitchCase) :
    ∀ p ∈ caseRangesOf w s chain, p.1.Shape w (!s) ∧ p.2.getRHS.isSome = true := by
  induction chain with
  | nil => intro p hp; cases hp
  | cons SC rest ih =>
    intro p hp
    cases SC with
    | Default DS => exact ih p hp
    | Case CS =>
      unfold caseRangesOf at hp
      split at hp
      · rename_i hsome
        rcases List.mem_cons.1 hp with rfl | h
        · exact ⟨LoValOf_shape w s CS, hsome⟩
        · exact ih p h
      · exact ih p hp

theorem CmpCaseVals_key {w : Nat} {u : Bool} {a b : APSInt × CaseStmt} (ha : a.1.Shape w u)
    (hb : b.1.Shape w u) : CmpCaseVals a b = decide (valKey a < valKey b) := by
  unfold CmpCaseVals valKey
  rw [APSInt.lt_eq_toInt ha hb, APSInt.eq_eq_toInt ha hb, Bool.eq_iff_iff]
  simp only [Prod.Lex.lt_iff, decide_eq_true_eq]
  by_cases h1 : a.1.toInt < b.1.toInt
  · simp [h1]
  · by_cases h2 : a.1.toInt = b.1.toInt <;> simp [h1, h2]

theorem pair_lt_key {w : Nat} {u : Bool} {a b : APSInt × CaseStmt} (ha : a.1.Shape w u)
    (hb : b.1.Shape w u) : pair_lt a b = decide (rangeKey a < rangeKey b) := by
  unfold pair_lt rangeKey
  rw [APSInt.lt_eq_toInt ha hb, APSInt.lt_eq_toInt hb ha, Bool.eq_iff_iff]
  simp only [Prod.Lex.lt_iff, decide_eq_true_eq, Bool.or_eq_true, Bool.and_eq_true,
    Bool.not_eq_true', decide_eq_false_iff_not, not_lt]
  constructor
  · rintro (h | ⟨h1, h2⟩)
    · exact Or.inl h
    · rcases lt_or_eq_of_le h1 with h | h
      · exact Or.inl h
      · exact Or.inr ⟨h, h2⟩
  · rintro (h | ⟨h1, h2⟩)
    · exact Or.inl h
    · exact Or.inr ⟨le_of_eq h1, h2⟩

theorem sorted_caseVals (w : Nat) (s : Bool) (chain : List SwitchCase) :
    (stable_sort CmpCaseVals (caseValsOf w s chain)).Pairwise
      (fun a b => a.1.toInt ≤ b.1.toInt) := by
  have h := stable_sort_sorted valKey CmpCaseVals (caseValsOf w s chain)
    (fun a ha b hb => CmpCaseVals_key (caseValsOf_shape w s chain a ha)
      (caseValsOf_shape w s chain b hb))
  refine h.imp ?_
  intro a b hab
  have := (Prod.Lex.le_iff (toLex (a.1.toInt, a.2.getCaseLoc))
    (toLex (b.1.toInt, b.2.getCaseLoc))).1 hab
  rcases this with h1 | ⟨h1, _⟩
  · exact le_of_lt h1
  · exact le_of_eq h1

theorem sorted_caseRanges (w : Nat) (s : Bool) (chain : List SwitchCase) :
    (stable_sort pair_lt (caseRangesOf w s chain)).Pairwise
      (fun a b => a.1.toInt ≤ b.1.toInt) := by
  have h := stable_sort_sorted rangeKey pair_lt (caseRangesOf w s chain)
    (fun a ha b hb => pair_lt_key (caseRangesOf_shape w s chain a ha).1
      (caseRangesOf_shape w s chain b hb).1)
  refine h.imp ?_
  intro a b hab
  have := (Prod.Lex.le_iff (toLex (a.1.toInt, a.2.addr))
    (toLex (b.1.toInt, b.2.addr))).1 hab
  rcases this with h1 | ⟨h1, _⟩
  · exact le_of_lt h1
  · exact le_of_eq h1

/-! ## The fourth loop -/

theorem rescanList_spec (w : Nat) (s : Bool) (V : List (APSInt × CaseStmt))
    (hV : ∀ p ∈ V, p.1.Shape w (!s))
    (hs : V.Pairwise (fun a b => a.1.toInt ≤ b.1.toInt)) :
    ∀ (Rs : List (APSInt × CaseStmt)) (prev : Option (APSInt × CaseStmt)),
      (∀ p ∈ Rs, p.1.Shape w (!s) ∧ p.2.getRHS.isSome = true) →
      (∀ P, prev = some P → P.2.getRHS.isSome = true) →
      Rs.Pairwise (fun a b => a.1.toInt ≤ b.1.toInt) →
      ∃ r, rescanList w s V prev Rs = some r ∧
        (r.2 = true ↔
          (∃ R ∈ Rs, ∃ p ∈ V, R.1.toInt ≤ p.1.toInt ∧
            p.1.toInt ≤ (HiValOf w s R.2).1.toInt) ∨
          ¬ (prev.toList ++ Rs).Pairwise
            (fun a b => (HiValOf w s a.2).1.toInt < b.1.toInt)) := by
  intro Rs
  induction Rs with
  | nil =>
    intro prev _ _ _
    refine ⟨([], false), rfl, ?_⟩
    cases prev <;> simp
  | cons R rest ih =>
    intro prev hR hP hsR
    rw [List.pairwise_cons] at hsR
    have hRR := hR R (by simp)
    obtain ⟨O2, hO2, hiff, _⟩ := overlapWithSingletons_spec w (!s) V R.1 (HiValOf w s R.2).1
      hV hs hRR.1 (HiValOf_shape w s R.2 hRR.2)
    obtain ⟨r2, hr2, hiff2⟩ := ih (some R) (fun p hp => hR p (List.mem_cons_of_mem _ hp))
      (fun P hPe => by cases hPe; exact hRR.2) hsR.2
    simp only [Option.toList_some, List.singleton_append] at hiff2
    have hscal : (∃ R2 ∈ R :: rest, ∃ p ∈ V, R2.1.toInt ≤ p.1.toInt ∧
        p.1.toInt ≤ (HiValOf w s R2.2).1.toInt) ↔
        (O2.2.isSome = true ∨ ∃ R2 ∈ rest, ∃ p ∈ V, R2.1.toInt ≤ p.1.toInt ∧
          p.1.toInt ≤ (HiValOf w s R2.2).1.toInt) := by
      rw [hiff]
      simp only [List.mem_cons, exists_eq_or_imp]
    rw [rescanList]
    unfold overlapOf
    rw [hO2, hr2]
    simp only [Option.map_some']
    cases prev with
    | none =>
      simp only [Option.toList_none, List.nil_append]
      rw [hscal]
      cases hO : O2.2 with
      | none =>
        refine ⟨r2, rfl, ?_⟩
        rw [hiff2]
        simp
      | some OS =>
        refine ⟨_, rfl, ?_⟩
        simp
    | some P =>
      have hPP := hP P rfl
      have hle := APSInt.le_eq_toInt hRR.1 (HiValOf_shape w s P.2 hPP)
      simp only [Option.toList_some, List.singleton_append]
      have hpw : List.Pairwise (fun a b => (HiValOf w s a.2).1.toInt < b.1.toInt)
          (P :: R :: rest) ↔ ((HiValOf w s P.2).1.toInt < R.1.toInt ∧
            List.Pairwise (fun a b => (HiValOf w s a.2).1.toInt < b.1.toInt) (R :: rest)) := by
        rw [List.pairwise_cons]
        constructor
        · rintro ⟨h1, h2⟩
          exact ⟨h1 R (by simp), h2⟩
        · rintro ⟨h1, h2⟩
          refine ⟨?_, h2⟩
          intro c hc
          rcases List.mem_cons.1 hc with rfl | hc
          · exact h1
          · exact lt_of_lt_of_le h1 (hsR.1 c hc)
      rw [hpw, hscal]
      by_cases hl : R.1.le (HiValOf w s P.2).1 = true
      · simp only [hl, if_true]
        refine ⟨_, rfl, ?_⟩
        rw [hle, decide_eq_true_eq] at hl
        simp only [true_iff]
        right
        intro hcon
        omega
      · simp only [hl, if_false, Bool.false_eq_true]
        rw [hle, decide_eq_true_eq, not_le] at hl
        cases hO : O2.2 with
        | none =>
          refine ⟨r2, rfl, ?_⟩
          rw [hiff2]
          simp [hl]
        | some OS =>
          refine ⟨_, rfl, ?_⟩
          simp

/-! ## The whole check in list form -/

theorem sortedVals_shape (w : Nat) (s : Bool) (chain : List SwitchCase) :
    ∀ p ∈ sortedVals w s chain, p.1.Shape w (!s) :=
  fun p hp => caseValsOf_shape w s chain p ((stable_sort_mem _ _ p).1 hp)

theorem sortedRanges_shape (w : Nat) (s : Bool) (chain : List SwitchCase) :
    ∀ p ∈ sortedRanges w s chain, p.1.Shape w (!s) ∧ p.2.getRHS.isSome = true :=
  fun p hp => caseRangesOf_shape w s chain p
    ((stable_sort_mem _ _ p).1 (List.mem_filter.1 hp).1)

theorem sortedRanges_sorted (w : Nat) (s : Bool) (chain : List SwitchCase) :
    (sortedRanges w s chain).Pairwise (fun a b => a.1.toInt ≤ b.1.toInt) :=
  (sorted_caseRanges w s chain).filter _

theorem scanAllCaseVals_eq (V : List (APSInt × CaseStmt)) :
    scanAllCaseVals V = some (adjacentDuplicates V) := by
  unfold scanAllCaseVals
  by_cases h0 : V.length = 0
  · have : V = [] := List.length_eq_zero.1 h0
    subst this
    rfl
  · rw [if_pos h0, scanCaseVals_eq V (V.length - 1) 0 (by omega)]
    rfl

theorem checkCaseRanges_eq (w : Nat) (s : Bool) (V CR : List (APSInt × CaseStmt))
    (hCR : ∀ p ∈ CR, p.2.getRHS.isSome = true) :
    checkCaseRanges w s V CR =
      (rescanList w s V none ((stable_sort pair_lt CR).filter (fun p => !isEmptyRange w s p))).map
        (fun r => ((stable_sort pair_lt CR).flatMap (rangeDiags w s) ++ r.1, r.2)) := by
  unfold checkCaseRanges
  by_cases h0 : CR.length = 0
  · have e : CR = [] := List.length_eq_zero.1 h0
    subst e
    rfl
  · have hrem := removeEmptyRanges_eq w s (stable_sort pair_lt CR) []
      (fun p hp => hCR p ((stable_sort_mem _ _ p).1 hp))
    simp only [List.nil_append, List.length_nil] at hrem
    rw [if_pos h0]
    simp only [hrem]
    have hres := rescanCaseRanges_eq w s V
      ((stable_sort pair_lt CR).filter (fun p => !isEmptyRange w s p))
      ((stable_sort pair_lt CR).filter (fun p => !isEmptyRange w s p)).length 0 (by omega)
    simp only [prevRange, if_true, List.drop_zero] at hres
    rw [hres]
    cases rescanList w s V none ((stable_sort pair_lt CR).filter (fun p => !isEmptyRange w s p))
      <;> rfl

theorem checkSwitchCases_eq (w : Nat) (s : Bool) (chain : List SwitchCase) :
    ∃ r, rescanList w s (sortedVals w s chain) none (sortedRanges w s chain) = some r ∧
      (r.2 = true ↔
        (∃ R ∈ sortedRanges w s chain, ∃ p ∈ sortedVals w s chain, R.1.toInt ≤ p.1.toInt ∧
          p.1.toInt ≤ (HiValOf w s R.2).1.toInt) ∨
        ¬ (sortedRanges w s chain).Pairwise
          (fun a b => (HiValOf w s a.2).1.toInt < b.1.toInt)) ∧
      checkSwitchCases w s chain = some
        ((walkSwitchCases w s chain none).Diags ++
            (adjacentDuplicates (sortedVals w s chain)).1 ++
          ((stable_sort pair_lt (caseRangesOf w s chain)).flatMap (rangeDiags w s) ++ r.1),
        (walkSwitchCases w s chain none).CaseListIsErroneous ||
          (adjacentDuplicates (sortedVals w s chain)).2 || r.2) := by
  obtain ⟨r, hr, hiff⟩ := rescanList_spec w s (sortedVals w s chain) (sortedVals_shape w s chain)
    (sorted_caseVals w s chain) (sortedRanges w s chain) none (sortedRanges_shape w s chain)
    (fun P hP => Option.noConfusion hP) (sortedRanges_sorted w s chain)
  refine ⟨r, hr, hiff, ?_⟩
  unfold checkSwitchCases
  simp only [walk_CaseVals, walk_CaseRanges]
  rw [scanAllCaseVals_eq, checkCaseRanges_eq w s _ _
    (fun p hp => (caseRangesOf_shape w s chain p hp).2)]
  unfold sortedVals sortedRanges at hr
  rw [hr]
  rfl

theorem ActOnFinishSwitchStmt_eq (S : Sema) (rest : List SwitchStmt) (SS : SwitchStmt)
    (SwitchLoc Body : Nat) (hS : S.SwitchStack = rest ++ [SS])
    (hInt : SS.getCond.getType.isIntegerType = true) (D : List Diagnostic) (flag : Bool)
    (hc : checkSwitchCases SS.getCond.getType.TypeSize SS.getCond.getType.isSignedIntegerType
      SS.getSwitchCaseList = some (D, flag)) :
    ActOnFinishSwitchStmt S SwitchLoc SS.addr Body =
      some (if flag then .invalid else .stmt (.Switch (SS.setBody Body SwitchLoc)),
        { S with SwitchStack := rest, Diags := S.Diags ++ D }) := by
  unfold ActOnFinishSwitchStmt
  simp only [hS, List.getLast?_concat, List.dropLast_concat, ne_eq, not_true_eq_false, if_false,
    SwitchStmt.setBody, hInt, Bool.not_true, Bool.false_eq_true, hc]
  cases flag <;> rfl

/-! ## The flags of the three checks -/

theorem defaultsOf_length (chain : List SwitchCase) :
    (defaultsOf chain).length = defaultCount chain := by
  induction chain with
  | nil => rfl
  | cons SC rest ih =>
    cases SC with
    | Case CS =>
      unfold defaultCount at ih ⊢
      simp [defaultsOf, ih]
    | Default DS =>
      unfold defaultCount at ih ⊢
      simp [defaultsOf, ih]

theorem walk_err (w : Nat) (s : Bool) (chain : List SwitchCase) :
    ∀ d : Option DefaultStmt, (walkSwitchCases w s chain d).CaseListIsErroneous =
      decide (2 ≤ (d.toList ++ defaultsOf chain).length) := by
  induction chain with
  | nil =>
    intro d
    cases d <;> simp [walkSwitchCases, defaultsOf]
  | cons SC rest ih =>
    intro d
    cases SC with
    | Default DS =>
      cases d with
      | none => simp [walkSwitchCases, defaultsOf, ih]
      | some Prev => simp [walkSwitchCases, defaultsOf]
    | Case CS =>
      by_cases h : CS.getRHS.isSome = true <;> simp [walkSwitchCases, defaultsOf, ih, h]

theorem walk_err_iff (w : Nat) (s : Bool) (chain : List SwitchCase) :
    (walkSwitchCases w s chain none).CaseListIsErroneous = true ↔ 2 ≤ defaultCount chain := by
  rw [walk_err, decide_eq_true_eq, ← defaultsOf_length]
  simp

theorem adjacentDuplicates_flag (w : Nat) (u : Bool) :
    ∀ L : List (APSInt × CaseStmt), (∀ p ∈ L, p.1.Shape w u) →
      L.Pairwise (fun a b => a.1.toInt ≤ b.1.toInt) →
      ((adjacentDuplicates L).2 = true ↔ ¬ (L.map (fun p => p.1.toInt)).Nodup) := by
  intro L
  induction L with
  | nil => intro _ _; simp [adjacentDuplicates]
  | cons a t ih =>
    intro hsh hs
    cases t with
    | nil => simp [adjacentDuplicates]
    | cons b rest =>
      have hs2 := hs
      rw [List.pairwise_cons] at hs2
      have ih2 := ih (fun p hp => hsh p (List.mem_cons_of_mem _ hp)) hs2.2
      have heq := APSInt.eq_eq_toInt (hsh a (by simp)) (hsh b (by simp))
      rw [adjacentDuplicates]
      by_cases he : a.1.eq b.1 = true
      · rw [if_pos he]
        rw [heq, decide_eq_true_eq] at he
        simp only [List.map_cons, List.nodup_cons, true_iff]
        intro hcon
        exact hcon.1 (by rw [he]; exact List.mem_cons_self _ _)
      · rw [if_neg he, ih2]
        rw [heq, decide_eq_true_eq] at he
        have hlt : a.1.toInt < b.1.toInt := lt_of_le_of_ne (hs2.1 b (by simp)) he
        have hnot : a.1.toInt ∉ (b :: rest).map (fun p => p.1.toInt) := by
          intro hmem
          obtain ⟨c, hc, hce⟩ := List.mem_map.1 hmem
          have h1 : b.1.toInt ≤ c.1.toInt := by
            rcases List.mem_cons.1 hc with rfl | hc2
            · exact le_refl _
            · exact (List.pairwise_cons.1 hs2.2).1 c hc2
          have hce2 : c.1.toInt = a.1.toInt := hce
          omega
        simp only [List.map_cons, List.nodup_cons] at hnot ⊢
        constructor
        · intro h hcon
          exact h hcon.2
        · intro h hcon
          exact h ⟨hnot, hcon⟩

theorem caseValsOf_map (w : Nat) (s : Bool) (chain : List SwitchCase) :
    (caseValsOf w s chain).map (fun p => p.1.toInt) = scalarValues w s chain := by
  induction chain with
  | nil => rfl
  | cons SC rest ih =>
    cases SC with
    | Default DS =>
      unfold scalarValues at ih ⊢
      simp [caseValsOf, ih]
    | Case CS =>
      unfold scalarValues at ih ⊢
      cases h : CS.getRHS with
      | none => simp [caseValsOf, h, ih, LoValOf, renormalized]
      | some R => simp [caseValsOf, h, ih]

theorem caseRangesOf_map (w : Nat) (s : Bool) (chain : List SwitchCase) :
    (caseRangesOf w s chain).map (boundsOf w s) = rangeBounds w s chain := by
  induction chain with
  | nil => rfl
  | cons SC rest ih =>
    cases SC with
    | Default DS =>
      unfold rangeBounds at ih ⊢
      simp [caseRangesOf, ih]
    | Case CS =>
      unfold rangeBounds at ih ⊢
      cases h : CS.getRHS with
      | none => simp [caseRangesOf, h, ih]
      | some R => simp [caseRangesOf, h, ih, LoValOf, HiValOf, renormalized, boundsOf]

theorem isEmptyRange_iff (w : Nat) (s : Bool) (p : APSInt × CaseStmt) (h1 : p.1.Shape w (!s))
    (h2 : p.2.getRHS.isSome = true) :
    (!isEmptyRange w s p) = decide ((boundsOf w s p).1 ≤ (boundsOf w s p).2) := by
  unfold isEmptyRange boundsOf
  rw [APSInt.gt_eq_toInt h1 (HiValOf_shape w s p.2 h2), Bool.eq_iff_iff]
  simp

theorem sortedVals_perm (w : Nat) (s : Bool) (chain : List SwitchCase) :
    ((sortedVals w s chain).map (fun p => p.1.toInt)).Perm (scalarValues w s chain) := by
  rw [← caseValsOf_map]
  exact (stable_sort_perm _ _).map _

theorem sortedRanges_perm (w : Nat) (s : Bool) (chain : List SwitchCase) :
    ((sortedRanges w s chain).map (boundsOf w s)).Perm (nonEmptyRanges w s chain) := by
  unfold nonEmptyRanges sortedRanges
  rw [← caseRangesOf_map, List.filter_map]
  refine List.Perm.map _ ?_
  refine ((stable_sort_perm pair_lt (caseRangesOf w s chain)).filter _).trans ?_
  refine List.Perm.of_eq ?_
  apply List.filter_congr
  intro p hp
  exact isEmptyRange_iff w s p (caseRangesOf_shape w s chain p hp).1
    (caseRangesOf_shape w s chain p hp).2

theorem sortedRanges_nonEmpty (w : Nat) (s : Bool) (chain : List SwitchCase) :
    ∀ p ∈ sortedRanges w s chain, (boundsOf w s p).1 ≤ (boundsOf w s p).2 := by
  intro p hp
  have h := (List.mem_filter.1 hp).2
  rw [isEmptyRange_iff w s p (sortedRanges_shape w s chain p hp).1
    (sortedRanges_shape w s chain p hp).2] at h
  exact of_decide_eq_true h

theorem sep_iff_disjoint (w : Nat) (s : Bool) (L : List (APSInt × CaseStmt))
    (hs : L.Pairwise (fun a b => a.1.toInt ≤ b.1.toInt))
    (hne : ∀ p ∈ L, (boundsOf w s p).1 ≤ (boundsOf w s p).2) :
    L.Pairwise (fun a b => (HiValOf w s a.2).1.toInt < b.1.toInt) ↔
      (L.map (boundsOf w s)).Pairwise (fun a b => a.2 < b.1 ∨ b.2 < a.1) := by
  rw [List.pairwise_map]
  have hs2 : L.Pairwise (fun a b => a.1.toInt ≤ b.1.toInt ∧
      (boundsOf w s b).1 ≤ (boundsOf w s b).2) :=
    hs.imp_of_mem (fun {a b} _ hb hab => ⟨hab, hne b hb⟩)
  constructor
  · intro h
    exact h.imp (fun {a b} hab => Or.inl hab)
  · intro h
    refine List.Pairwise.imp₂ ?_ h hs2
    intro a b hab hsab
    unfold boundsOf at hab hsab
    simp only at hab hsab
    rcases hab with h1 | h1
    · exact h1
    · omega

theorem checkSwitchCases_flag (w : Nat) (s : Bool) (chain : List SwitchCase) :
    ∃ D flag, checkSwitchCases w s chain = some (D, flag) ∧
      (flag = false ↔
        defaultCount chain ≤ 1 ∧ (scalarValues w s chain).Nodup ∧
        (∀ v ∈ scalarValues w s chain, ∀ r ∈ nonEmptyRanges w s chain,
          ¬ (r.1 ≤ v ∧ v ≤ r.2)) ∧
        (nonEmptyRanges w s chain).Pairwise (fun a b => a.2 < b.1 ∨ b.2 < a.1)) := by
  obtain ⟨r, _, hiff, hc⟩ := checkSwitchCases_eq w s chain
  refine ⟨_, _, hc, ?_⟩
  have hW : (walkSwitchCases w s chain none).CaseListIsErroneous = false ↔
      defaultCount chain ≤ 1 := by
    rw [← Bool.not_eq_true, walk_err_iff]
    omega
  have hA : (adjacentDuplicates (sortedVals w s chain)).2 = false ↔
      (scalarValues w s chain).Nodup := by
    rw [← Bool.not_eq_true, adjacentDuplicates_flag w (!s) _ (sortedVals_shape w s chain)
      (sorted_caseVals w s chain), not_not]
    exact (sortedVals_perm w s chain).nodup_iff
  have hmemV : ∀ v, v ∈ scalarValues w s chain ↔
      ∃ p ∈ sortedVals w s chain, p.1.toInt = v := by
    intro v
    rw [← (sortedVals_perm w s chain).mem_iff, List.mem_map]
  have hmemR : ∀ x, x ∈ nonEmptyRanges w s chain ↔
      ∃ R ∈ sortedRanges w s chain, boundsOf w s R = x := by
    intro x
    rw [← (sortedRanges_perm w s chain).mem_iff, List.mem_map]
  have hB : (sortedRanges w s chain).Pairwise
      (fun a b => (HiValOf w s a.2).1.toInt < b.1.toInt) ↔
      (nonEmptyRanges w s chain).Pairwise (fun a b => a.2 < b.1 ∨ b.2 < a.1) := by
    rw [sep_iff_disjoint w s _ (sortedRanges_sorted w s chain) (sortedRanges_nonEmpty w s chain)]
    exact (sortedRanges_perm w s chain).pairwise_iff (fun {x y} h => h.symm)
  have hR : r.2 = false ↔
      (∀ v ∈ scalarValues w s chain, ∀ x ∈ nonEmptyRanges w s chain,
        ¬ (x.1 ≤ v ∧ v ≤ x.2)) ∧
      (nonEmptyRanges w s chain).Pairwise (fun a b => a.2 < b.1 ∨ b.2 < a.1) := by
    rw [← Bool.not_eq_true, hiff, not_or, not_not, hB]
    refine and_congr ?_ Iff.rfl
    constructor
    · intro h v hv x hx hcon
      obtain ⟨p, hp, rfl⟩ := (hmemV v).1 hv
      obtain ⟨R, hR, rfl⟩ := (hmemR x).1 hx
      exact h ⟨R, hR, p, hp, hcon⟩
    · rintro h ⟨R, hR, p, hp, hcon⟩
      exact h _ ((hmemV _).2 ⟨p, hp, rfl⟩) _ ((hmemR _).2 ⟨R, hR, rfl⟩) hcon
  rw [Bool.or_eq_false_iff, Bool.or_eq_false_iff, hW, hA, hR, and_assoc]

/-! ## The diagnostics of the scan for duplicates -/

theorem adjacentDuplicates_diags (w : Nat) (u : Bool) :
    ∀ L : List (APSInt × CaseStmt), (∀ p ∈ L, p.1.Shape w u) →
      (adjacentDuplicates L).1 =
        ((L.zip L.tail).filter (fun ab => decide (ab.1.1.toInt = ab.2.1.toInt))).flatMap
          (fun ab => duplicateCaseDiags ab.1 ab.2) := by
  intro L
  induction L with
  | nil => intro _; rfl
  | cons a t ih =>
    intro hsh
    cases t with
    | nil => rfl
    | cons b rest =>
      have ih2 := ih (fun p hp => hsh p (List.mem_cons_of_mem _ hp))
      have heq := APSInt.eq_eq_toInt (hsh a (by simp)) (hsh b (by simp))
      rw [adjacentDuplicates, heq]
      simp only [List.tail_cons, List.zip_cons_cons] at ih2 ⊢
      by_cases he : a.1.toInt = b.1.toInt
      · rw [List.filter_cons_of_pos (by simpa using he)]
        simp only [he, decide_True, if_true, List.flatMap_cons, ih2]
        rfl
      · rw [List.filter_cons_of_neg (by simpa using he)]
        simp only [he, decide_False, Bool.false_eq_true, if_false, ih2]

theorem adjacentDuplicates_count (w : Nat) (u : Bool) :
    ∀ L : List (APSInt × CaseStmt), (∀ p ∈ L, p.1.Shape w u) →
      L.Pairwise (fun a b => a.1.toInt ≤ b.1.toInt) →
      (adjacentDuplicates L).1.countP (fun d => decide (d.ID = .err_duplicate_case)) +
        (L.map (fun p => p.1.toInt)).dedup.length = L.length := by
  intro L
  induction L with
  | nil => intro _ _; rfl
  | cons a t ih =>
    intro hsh hs
    cases t with
    | nil => rfl
    | cons b rest =>
      have hs2 := hs
      rw [List.pairwise_cons] at hs2
      have ih2 := ih (fun p hp => hsh p (List.mem_cons_of_mem _ hp)) hs2.2
      have heq := APSInt.eq_eq_toInt (hsh a (by simp)) (hsh b (by simp))
      rw [adjacentDuplicates]
      by_cases he : a.1.eq b.1 = true
      · rw [if_pos he]
        rw [heq, decide_eq_true_eq] at he
        have hmem : a.1.toInt ∈ (b :: rest).map (fun p => p.1.toInt) := by
          rw [he]
          exact List.mem_map_of_mem _ (List.mem_cons_self _ _)
        rw [List.map_cons, List.dedup_cons_of_mem hmem]
        simp only [List.cons_append, List.nil_append, List.countP_cons, decide_True, if_true,
          List.length_cons, decide_False, Bool.false_eq_true, if_false, add_zero,
          reduceCtorEq] at ih2 ⊢
        omega
      · rw [if_neg he]
        rw [heq, decide_eq_true_eq] at he
        have hnot : a.1.toInt ∉ (b :: rest).map (fun p => p.1.toInt) := by
          intro hmem
          obtain ⟨c, hc, hce⟩ := List.mem_map.1 hmem
          have h1 : b.1.toInt ≤ c.1.toInt := by
            rcases List.mem_cons.1 hc with rfl | hc2
            · exact le_refl _
            · exact (List.pairwise_cons.1 hs2.2).1 c hc2
          have h2 : a.1.toInt ≤ b.1.toInt := hs2.1 b (by simp)
          have hce2 : c.1.toInt = a.1.toInt := hce
          omega
        rw [List.map_cons, List.dedup_cons_of_not_mem hnot]
        simp only [List.length_cons] at ih2 ⊢
        omega

theorem nodup_iff_dedup_length (l : List Int) : l.Nodup ↔ l.dedup.length = l.length := by
  constructor
  · intro h
    rw [h.dedup]
  · intro h
    exact List.dedup_eq_self.1 ((List.dedup_sublist l).eq_of_length h)

/-! ## Neighbouring ranges -/

theorem not_pairwise_sep_iff_intersect (w : Nat) (s : Bool) (Rs : List (APSInt × CaseStmt))
    (hRs : Rs.Pairwise (fun a b => a.1.toInt ≤ b.1.toInt))
    (hne : ∀ p ∈ Rs, p.1.toInt ≤ (HiValOf w s p.2).1.toInt) :
    ¬ Rs.Pairwise (fun a b => (HiValOf w s a.2).1.toInt < b.1.toInt) ↔
      ∃ (i j : Nat) (a b : APSInt × CaseStmt), i < j ∧ Rs[i]? = some a ∧ Rs[j]? = some b ∧
        a.1.toInt ≤ (HiValOf w s b.2).1.toInt ∧ b.1.toInt ≤ (HiValOf w s a.2).1.toInt := by
  constructor
  · intro h
    by_contra hcon
    apply h
    rw [List.pairwise_iff_getElem]
    intro i j hi hj hij
    by_contra hlt
    apply hcon
    refine ⟨i, j, Rs[i], Rs[j], hij, List.getElem?_eq_getElem hi, List.getElem?_eq_getElem hj,
      ?_, by omega⟩
    have h1 := (List.pairwise_iff_getElem.1 hRs) i j hi hj hij
    have h2 := hne Rs[j] (List.getElem_mem hj)
    omega
  · rintro ⟨i, j, a, b, hij, ha, hb, _, h2⟩ hpw
    obtain ⟨hi, rfl⟩ := List.getElem?_eq_some.1 ha
    obtain ⟨hj, rfl⟩ := List.getElem?_eq_some.1 hb
    have := (List.pairwise_iff_getElem.1 hpw) i j hi hj hij
    omega

theorem adjacent_iff_not_pairwise_sep (w : Nat) (s : Bool) :
    ∀ Rs : List (APSInt × CaseStmt), Rs.Pairwise (fun a b => a.1.toInt ≤ b.1.toInt) →
      ((∃ (i : Nat) (a b : APSInt × CaseStmt), Rs[i]? = some a ∧ Rs[i + 1]? = some b ∧
          b.1.toInt ≤ (HiValOf w s a.2).1.toInt) ↔
        ¬ Rs.Pairwise (fun a b => (HiValOf w s a.2).1.toInt < b.1.toInt)) := by
  intro Rs
  induction Rs with
  | nil =>
    intro _
    simp
  | cons a t ih =>
    intro hRs
    rw [List.pairwise_cons] at hRs
    have ih2 := ih hRs.2
    constructor
    · rintro ⟨i, x, y, hx, hy, hxy⟩ hpw
      obtain ⟨hi, rfl⟩ := List.getElem?_eq_some.1 hx
      obtain ⟨hj, rfl⟩ := List.getElem?_eq_some.1 hy
      have := (List.pairwise_iff_getElem.1 hpw) i (i + 1) hi hj (Nat.lt_succ_self i)
      omega
    · intro hpw
      rw [List.pairwise_cons, not_and_or] at hpw
      rcases hpw with h | h
      · cases t with
        | nil => simp at h
        | cons b rest =>
          refine ⟨0, a, b, rfl, by simp, ?_⟩
          by_contra hcon
          apply h
          intro c hc
          have h1 : b.1.toInt ≤ c.1.toInt := by
            rcases List.mem_cons.1 hc with rfl | hc2
            · exact le_refl _
            · exact (List.pairwise_cons.1 hRs.2).1 c hc2
          omega
      · obtain ⟨i, x, y, hx, hy, hxy⟩ := ih2.2 h
        exact ⟨i + 1, x, y, by simpa using hx, by simpa using hy, hxy⟩

theorem ActOnFinishSwitchStmt_not_integer (S : Sema) (rest : List SwitchStmt)
    (SS : SwitchStmt) (SwitchLoc Body : Nat) (hS : S.SwitchStack = rest ++ [SS])
    (hNot : SS.getCond.getType.isIntegerType = false) :
    ActOnFinishSwitchStmt S SwitchLoc SS.addr Body =
      some (.invalid,
        { S with
          SwitchStack := rest
          Diags := S.Diags ++
            [⟨SwitchLoc, .err_typecheck_statement_requires_integer,
              [.typeName SS.getCond.getType,
               .range SS.getCond.getLocStart SS.getCond.getLocEnd]⟩] }) := by
  unfold ActOnFinishSwitchStmt
  simp only [hS, List.getLast?_concat, List.dropLast_concat, ne_eq, not_true_eq_false, if_false,
    SwitchStmt.setBody, hNot, Bool.not_false, if_true, Sema.Diag]

/-! ## The kinds of the diagnostics of each loop -/

theorem Convert_diag_ID (Val : APSInt) (NewWidth : Nat) (NewSign : Bool) (Loc : SourceLocation)
    (DiagID : diag) :
    ∀ d ∈ (ConvertIntegerToTypeWarnOnOverflow Val NewWidth NewSign Loc DiagID).2,
      d.ID = DiagID := by
  intro d hd
  unfold ConvertIntegerToTypeWarnOnOverflow at hd
  split_ifs at hd <;> simp at hd <;> rw [hd.2]

theorem walk_Diags_ID (w : Nat) (s : Bool) (chain : List SwitchCase) :
    ∀ (d0 : Option DefaultStmt), ∀ d ∈ (walkSwitchCases w s chain d0).Diags,
      d.ID = .err_multiple_default_labels_defined ∨ d.ID = .err_first_label ∨
        d.ID = .warn_case_value_overflow := by
  induction chain with
  | nil =>
    intro d0 d hd
    simp [walkSwitchCases] at hd
  | cons SC rest ih =>
    intro d0 d hd
    cases SC with
    | Default DS =>
      cases d0 with
      | none => exact ih _ d (by simpa [walkSwitchCases] using hd)
      | some Prev =>
        simp only [walkSwitchCases, List.cons_append, List.nil_append, List.mem_cons] at hd
        rcases hd with rfl | rfl | hd
        · exact Or.inl rfl
        · exact Or.inr (Or.inl rfl)
        · exact ih _ d hd
    | Case CS =>
      have hd2 : d ∈ (LoValOf w s CS).2 ++ (walkSwitchCases w s rest d0).Diags := by
        by_cases h : CS.getRHS.isSome = true <;>
          simpa [walkSwitchCases, h, LoValOf] using hd
      rcases List.mem_append.1 hd2 with h | h
      · exact Or.inr (Or.inr (Convert_diag_ID _ _ _ _ _ d h))
      · exact ih _ d h

theorem adjacentDuplicates_ID :
    ∀ L : List (APSInt × CaseStmt), ∀ d ∈ (adjacentDuplicates L).1,
      d.ID = .err_duplicate_case ∨ d.ID = .err_duplicate_case_prev := by
  intro L
  induction L with
  | nil => intro d hd; simp [adjacentDuplicates] at hd
  | cons a t ih =>
    cases t with
    | nil => intro d hd; simp [adjacentDuplicates] at hd
    | cons b rest =>
      intro d hd
      rw [adjacentDuplicates] at hd
      split at hd
      · simp only [List.cons_append, List.nil_append, List.mem_cons] at hd
        rcases hd with rfl | rfl | hd
        · exact Or.inl rfl
        · exact Or.inr rfl
        · exact ih d hd
      · exact ih d hd

theorem rangeDiags_ID (w : Nat) (s : Bool) (p : APSInt × CaseStmt) :
    ∀ d ∈ rangeDiags w s p, d.ID = .warn_case_value_overflow ∨ d.ID = .warn_case_empty_range := by
  intro d hd
  unfold rangeDiags at hd
  rcases List.mem_append.1 hd with h | h
  · left
    unfold HiValOf at h
    split at h
    · exact Convert_diag_ID _ _ _ _ _ d h
    · simp at h
  · right
    split at h
    · simp only [List.mem_singleton] at h
      rw [h]
    · simp at h

theorem rescanList_ID (w : Nat) (s : Bool) (V : List (APSInt × CaseStmt)) :
    ∀ (Rs : List (APSInt × CaseStmt)) (prev : Option (APSInt × CaseStmt))
      (r : List Diagnostic × Bool), rescanList w s V prev Rs = some r →
      ∀ d ∈ r.1, d.ID = .err_duplicate_case ∨ d.ID = .err_duplicate_case_prev := by
  intro Rs
  induction Rs with
  | nil =>
    intro prev r hr d hd
    simp only [rescanList, Option.some.injEq] at hr
    subst hr
    simp at hd
  | cons R rest ih =>
    intro prev r hr d hd
    rw [rescanList] at hr
    cases hO : overlapOf w s V prev R with
    | none => simp [hO] at hr
    | some O =>
      cases hr2 : rescanList w s V (some R) rest with
      | none => simp [hO, hr2] at hr
      | some r2 =>
        simp only [hO, hr2] at hr
        cases hOS : O.2 with
        | none =>
          simp only [hOS, Option.some.injEq] at hr
          subst hr
          exact ih _ _ hr2 d hd
        | some OS =>
          simp only [hOS, Option.some.injEq] at hr
          subst hr
          simp only [List.cons_append, List.nil_append, List.mem_cons] at hd
          rcases hd with rfl | rfl | hd
          · exact Or.inl rfl
          · exact Or.inr rfl
          · exact ih _ _ hr2 d hd

theorem rescanList_reports (w : Nat) (s : Bool) (V : List (APSInt × CaseStmt)) :
    ∀ (Rs : List (APSInt × CaseStmt)) (prev : Option (APSInt × CaseStmt))
      (r : List Diagnostic × Bool), rescanList w s V prev Rs = some r →
      ∀ (i : Nat) (P R : APSInt × CaseStmt), (prev.toList ++ Rs)[i]? = some P →
        (prev.toList ++ Rs)[i + 1]? = some R → R.1.le (HiValOf w s P.2).1 = true →
        ∃ D1 D2, r.1 = D1 ++
          [⟨R.2.getLHS.getLocStart, .err_duplicate_case, [.str (HiValOf w s P.2).1.toString]⟩,
           ⟨P.2.getLHS.getLocStart, .err_duplicate_case_prev, []⟩] ++ D2 := by
  intro Rs
  induction Rs with
  | nil =>
    intro prev r _ i P R hP hR _
    cases prev with
    | none => simp at hP
    | some P0 => simp at hR
  | cons R0 rest ih =>
    intro prev r hr i P R hP hR hle
    rw [rescanList] at hr
    cases hO : overlapOf w s V prev R0 with
    | none => simp [hO] at hr
    | some O =>
      cases hr2 : rescanList w s V (some R0) rest with
      | none => simp [hO, hr2] at hr
      | some r2 =>
        simp only [hO, hr2] at hr
        have htail : ∀ (j : Nat), (R0 :: rest)[j]? = some P → (R0 :: rest)[j + 1]? = some R →
            ∃ D1 D2, r.1 = D1 ++
              [⟨R.2.getLHS.getLocStart, .err_duplicate_case,
                [.str (HiValOf w s P.2).1.toString]⟩,
               ⟨P.2.getLHS.getLocStart, .err_duplicate_case_prev, []⟩] ++ D2 := by
          intro j hjP hjR
          obtain ⟨D1, D2, hD⟩ := ih (some R0) r2 hr2 j P R (by simpa using hjP)
            (by simpa using hjR) hle
          cases hOS : O.2 with
          | none =>
            simp only [hOS, Option.some.injEq] at hr
            subst hr
            exact ⟨D1, D2, hD⟩
          | some OS =>
            simp only [hOS, Option.some.injEq] at hr
            subst hr
            refine ⟨[⟨R0.2.getLHS.getLocStart, .err_duplicate_case, [.str O.1.toString]⟩,
              ⟨OS.getLHS.getLocStart, .err_duplicate_case_prev, []⟩] ++ D1, D2, ?_⟩
            simp only [hD, List.cons_append, List.nil_append, List.append_assoc]
        cases prev with
        | none => exact htail i (by simpa using hP) (by simpa using hR)
        | some P0 =>
          cases i with
          | zero =>
            simp only [Option.toList_some, List.singleton_append, List.getElem?_cons_zero,
              Option.some.injEq, zero_add, List.getElem?_cons_succ] at hP hR
            subst hP hR
            unfold overlapOf at hO
            cases hO2 : overlapWithSingletons V R0.1 (HiValOf w s R0.2).1 with
            | none => simp [hO2] at hO
            | some O2 =>
              simp only [hO2, Option.map_some', hle, if_true, Option.some.injEq] at hO
              subst hO
              simp only [Option.some.injEq] at hr
              subst hr
              exact ⟨[], r2.1, rfl⟩
          | succ j =>
            exact htail j (by simpa using hP) (by simpa using hR)

/-! ## Defaults and empty ranges -/

theorem filter_eq_nil_of_ID {p : Diagnostic → Bool} {l : List Diagnostic}
    (h : ∀ d ∈ l, p d = false) : l.filter p = [] := by
  rw [List.filter_eq_nil_iff]
  intro d hd
  rw [h d hd]
  exact Bool.false_ne_true

theorem countP_eq_zero_of_ID {p : Diagnostic → Bool} {l : List Diagnostic}
    (h : ∀ d ∈ l, p d = false) : l.countP p = 0 := by
  rw [List.countP_eq_zero]
  intro d hd
  rw [h d hd]
  exact Bool.false_ne_true

theorem walk_Diags_default (w : Nat) (s : Bool) (chain : List SwitchCase) :
    ∀ d0 : Option DefaultStmt,
      (walkSwitchCases w s chain d0).Diags.filter isMultipleDefaultDiag =
        multipleDefaultDiags (d0.toList ++ defaultsOf chain) := by
  induction chain with
  | nil =>
    intro d0
    cases d0 <;> rfl
  | cons SC rest ih =>
    intro d0
    cases SC with
    | Default DS =>
      cases d0 with
      | none =>
        have := ih (some DS)
        simpa [walkSwitchCases, defaultsOf] using this
      | some Prev =>
        have := ih (some DS)
        simp only [Option.toList_some, List.singleton_append] at this
        simp only [walkSwitchCases, defaultsOf, Option.toList_some, List.singleton_append,
          multipleDefaultDiags, List.tail_cons, List.zip_cons_cons, List.flatMap_cons]
        rw [List.filter_append, this]
        rfl
    | Case CS =>
      have hd : (walkSwitchCases w s (SwitchCase.Case CS :: rest) d0).Diags =
          (LoValOf w s CS).2 ++ (walkSwitchCases w s rest d0).Diags := by
        by_cases h : CS.getRHS.isSome = true <;> simp [walkSwitchCases, h, LoValOf]
      rw [hd, List.filter_append, ih d0, filter_eq_nil_of_ID]
      · rfl
      · intro d hd2
        have := Convert_diag_ID _ _ _ _ _ d hd2
        simp [isMultipleDefaultDiag, this]

theorem multipleDefaultDiags_count (L : List DefaultStmt) :
    (multipleDefaultDiags L).countP
        (fun d => decide (d.ID = .err_multiple_default_labels_defined)) = L.length - 1 ∧
      (multipleDefaultDiags L).countP (fun d => decide (d.ID = .err_first_label)) =
        L.length - 1 := by
  have key : ∀ Z : List (DefaultStmt × DefaultStmt),
      (Z.flatMap fun cp =>
        [(⟨cp.1.getDefaultLoc, .err_multiple_default_labels_defined, []⟩ : Diagnostic),
         ⟨cp.2.getDefaultLoc, .err_first_label, []⟩]).countP
          (fun d => decide (d.ID = .err_multiple_default_labels_defined)) = Z.length ∧
      (Z.flatMap fun cp =>
        [(⟨cp.1.getDefaultLoc, .err_multiple_default_labels_defined, []⟩ : Diagnostic),
         ⟨cp.2.getDefaultLoc, .err_first_label, []⟩]).countP
          (fun d => decide (d.ID = .err_first_label)) = Z.length := by
    intro Z
    induction Z with
    | nil => exact ⟨rfl, rfl⟩
    | cons z zs ih =>
      simp only [List.flatMap_cons, List.countP_append, ih.1, ih.2, List.length_cons]
      constructor <;> simp [List.countP_cons] <;> omega
  unfold multipleDefaultDiags
  have hl : (L.tail.zip L).length = L.length - 1 := by
    simp only [List.length_zip, List.length_tail]
    omega
  rw [(key _).1, (key _).2, hl]
  exact ⟨rfl, rfl⟩

theorem countP_filter_of_imp {p q : Diagnostic → Bool} (l : List Diagnostic)
    (h : ∀ d, p d = true → q d = true) : (l.filter q).countP p = l.countP p := by
  induction l with
  | nil => rfl
  | cons a t ih =>
    by_cases hq : q a = true
    · rw [List.filter_cons_of_pos hq, List.countP_cons, List.countP_cons, ih]
    · have hp : p a = false := by
        by_contra hcon
        exact hq (h a (by simpa using hcon))
      rw [List.filter_cons_of_neg hq, List.countP_cons, ih, hp]
      simp

theorem isEmptyRangeCase_eq (w : Nat) (s : Bool) (CS : CaseStmt)
    (h : CS.getRHS.isSome = true) :
    isEmptyRangeCase w s (.Case CS) = isEmptyRange w s ((LoValOf w s CS).1, CS) := by
  obtain ⟨R, hR⟩ := Option.isSome_iff_exists.1 h
  unfold isEmptyRangeCase isEmptyRange
  simp only [hR]
  rw [APSInt.gt_eq_toInt (LoValOf_shape w s CS) (HiValOf_shape w s CS h)]
  simp [renormalized, LoValOf, HiValOf, hR]

theorem caseValsOf_filter (w : Nat) (s : Bool) (chain : List SwitchCase) :
    caseValsOf w s (chain.filter (fun SC => !isEmptyRangeCase w s SC)) =
      caseValsOf w s chain := by
  induction chain with
  | nil => rfl
  | cons SC rest ih =>
    cases SC with
    | Default DS =>
      rw [List.filter_cons_of_pos (by rfl)]
      simp only [caseValsOf, ih]
    | Case CS =>
      by_cases h : CS.getRHS.isSome = true
      · by_cases he : isEmptyRangeCase w s (.Case CS) = true
        · rw [List.filter_cons_of_neg (by simp [he])]
          simp only [caseValsOf, h, if_true, ih]
        · rw [List.filter_cons_of_pos (by simpa using he)]
          simp only [caseValsOf, h, if_true, ih]
      · have hn : CS.getRHS = none := by simpa using h
        rw [List.filter_cons_of_pos (by simp [isEmptyRangeCase, hn])]
        simp only [caseValsOf, h, if_false, ih, Bool.false_eq_true]

theorem defaultsOf_filter (w : Nat) (s : Bool) (chain : List SwitchCase) :
    defaultsOf (chain.filter (fun SC => !isEmptyRangeCase w s SC)) = defaultsOf chain := by
  induction chain with
  | nil => rfl
  | cons SC rest ih =>
    cases SC with
    | Default DS =>
      rw [List.filter_cons_of_pos (by rfl)]
      simp only [defaultsOf, ih]
    | Case CS =>
      by_cases he : isEmptyRangeCase w s (.Case CS) = true
      · rw [List.filter_cons_of_neg (by simp [he])]
        simp only [defaultsOf, ih]
      · rw [List.filter_cons_of_pos (by simpa using he)]
        simp only [defaultsOf, ih]

theorem caseRangesOf_filter (w : Nat) (s : Bool) (chain : List SwitchCase) :
    caseRangesOf w s (chain.filter (fun SC => !isEmptyRangeCase w s SC)) =
      (caseRangesOf w s chain).filter (fun p => !isEmptyRange w s p) := by
  induction chain with
  | nil => rfl
  | cons SC rest ih =>
    cases SC with
    | Default DS =>
      rw [List.filter_cons_of_pos (by rfl)]
      simp only [caseRangesOf, ih]
    | Case CS =>
      by_cases h : CS.getRHS.isSome = true
      · have e := isEmptyRangeCase_eq w s CS h
        by_cases he : isEmptyRangeCase w s (.Case CS) = true
        · rw [List.filter_cons_of_neg (by simp [he])]
          simp only [caseRangesOf, h, if_true]
          rw [List.filter_cons_of_neg (by rw [← e]; simp [he]), ih]
        · rw [List.filter_cons_of_pos (by simpa using he)]
          simp only [caseRangesOf, h, if_true]
          rw [List.filter_cons_of_pos (by rw [← e]; simpa using he), ih]
      · have hn : CS.getRHS = none := by simpa using h
        rw [List.filter_cons_of_pos (by simp [isEmptyRangeCase, hn])]
        simp only [caseRangesOf, h, if_false, ih, Bool.false_eq_true]

theorem sortedRanges_filter (w : Nat) (s : Bool) (chain : List SwitchCase) :
    sortedRanges w s (chain.filter (fun SC => !isEmptyRangeCase w s SC)) =
      sortedRanges w s chain := by
  unfold sortedRanges
  rw [caseRangesOf_filter, ← filter_stable_sort rangeKey pair_lt _ _
    (fun a ha b hb => pair_lt_key (caseRangesOf_shape w s chain a ha).1
      (caseRangesOf_shape w s chain b hb).1), List.filter_filter]
  simp

theorem countP_isEmptyRange (w : Nat) (s : Bool) (chain : List SwitchCase) :
    (caseRangesOf w s chain).countP (isEmptyRange w s) =
      chain.countP (isEmptyRangeCase w s) := by
  induction chain with
  | nil => rfl
  | cons SC rest ih =>
    cases SC with
    | Default DS =>
      simp only [caseRangesOf, List.countP_cons, ih, isEmptyRangeCase]
      simp
    | Case CS =>
      by_cases h : CS.getRHS.isSome = true
      · simp only [caseRangesOf, h, if_true, List.countP_cons, ih,
          isEmptyRangeCase_eq w s CS h]
      · have hn : CS.getRHS = none := by simpa using h
        simp only [caseRangesOf, h, if_false, Bool.false_eq_true, List.countP_cons, ih]
        simp [isEmptyRangeCase, hn]

theorem countP_rangeDiags (w : Nat) (s : Bool) (L : List (APSInt × CaseStmt)) :
    (L.flatMap (rangeDiags w s)).countP (fun d => decide (d.ID = .warn_case_empty_range)) =
      L.countP (isEmptyRange w s) := by
  induction L with
  | nil => rfl
  | cons p t ih =>
    have h1 : (HiValOf w s p.2).2.countP
        (fun d => decide (d.ID = .warn_case_empty_range)) = 0 := by
      apply countP_eq_zero_of_ID
      intro d hd
      have : d.ID = .warn_case_value_overflow := by
        unfold HiValOf at hd
        split at hd
        · exact Convert_diag_ID _ _ _ _ _ d hd
        · simp at hd
      simp [this]
    simp only [List.flatMap_cons, List.countP_append, ih, List.countP_cons]
    unfold rangeDiags
    rw [List.countP_append, h1]
    by_cases he : isEmptyRange w s p = true
    · simp [he]
      omega
    · simp [he]

theorem checkSwitchCases_parts (w : Nat) (s : Bool) (chain : List SwitchCase) :
    ∃ (r : List Diagnostic × Bool) (D : List Diagnostic),
      rescanList w s (sortedVals w s chain) none (sortedRanges w s chain) = some r ∧
      checkSwitchCases w s chain = some (D,
        (walkSwitchCases w s chain none).CaseListIsErroneous ||
          (adjacentDuplicates (sortedVals w s chain)).2 || r.2) ∧
      D = (walkSwitchCases w s chain none).Diags ++
            (adjacentDuplicates (sortedVals w s chain)).1 ++
          ((stable_sort pair_lt (caseRangesOf w s chain)).flatMap (rangeDiags w s) ++ r.1) ∧
      D.filter isMultipleDefaultDiag = multipleDefaultDiags (defaultsOf chain) ∧
      D.filter isDuplicateCaseDiag = (adjacentDuplicates (sortedVals w s chain)).1 ++ r.1 ∧
      D.countP (fun d => decide (d.ID = .warn_case_empty_range)) =
        chain.countP (isEmptyRangeCase w s) := by
  obtain ⟨r, hr, _, hc⟩ := checkSwitchCases_eq w s chain
  refine ⟨r, _, hr, hc, rfl, ?_, ?_, ?_⟩
  · simp only [List.filter_append]
    rw [walk_Diags_default, filter_eq_nil_of_ID, filter_eq_nil_of_ID, filter_eq_nil_of_ID]
    · simp
    · intro d hd
      rcases rescanList_ID w s _ _ _ _ hr d hd with h | h <;> simp [isMultipleDefaultDiag, h]
    · intro d hd
      obtain ⟨p, _, hp⟩ := List.mem_flatMap.1 hd
      rcases rangeDiags_ID w s p d hp with h | h <;> simp [isMultipleDefaultDiag, h]
    · intro d hd
      rcases adjacentDuplicates_ID _ d hd with h | h <;> simp [isMultipleDefaultDiag, h]
  · simp only [List.filter_append]
    rw [filter_eq_nil_of_ID (l := (walkSwitchCases w s chain none).Diags),
      filter_eq_nil_of_ID (l := (stable_sort pair_lt (caseRangesOf w s chain)).flatMap
        (rangeDiags w s)),
      List.filter_eq_self.2, List.filter_eq_self.2]
    · simp
    · intro d hd
      rcases rescanList_ID w s _ _ _ _ hr d hd with h | h <;> simp [isDuplicateCaseDiag, h]
    · intro d hd
      rcases adjacentDuplicates_ID _ d hd with h | h <;> simp [isDuplicateCaseDiag, h]
    · intro d hd
      obtain ⟨p, _, hp⟩ := List.mem_flatMap.1 hd
      rcases rangeDiags_ID w s p d hp with h | h <;> simp [isDuplicateCaseDiag, h]
    · intro d hd
      rcases walk_Diags_ID w s chain none d hd with h | h | h <;>
        simp [isDuplicateCaseDiag, h]
  · simp only [List.countP_append]
    rw [countP_eq_zero_of_ID (l := (walkSwitchCases w s chain none).Diags),
      countP_eq_zero_of_ID (l := (adjacentDuplicates (sortedVals w s chain)).1),
      countP_eq_zero_of_ID (l := r.1), countP_rangeDiags,
      (stable_sort_perm pair_lt (caseRangesOf w s chain)).countP_eq, countP_isEmptyRange]
    · simp
    · intro d hd
      rcases rescanList_ID w s _ _ _ _ hr d hd with h | h <;> simp [h]
    · intro d hd
      rcases adjacentDuplicates_ID _ d hd with h | h <;> simp [h]
    · intro d hd
      rcases walk_Diags_ID w s chain none d hd with h | h | h <;> simp [h]

theorem checkSwitchCases_filter_empty (w : Nat) (s : Bool) (chain : List SwitchCase) :
    ∃ (D D2 : List Diagnostic) (flag : Bool),
      checkSwitchCases w s chain = some (D, flag) ∧
      checkSwitchCases w s (chain.filter fun SC => !isEmptyRangeCase w s SC) =
        some (D2, flag) ∧
      D.filter isDuplicateCaseDiag = D2.filter isDuplicateCaseDiag ∧
      D.countP (fun d => decide (d.ID = .warn_case_empty_range)) =
        chain.countP (isEmptyRangeCase w s) ∧
      D2.countP (fun d => decide (d.ID = .warn_case_empty_range)) = 0 := by
  obtain ⟨r, D, hr, hc, _, _, hdup, hcnt⟩ := checkSwitchCases_parts w s chain
  obtain ⟨r2, D2, hr2, hc2, _, _, hdup2, hcnt2⟩ := checkSwitchCases_parts w s
    (chain.filter fun SC => !isEmptyRangeCase w s SC)
  have hv : sortedVals w s (chain.filter fun SC => !isEmptyRangeCase w s SC) =
      sortedVals w s chain := by
    unfold sortedVals
    rw [caseValsOf_filter]
  have he : (walkSwitchCases w s (chain.filter fun SC => !isEmptyRangeCase w s SC)
      none).CaseListIsErroneous = (walkSwitchCases w s chain none).CaseListIsErroneous := by
    rw [walk_err, walk_err, defaultsOf_filter]
  rw [hv, sortedRanges_filter, hr, Option.some.injEq] at hr2
  subst hr2
  rw [hv] at hdup2
  rw [hv, he] at hc2
  refine ⟨D, D2, _, hc, hc2, ?_, hcnt, ?_⟩
  · rw [hdup, hdup2]
  · rw [hcnt2, List.countP_eq_zero]
    intro SC hSC
    have := (List.mem_filter.1 hSC).2
    simpa using this

/-! ## Properties of the integer conversion -/

theorem APSInt.eq_of_fields {a b : APSInt} (h1 : a.BitWidth = b.BitWidth)
    (h2 : a.VAL.val = b.VAL.val) (h3 : a.IsUnsigned = b.IsUnsigned) : a = b := by
  obtain ⟨w, v, u⟩ := a
  obtain ⟨w2, v2, u2⟩ := b
  simp only at h1 h2 h3
  subst h1 h3
  have : v = v2 := Fin.ext h2
  subst this
  rfl

theorem APSInt.setIsSigned_isSigned (v : APSInt) : v.setIsSigned v.isSigned = v := by
  apply APSInt.eq_of_fields <;> simp [APSInt.setIsSigned, APSInt.isSigned]

theorem Convert_same_shape (Val : APSInt) (Loc : SourceLocation) (DiagID : diag) :
    ConvertIntegerToTypeWarnOnOverflow Val Val.getBitWidth Val.isSigned Loc DiagID =
      (Val, []) := by
  unfold ConvertIntegerToTypeWarnOnOverflow
  simp

theorem Convert_isSigned (Val : APSInt) (NewWidth : Nat) (NewSign : Bool)
    (Loc : SourceLocation) (DiagID : diag) :
    (ConvertIntegerToTypeWarnOnOverflow Val NewWidth NewSign Loc DiagID).1.getBitWidth =
        NewWidth ∧
      (ConvertIntegerToTypeWarnOnOverflow Val NewWidth NewSign Loc DiagID).1.isSigned =
        NewSign := by
  obtain ⟨h1, h2⟩ := ConvertIntegerToTypeWarnOnOverflow_shape Val NewWidth NewSign Loc DiagID
  refine ⟨h1, ?_⟩
  unfold APSInt.isSigned
  rw [h2]
  simp

theorem pow_sub_mod (VAL w0 w : Nat) (hv : VAL < 2 ^ w0) (hw : w0 ≤ w) :
    VAL + (2 ^ w - 2 ^ w0) < 2 ^ w ∧ (VAL + (2 ^ w - 2 ^ w0)) % 2 ^ w0 = VAL := by
  have hle : 2 ^ w0 ≤ 2 ^ w := Nat.pow_le_pow_right (by decide) hw
  refine ⟨by omega, ?_⟩
  have hsplit : 2 ^ w = 2 ^ (w - w0) * 2 ^ w0 := by
    rw [← pow_add]
    congr 1
    omega
  have hpos : 1 ≤ 2 ^ (w - w0) := Nat.one_le_two_pow
  have e : 2 ^ w - 2 ^ w0 = (2 ^ (w - w0) - 1) * 2 ^ w0 := by
    rw [Nat.sub_mul, one_mul, ← hsplit]
  rw [e, Nat.add_mul_mod_self_right, Nat.mod_eq_of_lt hv]

theorem APSInt.extend_val (v : APSInt) (w : Nat) (hw : v.BitWidth ≤ w) :
    (v.extend w).VAL.val =
      if v.IsUnsigned = false ∧ v.isNegative = true then v.VAL.val + (2 ^ w - 2 ^ v.BitWidth)
      else v.VAL.val := by
  have hv : v.VAL.val < 2 ^ v.BitWidth := v.val_lt
  have hle : 2 ^ v.BitWidth ≤ 2 ^ w := Nat.pow_le_pow_right (by decide) hw
  have hlt : v.VAL.val < 2 ^ w := lt_of_lt_of_le hv hle
  by_cases hu : v.IsUnsigned = true
  · have e : v.extend w = v.zext w := by simp [APSInt.extend, hu]
    rw [e, if_neg (by simp [hu])]
    exact Nat.mod_eq_of_lt hlt
  · have hu2 : v.IsUnsigned = false := by simpa using hu
    have e : v.extend w = v.sext w := by simp [APSInt.extend, hu2]
    rw [e]
    by_cases hn : v.isNegative = true
    · rw [if_pos ⟨hu2, hn⟩]
      show (if v.isNegative = true then v.VAL.val + (2 ^ w - 2 ^ v.BitWidth)
        else v.VAL.val) % 2 ^ w = _
      rw [if_pos hn]
      exact Nat.mod_eq_of_lt (pow_sub_mod _ _ _ hv hw).1
    · rw [if_neg (fun h => hn h.2)]
      show (if v.isNegative = true then v.VAL.val + (2 ^ w - 2 ^ v.BitWidth)
        else v.VAL.val) % 2 ^ w = _
      rw [if_neg hn]
      exact Nat.mod_eq_of_lt hlt

theorem APSInt.trunc_extend (v : APSInt) (w : Nat) (hw : v.BitWidth ≤ w) :
    (v.extend w).VAL.val % 2 ^ v.BitWidth = v.VAL.val := by
  rw [APSInt.extend_val v w hw]
  split
  · exact (pow_sub_mod _ _ _ v.val_lt hw).2
  · exact Nat.mod_eq_of_lt v.val_lt

theorem Convert_widen (Val : APSInt) (NewWidth : Nat) (NewSign : Bool) (Loc : SourceLocation)
    (DiagID : diag) (h : Val.BitWidth < NewWidth) :
    (ConvertIntegerToTypeWarnOnOverflow Val NewWidth NewSign Loc DiagID).1 =
      (Val.extend NewWidth).setIsSigned NewSign := by
  unfold ConvertIntegerToTypeWarnOnOverflow
  have : NewWidth > Val.getBitWidth := h
  simp only [this, if_true]

theorem Convert_narrow (Val : APSInt) (NewWidth : Nat) (NewSign : Bool) (Loc : SourceLocation)
    (DiagID : diag) (h : NewWidth < Val.BitWidth) :
    ConvertIntegerToTypeWarnOnOverflow Val NewWidth NewSign Loc DiagID =
      ((Val.trunc NewWidth).setIsSigned NewSign,
        if ((((Val.trunc NewWidth).setIsSigned NewSign).extend Val.getBitWidth).setIsSigned
            Val.isSigned).ne Val = true then
          [⟨Loc, DiagID, [.str Val.toString,
            .str ((((Val.trunc NewWidth).setIsSigned NewSign).extend
              Val.getBitWidth).setIsSigned Val.isSigned).toString]⟩]
        else []) := by
  unfold ConvertIntegerToTypeWarnOnOverflow
  have h1 : ¬ NewWidth > Val.getBitWidth := by
    unfold APSInt.getBitWidth
    omega
  have h2 : NewWidth < Val.getBitWidth := h
  simp only [h1, h2, if_true, if_false]

theorem Convert_same_width (Val : APSInt) (NewSign : Bool) (Loc : SourceLocation)
    (DiagID : diag) :
    ConvertIntegerToTypeWarnOnOverflow Val Val.getBitWidth NewSign Loc DiagID =
      if (NewSign != Val.isSigned) = true then
        (Val.setIsSigned NewSign,
          if (Val.setIsSigned NewSign).isNegative = true then
            [⟨Loc, DiagID, [.str Val.toString, .str (Val.setIsSigned NewSign).toString]⟩]
          else [])
      else (Val, []) := by
  unfold ConvertIntegerToTypeWarnOnOverflow
  simp only [gt_iff_lt, lt_self_iff_false, if_false]

theorem emod_unique (a : Int) (r m : Nat) (k : Int) (h : a = (r : Int) + k * (m : Int))
    (hr : r < m) : a % (m : Int) = (r : Int) := by
  subst h
  rw [Int.add_mul_emod_self]
  exact Int.emod_eq_of_lt (by omega) (by omega)

theorem APSInt.toInt_eq (v : APSInt) :
    v.toInt = (v.VAL.val : Int) -
      (if v.IsUnsigned = false ∧ v.isNegative = true then ((2 ^ v.BitWidth : Nat) : Int)
        else 0) := by
  unfold APSInt.toInt APSInt.getZExtValue APSInt.getSExtValue
  cases hu : v.IsUnsigned <;> cases hn : v.isNegative <;> simp

theorem APSInt.toInt_emod_le (v : APSInt) (w : Nat) (hw : w ≤ v.BitWidth) :
    v.toInt % ((2 ^ w : Nat) : Int) = ((v.VAL.val % 2 ^ w : Nat) : Int) := by
  have hsplit : 2 ^ v.BitWidth = 2 ^ (v.BitWidth - w) * 2 ^ w := by
    rw [← pow_add]
    congr 1
    omega
  have e : ((2 ^ v.BitWidth : Nat) : Int) =
      ((2 ^ (v.BitWidth - w) : Nat) : Int) * ((2 ^ w : Nat) : Int) :=
    (congrArg Nat.cast hsplit).trans (Nat.cast_mul _ _)
  rw [APSInt.toInt_eq, Int.natCast_mod]
  split
  · rw [e, sub_eq_add_neg, ← neg_mul, Int.add_mul_emod_self]
  · rw [sub_zero]

theorem APSInt.toInt_emod_extend (v : APSInt) (w : Nat) (hw : v.BitWidth ≤ w) :
    v.toInt % ((2 ^ w : Nat) : Int) = ((v.extend w).VAL.val : Int) := by
  have hv : v.VAL.val < 2 ^ v.BitWidth := v.val_lt
  have hle : 2 ^ v.BitWidth ≤ 2 ^ w := Nat.pow_le_pow_right (by decide) hw
  rw [APSInt.extend_val v w hw, APSInt.toInt_eq]
  split
  · have key : ∀ V X Y : Nat, V < Y → Y ≤ X →
        (V : Int) - (Y : Int) = ((V + (X - Y) : Nat) : Int) + -1 * (X : Int) := by
      intro V X Y h1 h2
      omega
    apply emod_unique _ _ _ (-1)
    · exact key _ _ _ hv hle
    · exact (pow_sub_mod _ _ _ hv hw).1
  · apply emod_unique _ _ _ 0
    · omega
    · omega

theorem Convert_bits (Val : APSInt) (NewWidth : Nat) (NewSign : Bool) (Loc : SourceLocation)
    (DiagID : diag) :
    ((ConvertIntegerToTypeWarnOnOverflow Val NewWidth NewSign Loc DiagID).1.VAL.val : Int) =
      Val.toInt % ((2 ^ NewWidth : Nat) : Int) := by
  rcases Nat.lt_trichotomy Val.BitWidth NewWidth with h | h | h
  · rw [Convert_widen _ _ _ _ _ h, APSInt.toInt_emod_extend _ _ (le_of_lt h)]
    rfl
  · subst h
    have e := Convert_same_width Val NewSign Loc DiagID
    unfold APSInt.getBitWidth at e
    rw [e, APSInt.toInt_emod_le _ _ (le_refl _), Nat.mod_eq_of_lt Val.val_lt]
    by_cases hs : (NewSign != Val.isSigned) = true
    · rw [if_pos hs]
      rfl
    · rw [if_neg hs]
  · rw [Convert_narrow _ _ _ _ _ h, APSInt.toInt_emod_le _ _ (le_of_lt h)]
    rfl

/-! ## Properties of the label map -/

theorem ActOnGotoStmt_present (S : Sema) (newLS newGS : Nat) (GotoLoc LabelLoc : SourceLocation)
    (X : IdentifierInfo) (L : LabelStmt) (h : S.LabelMap X = some L) :
    ActOnGotoStmt S newLS newGS GotoLoc LabelLoc X =
      (.stmt (.Goto ⟨newGS, L.addr, GotoLoc, LabelLoc⟩), S) := by
  unfold ActOnGotoStmt
  simp only [h]

theorem ActOnGotoStmt_absent (S : Sema) (newLS newGS : Nat) (GotoLoc LabelLoc : SourceLocation)
    (X : IdentifierInfo) (h : S.LabelMap X = none) :
    ActOnGotoStmt S newLS newGS GotoLoc LabelLoc X =
      (.stmt (.Goto ⟨newGS, newLS, GotoLoc, LabelLoc⟩),
        { S with LabelMap := Function.update S.LabelMap X (some ⟨newLS, LabelLoc, X, none⟩) }) := by
  unfold ActOnGotoStmt
  simp only [h]

theorem ActOnLabelStmt_absent (S : Sema) (newLS : Nat) (IdentLoc ColonLoc : SourceLocation)
    (X : IdentifierInfo) (subStmt : Nat) (h : S.LabelMap X = none) :
    ActOnLabelStmt S newLS IdentLoc X ColonLoc subStmt =
      some (.stmt (.Label ⟨newLS, IdentLoc, X, some subStmt⟩),
        { S with
          LabelMap := Function.update S.LabelMap X (some ⟨newLS, IdentLoc, X, some subStmt⟩) }) := by
  unfold ActOnLabelStmt
  simp only [h]

theorem ActOnLabelStmt_forward (S : Sema) (newLS : Nat) (IdentLoc ColonLoc : SourceLocation)
    (X : IdentifierInfo) (subStmt : Nat) (L : LabelStmt) (h : S.LabelMap X = some L)
    (hid : L.getID = X) (hs : L.getSubStmt = none) :
    ActOnLabelStmt S newLS IdentLoc X ColonLoc subStmt =
      some (.stmt (.Label ⟨L.addr, IdentLoc, X, some subStmt⟩),
        { S with
          LabelMap := Function.update S.LabelMap X (some ⟨L.addr, IdentLoc, X, some subStmt⟩) }) := by
  unfold ActOnLabelStmt
  simp only [h, hid, hs, ne_eq, not_true_eq_false, if_false, Option.isSome_none,
    Bool.false_eq_true, LabelStmt.setIdentLoc, LabelStmt.setSubStmt]

theorem ActOnLabelStmt_defined (S : Sema) (newLS : Nat) (IdentLoc ColonLoc : SourceLocation)
    (X : IdentifierInfo) (subStmt : Nat) (L : LabelStmt) (h : S.LabelMap X = some L)
    (hid : L.getID = X) (hs : L.getSubStmt.isSome = true) :
    ActOnLabelStmt S newLS IdentLoc X ColonLoc subStmt =
      some (.stmt (.ptr subStmt),
        { S with
          Diags := S.Diags ++ [⟨IdentLoc, .err_redefinition_of_label, [.ident X]⟩,
            ⟨L.getIdentLoc, .err_previous_definition, []⟩] }) := by
  unfold ActOnLabelStmt
  simp only [h, hid, hs, ne_eq, not_true_eq_false, if_false, if_true, Sema.Diag,
    LabelStmt.getName, List.append_assoc, List.singleton_append]

theorem LabelMapConsistent_update (S : Sema) (X : IdentifierInfo) (L : LabelStmt)
    (hInv : LabelMapConsistent S) (hid : L.getID = X) :
    LabelMapConsistent { S with LabelMap := Function.update S.LabelMap X (some L) } := by
  intro Y L1 hY
  by_cases hYX : Y = X
  · subst hYX
    simp only [Function.update_same, Option.some.injEq] at hY
    rw [← hY]
    exact hid
  · simp only [Function.update_noteq hYX] at hY
    exact hInv Y L1 hY

theorem LabelMapConsistent_atFunctionEntry (S : Sema) :
    LabelMapConsistent S.atFunctionEntry := by
  intro X L h
  simp [Sema.atFunctionEntry] at h

theorem LabelOp.run_step (S : Sema) (op : LabelOp) (hInv : LabelMapConsistent S) :
    ∃ R S1 L1, op.run S = some (R, S1) ∧ LabelMapConsistent S1 ∧
      (∀ Y, Y ≠ op.ident → S1.LabelMap Y = S.LabelMap Y) ∧
      S1.LabelMap op.ident = some L1 ∧
      (∀ L, S.LabelMap op.ident = some L →
        L1.addr = L.addr ∧
          ((op.isLabel = false ∨ L.getSubStmt.isSome = true) → S1.LabelMap = S.LabelMap)) ∧
      (S.LabelMap op.ident = none → op.isLabel = false → L1.getSubStmt = none) ∧
      (op.isLabel = false → ∃ G, R = .stmt (.Goto G) ∧ G.getLabel = L1.addr) := by
  cases op with
  | Goto a b c d X =>
    cases h : S.LabelMap X with
    | none =>
      refine ⟨.stmt (.Goto ⟨b, a, c, d⟩),
        { S with LabelMap := Function.update S.LabelMap X (some ⟨a, d, X, none⟩) },
        ⟨a, d, X, none⟩, ?_, LabelMapConsistent_update S X ⟨a, d, X, none⟩ hInv rfl, ?_, ?_, ?_,
        ?_, ?_⟩
      · simp only [LabelOp.run]
        rw [ActOnGotoStmt_absent _ _ _ _ _ _ h]
      · intro Y hY
        exact Function.update_noteq hY _ _
      · exact Function.update_same _ _ _
      · intro L hL
        simp only [LabelOp.ident] at hL
        rw [h] at hL
        cases hL
      · intro _ _
        rfl
      · intro _
        exact ⟨_, rfl, rfl⟩
    | some L =>
      refine ⟨.stmt (.Goto ⟨b, L.addr, c, d⟩), S, L, ?_, hInv, ?_, h, ?_, ?_, ?_⟩
      · simp only [LabelOp.run]
        rw [ActOnGotoStmt_present _ _ _ _ _ _ _ h]
      · intro Y hY
        rfl
      · intro L2 hL
        simp only [LabelOp.ident] at hL
        rw [h] at hL
        cases hL
        exact ⟨rfl, fun _ => rfl⟩
      · intro h2
        simp only [LabelOp.ident] at h2
        rw [h] at h2
        cases h2
      · intro _
        exact ⟨_, rfl, rfl⟩
  | Label a loc X c sub =>
    cases h : S.LabelMap X with
    | none =>
      refine ⟨.stmt (.Label ⟨a, loc, X, some sub⟩),
        { S with LabelMap := Function.update S.LabelMap X (some ⟨a, loc, X, some sub⟩) },
        ⟨a, loc, X, some sub⟩, ?_,
        LabelMapConsistent_update S X ⟨a, loc, X, some sub⟩ hInv rfl, ?_, ?_, ?_, ?_, ?_⟩
      · simp only [LabelOp.run]
        rw [ActOnLabelStmt_absent _ _ _ _ _ _ h]
      · intro Y hY
        exact Function.update_noteq hY _ _
      · exact Function.update_same _ _ _
      · intro L hL
        simp only [LabelOp.ident] at hL
        rw [h] at hL
        cases hL
      · intro _ h2
        cases h2
      · intro h2
        cases h2
    | some L =>
      have hid : L.getID = X := hInv X L h
      cases hs : L.getSubStmt with
      | none =>
        refine ⟨.stmt (.Label ⟨L.addr, loc, X, some sub⟩),
          { S with LabelMap := Function.update S.LabelMap X (some ⟨L.addr, loc, X, some sub⟩) },
          ⟨L.addr, loc, X, some sub⟩, ?_,
          LabelMapConsistent_update S X ⟨L.addr, loc, X, some sub⟩ hInv rfl, ?_, ?_, ?_, ?_, ?_⟩
        · simp only [LabelOp.run]
          rw [ActOnLabelStmt_forward _ _ _ _ _ _ _ h hid hs]
        · intro Y hY
          exact Function.update_noteq hY _ _
        · exact Function.update_same _ _ _
        · intro L2 hL
          simp only [LabelOp.ident] at hL
          rw [h] at hL
          cases hL
          refine ⟨rfl, ?_⟩
          intro h2
          rcases h2 with h2 | h2
          · cases h2
          · rw [hs] at h2
            cases h2
        · intro h2
          simp only [LabelOp.ident] at h2
          rw [h] at h2
          cases h2
        · intro h2
          cases h2
      | some f =>
        refine ⟨.stmt (.ptr sub),
          { S with
            Diags := S.Diags ++ [⟨loc, .err_redefinition_of_label, [.ident X]⟩,
              ⟨L.getIdentLoc, .err_previous_definition, []⟩] },
          L, ?_, hInv, ?_, h, ?_, ?_, ?_⟩
        · simp only [LabelOp.run]
          rw [ActOnLabelStmt_defined _ _ _ _ _ _ _ h hid (by rw [hs]; rfl)]
        · intro Y hY
          rfl
        · intro L2 hL
          simp only [LabelOp.ident] at hL
          rw [h] at hL
          cases hL
          exact ⟨rfl, fun _ => rfl⟩
        · intro h2
          simp only [LabelOp.ident] at h2
          rw [h] at h2
          cases h2
        · intro h2
          cases h2

theorem runLabelOps_cons (S : Sema) (op : LabelOp) (ops : List LabelOp) (R : StmtResult)
    (S1 : Sema) (Rs : List StmtResult) (S2 : Sema) (h1 : op.run S = some (R, S1))
    (h2 : runLabelOps S1 ops = some (Rs, S2)) :
    runLabelOps S (op :: ops) = some (R :: Rs, S2) := by
  simp only [runLabelOps, h1, h2]

theorem runLabelOps_cons_eq (S : Sema) (op : LabelOp) (ops : List LabelOp) :
    runLabelOps S (op :: ops) =
      (op.run S).bind (fun R => (runLabelOps R.2 ops).map (fun Rs => (R.1 :: Rs.1, Rs.2))) := by
  rw [runLabelOps]
  cases op.run S with
  | none => rfl
  | some R =>
    simp only [Option.some_bind]
    cases runLabelOps R.2 ops <;> rfl

theorem runLabelOps_append (S : Sema) (ops1 ops2 : List LabelOp) (Rs1 : List StmtResult)
    (S1 : Sema) (h1 : runLabelOps S ops1 = some (Rs1, S1)) :
    runLabelOps S (ops1 ++ ops2) =
      (runLabelOps S1 ops2).map (fun r => (Rs1 ++ r.1, r.2)) := by
  induction ops1 generalizing S Rs1 with
  | nil =>
    simp only [runLabelOps, Option.some.injEq, Prod.mk.injEq] at h1
    obtain ⟨e1, e2⟩ := h1
    subst e1 e2
    simp only [List.nil_append]
    cases h : runLabelOps S ops2 <;> simp
  | cons op ops ih =>
    rw [runLabelOps_cons_eq] at h1
    rw [List.cons_append, runLabelOps_cons_eq]
    cases ho : op.run S with
    | none => simp [ho] at h1
    | some R =>
      simp only [ho, Option.some_bind] at h1 ⊢
      cases hr : runLabelOps R.2 ops with
      | none => simp [hr] at h1
      | some Rs =>
        simp only [hr, Option.map_some', Option.some.injEq, Prod.mk.injEq] at h1
        obtain ⟨e1, e2⟩ := h1
        subst e1 e2
        rw [ih R.2 Rs.1 hr]
        cases h : runLabelOps Rs.2 ops2 <;> simp

theorem runLabelOps_ok (ops : List LabelOp) (S : Sema) (hInv : LabelMapConsistent S) :
    ∃ Rs S1, runLabelOps S ops = some (Rs, S1) ∧ LabelMapConsistent S1 ∧
      (∀ X, (S1.LabelMap X).isSome = true ↔
        ((S.LabelMap X).isSome = true ∨ X ∈ ops.map LabelOp.ident)) ∧
      (∀ X L, S.LabelMap X = some L → ∃ L1, S1.LabelMap X = some L1 ∧ L1.addr = L.addr) := by
  induction ops generalizing S with
  | nil => exact ⟨[], S, rfl, hInv, by simp, fun X L h => ⟨L, h, rfl⟩⟩
  | cons op ops ih =>
    obtain ⟨R, S1, L1, hrun, hInv1, hoth, hat, hprev, _, _⟩ := LabelOp.run_step S op hInv
    obtain ⟨Rs, S2, hrest, hInv2, hiff, haddr⟩ := ih S1 hInv1
    refine ⟨R :: Rs, S2, runLabelOps_cons S op ops R S1 Rs S2 hrun hrest, hInv2, ?_, ?_⟩
    · intro X
      rw [hiff X]
      simp only [List.map_cons, List.mem_cons]
      by_cases hX : X = op.ident
      · subst hX
        simp [hat]
      · rw [hoth X hX]
        simp [hX]
    · intro X L hL
      by_cases hX : X = op.ident
      · subst hX
        obtain ⟨e, _⟩ := hprev L hL
        obtain ⟨L2, h2, e2⟩ := haddr _ L1 hat
        exact ⟨L2, h2, e2.trans e⟩
      · rw [← hoth X hX] at hL
        exact haddr X L hL

theorem runLabelOps_fixed (ops : List LabelOp) (S : Sema) (X : IdentifierInfo) (L : LabelStmt)
    (hInv : LabelMapConsistent S) (hX : S.LabelMap X = some L)
    (hno : L.getSubStmt.isSome = true ∨ ∀ op ∈ ops, op.isLabel = true → op.ident ≠ X) :
    ∃ Rs S1, runLabelOps S ops = some (Rs, S1) ∧ LabelMapConsistent S1 ∧
      S1.LabelMap X = some L ∧
      List.Forall₂ (fun op R => op.isLabel = false → op.ident = X →
        ∃ G : GotoStmt, R = .stmt (.Goto G) ∧ G.getLabel = L.addr) ops Rs := by
  induction ops generalizing S with
  | nil => exact ⟨[], S, rfl, hInv, hX, List.Forall₂.nil⟩
  | cons op ops ih =>
    obtain ⟨R, S1, L1, hrun, hInv1, hoth, hat, hprev, _, hgoto⟩ := LabelOp.run_step S op hInv
    have hX1 : S1.LabelMap X = some L := by
      by_cases hXop : X = op.ident
      · subst hXop
        have hc : op.isLabel = false ∨ L.getSubStmt.isSome = true := by
          rcases hno with h | h
          · exact Or.inr h
          · left
            cases hl : op.isLabel
            · rfl
            · exact absurd rfl (h op (List.mem_cons_self _ _) hl)
        rw [(hprev L hX).2 hc]
        exact hX
      · rw [hoth X hXop]
        exact hX
    have hno1 : L.getSubStmt.isSome = true ∨ ∀ o ∈ ops, o.isLabel = true → o.ident ≠ X := by
      rcases hno with h | h
      · exact Or.inl h
      · exact Or.inr (fun o ho => h o (List.mem_cons_of_mem _ ho))
    obtain ⟨Rs, S2, hrest, hInv2, hX2, hall⟩ := ih S1 hInv1 hX1 hno1
    refine ⟨R :: Rs, S2, runLabelOps_cons S op ops R S1 Rs S2 hrun hrest, hInv2, hX2,
      List.Forall₂.cons ?_ hall⟩
    intro hl hid
    obtain ⟨G, hG, hGl⟩ := hgoto hl
    refine ⟨G, hG, ?_⟩
    rw [hid, hX1] at hat
    cases hat
    exact hGl

theorem runLabelOps_forward (ops : List LabelOp) (S : Sema) (X : IdentifierInfo)
    (hInv : LabelMapConsistent S) (hX : S.LabelMap X = none)
    (hno : ∀ op ∈ ops, op.isLabel = true → op.ident ≠ X) (hgoto : ∃ op ∈ ops, op.ident = X) :
    ∃ Rs S1 L, runLabelOps S ops = some (Rs, S1) ∧ LabelMapConsistent S1 ∧
      S1.LabelMap X = some L ∧ L.getID = X ∧ L.getSubStmt = none ∧
      List.Forall₂ (fun op R => op.isLabel = false → op.ident = X →
        ∃ G : GotoStmt, R = .stmt (.Goto G) ∧ G.getLabel = L.addr) ops Rs := by
  induction ops generalizing S with
  | nil =>
    obtain ⟨op, hop, _⟩ := hgoto
    cases hop
  | cons op ops ih =>
    obtain ⟨R, S1, L1, hrun, hInv1, hoth, hat, hprev, hnew, hg⟩ := LabelOp.run_step S op hInv
    have hno1 : ∀ o ∈ ops, o.isLabel = true → o.ident ≠ X :=
      fun o ho => hno o (List.mem_cons_of_mem _ ho)
    by_cases hXop : op.ident = X
    · have hl : op.isLabel = false := by
        cases hl : op.isLabel
        · rfl
        · exact absurd hXop (hno op (List.mem_cons_self _ _) hl)
      rw [hXop] at hat hnew
      have hs : L1.getSubStmt = none := hnew hX hl
      obtain ⟨Rs, S2, hrest, hInv2, hX2, hall⟩ :=
        runLabelOps_fixed ops S1 X L1 hInv1 hat (Or.inr hno1)
      refine ⟨R :: Rs, S2, L1, runLabelOps_cons S op ops R S1 Rs S2 hrun hrest, hInv2, hX2,
        hInv1 X L1 hat, hs, List.Forall₂.cons ?_ hall⟩
      intro _ _
      exact hg hl
    · have hX1 : S1.LabelMap X = none := by
        rw [hoth X (fun h => hXop h.symm)]
        exact hX
      have hgoto1 : ∃ o ∈ ops, o.ident = X := by
        obtain ⟨o, ho, hoX⟩ := hgoto
        rcases List.mem_cons.mp ho with h | h
        · subst h
          exact absurd hoX hXop
        · exact ⟨o, h, hoX⟩
      obtain ⟨Rs, S2, L, hrest, hInv2, hX2, hid, hs, hall⟩ := ih S1 hInv1 hX1 hno1 hgoto1
      refine ⟨R :: Rs, S2, L, runLabelOps_cons S op ops R S1 Rs S2 hrun hrest, hInv2, hX2, hid,
        hs, List.Forall₂.cons ?_ hall⟩
      intro _ hid2
      exact absurd hid2 hXop

theorem first_definition (S : Sema) (X : IdentifierInfo) (newLS : Nat)
    (IdentLoc ColonLoc : SourceLocation) (subStmt : Nat) (hInv : LabelMapConsistent S)
    (hX : S.LabelMap X = none ∨ ∃ F, S.LabelMap X = some F ∧ F.getSubStmt = none) :
    ∃ R S1 L, ActOnLabelStmt S newLS IdentLoc X ColonLoc subStmt = some (R, S1) ∧
      LabelMapConsistent S1 ∧ S1.LabelMap X = some L ∧ L.getIdentLoc = IdentLoc ∧
      L.getSubStmt = some subStmt := by
  rcases hX with h | ⟨F, h, hs⟩
  · exact ⟨_, _, ⟨newLS, IdentLoc, X, some subStmt⟩, ActOnLabelStmt_absent S _ _ _ X _ h,
      LabelMapConsistent_update S X ⟨newLS, IdentLoc, X, some subStmt⟩ hInv rfl,
      Function.update_same _ _ _, rfl, rfl⟩
  · exact ⟨_, _, ⟨F.addr, IdentLoc, X, some subStmt⟩,
      ActOnLabelStmt_forward S _ _ _ X _ F h (hInv X F h) hs,
      LabelMapConsistent_update S X ⟨F.addr, IdentLoc, X, some subStmt⟩ hInv rfl,
      Function.update_same _ _ _, rfl, rfl⟩

theorem before_first_definition (ops : List LabelOp) (S : Sema) (X : IdentifierInfo)
    (hInv : LabelMapConsistent S) (hX : S.LabelMap X = none)
    (hno : ∀ op ∈ ops, op.isLabel = true → op.ident ≠ X) :
    ∃ Rs S1, runLabelOps S ops = some (Rs, S1) ∧ LabelMapConsistent S1 ∧
      (S1.LabelMap X = none ∨ ∃ F, S1.LabelMap X = some F ∧ F.getSubStmt = none) := by
  by_cases hg : ∃ op ∈ ops, op.ident = X
  · obtain ⟨Rs, S1, F, hrun, hInv1, hX1, _, hs, _⟩ := runLabelOps_forward ops S X hInv hX hno hg
    exact ⟨Rs, S1, hrun, hInv1, Or.inr ⟨F, hX1, hs⟩⟩
  · obtain ⟨Rs, S1, hrun, hInv1, hiff, _⟩ := runLabelOps_ok ops S hInv
    refine ⟨Rs, S1, hrun, hInv1, Or.inl ?_⟩
    cases h1 : S1.LabelMap X with
    | none => rfl
    | some L =>
      have := (hiff X).mp (by rw [h1]; rfl)
      rw [hX] at this
      rcases this with h | h
      · cases h
      · obtain ⟨op, hop, hid⟩ := List.mem_map.mp h
        exact absurd ⟨op, hop, hid⟩ hg

/-! ## When the conversion emits its diagnostic -/

theorem pow_half (a : Nat) :
    (0 < a ∧ 2 ^ a = 2 * 2 ^ (a - 1)) ∨ (a = 0 ∧ 2 ^ a = 1 ∧ 2 ^ (a - 1) = 1) := by
  cases a with
  | zero => exact Or.inr ⟨rfl, rfl, rfl⟩
  | succ n =>
    left
    refine ⟨Nat.succ_pos n, ?_⟩
    rw [Nat.add_sub_cancel, pow_succ, Nat.mul_comm]

theorem APSInt.toInt_mk (w : Nat) (v : Fin (2 ^ w)) (u : Bool) :
    (APSInt.mk w v u).toInt =
      if u = true then (v.val : Int)
      else if 2 ^ (w - 1) ≤ v.val then (v.val : Int) - ((2 ^ w : Nat) : Int)
      else (v.val : Int) := by
  cases u <;>
    simp [APSInt.toInt, APSInt.getZExtValue, APSInt.getSExtValue, APSInt.isNegative]

theorem APSInt.toInt_fields (v : APSInt) :
    v.toInt =
      if v.IsUnsigned = true then (v.VAL.val : Int)
      else if 2 ^ (v.BitWidth - 1) ≤ v.VAL.val then
        (v.VAL.val : Int) - ((2 ^ v.BitWidth : Nat) : Int)
      else (v.VAL.val : Int) := by
  obtain ⟨w, x, u⟩ := v
  exact APSInt.toInt_mk w x u

theorem APSInt.extend_toInt (v : APSInt) (W : Nat) (h : v.BitWidth ≤ W) :
    (v.extend W).toInt = v.toInt := by
  have hval := APSInt.extend_val v W h
  have hv : v.VAL.val < 2 ^ v.BitWidth := v.val_lt
  have hle : 2 ^ v.BitWidth ≤ 2 ^ W := Nat.pow_le_pow_right (by decide) h
  have hleh : 2 ^ (v.BitWidth - 1) ≤ 2 ^ (W - 1) :=
    Nat.pow_le_pow_right (by decide) (Nat.sub_le_sub_right h 1)
  have hW := pow_half W
  have hw := pow_half v.BitWidth
  have hneg : v.isNegative = decide (2 ^ (v.BitWidth - 1) ≤ v.VAL.val) := rfl
  rw [APSInt.toInt_fields (v.extend W), APSInt.toInt_fields v, APSInt.extend_IsUnsigned, hval,
    hneg]
  simp only [APSInt.extend_BitWidth, decide_eq_true_eq]
  have key : ∀ V X Y Xh Yh : Nat, V < Y → Y ≤ X → Yh ≤ Xh →
      ((0 < W ∧ X = 2 * Xh) ∨ (W = 0 ∧ X = 1 ∧ Xh = 1)) →
      ((0 < v.BitWidth ∧ Y = 2 * Yh) ∨ (v.BitWidth = 0 ∧ Y = 1 ∧ Yh = 1)) →
      (if v.IsUnsigned = true then
          ((if v.IsUnsigned = false ∧ Yh ≤ V then V + (X - Y) else V : Nat) : Int)
        else if Xh ≤ (if v.IsUnsigned = false ∧ Yh ≤ V then V + (X - Y) else V) then
          ((if v.IsUnsigned = false ∧ Yh ≤ V then V + (X - Y) else V : Nat) : Int) - (X : Int)
        else ((if v.IsUnsigned = false ∧ Yh ≤ V then V + (X - Y) else V : Nat) : Int)) =
      if v.IsUnsigned = true then (V : Int)
      else if Yh ≤ V then (V : Int) - (Y : Int) else (V : Int) := by
    intro V X Y Xh Yh h1 h2 h3 h4 h5
    cases v.IsUnsigned
    · simp only [Bool.false_eq_true, if_false, true_and]
      by_cases hn : Yh ≤ V
      · simp only [hn, if_true]
        have : Xh ≤ V + (X - Y) := by omega
        simp only [this, if_true]
        omega
      · simp only [hn, if_false]
        have : ¬ Xh ≤ V := by omega
        simp only [this, if_false]
    · simp
  exact key _ _ _ _ _ hv hle hleh hW hw

theorem Convert_widen_diags (Val : APSInt) (NewWidth : Nat) (NewSign : Bool)
    (Loc : SourceLocation) (DiagID : diag) (h : Val.BitWidth < NewWidth) :
    (ConvertIntegerToTypeWarnOnOverflow Val NewWidth NewSign Loc DiagID).2 =
      if (!NewSign && Val.isSigned && Val.isNegative) = true then
        [⟨Loc, DiagID, [.str Val.toString, .str (Val.extend NewWidth).toString]⟩]
      else [] := by
  unfold ConvertIntegerToTypeWarnOnOverflow
  have : NewWidth > Val.getBitWidth := h
  simp only [this, if_true]

theorem widen_arith (u s : Bool) (V X Y Xh Yh : Nat) (d : Diagnostic) (hv : V < Y)
    (hY : Y ≤ Xh) (hX : X = 2 * Xh) (hw0 : Y = 2 * Yh ∨ (Y = 1 ∧ Yh = 1)) :
    (if (!s && !u && decide (Yh ≤ V)) = true then [d] else []) ≠ [] ↔
      (if (!s) = true then
          ((if u = false ∧ decide (Yh ≤ V) = true then V + (X - Y) else V : Nat) : Int)
        else if Xh ≤ (if u = false ∧ decide (Yh ≤ V) = true then V + (X - Y) else V) then
          ((if u = false ∧ decide (Yh ≤ V) = true then V + (X - Y) else V : Nat) : Int) -
            ((X : Nat) : Int)
        else ((if u = false ∧ decide (Yh ≤ V) = true then V + (X - Y) else V : Nat) : Int)) ≠
      (if u = true then (V : Int)
        else if Yh ≤ V then (V : Int) - ((Y : Nat) : Int) else (V : Int)) := by
  cases u <;> cases s <;> by_cases hn : Yh ≤ V <;> simp [hn] <;> omega

theorem Convert_widen_diag_iff (L : APSInt) (w : Nat) (s : Bool) (Loc : SourceLocation)
    (DiagID : diag) (h : L.BitWidth < w) :
    (ConvertIntegerToTypeWarnOnOverflow L w s Loc DiagID).2 ≠ [] ↔
      (ConvertIntegerToTypeWarnOnOverflow L w s Loc DiagID).1.toInt ≠ L.toInt := by
  have hv : L.VAL.val < 2 ^ L.BitWidth := L.val_lt
  have hY : 2 ^ L.BitWidth ≤ 2 ^ (w - 1) := Nat.pow_le_pow_right (by decide) (by omega)
  have hX : 2 ^ w = 2 * 2 ^ (w - 1) := by
    rcases pow_half w with ⟨_, e⟩ | ⟨e, _⟩
    · exact e
    · omega
  have hw0 : 2 ^ L.BitWidth = 2 * 2 ^ (L.BitWidth - 1) ∨
      (2 ^ L.BitWidth = 1 ∧ 2 ^ (L.BitWidth - 1) = 1) := by
    rcases pow_half L.BitWidth with ⟨_, e⟩ | ⟨_, e⟩
    · exact Or.inl e
    · exact Or.inr e
  have hneg : L.isNegative = decide (2 ^ (L.BitWidth - 1) ≤ L.VAL.val) := rfl
  have hsg : L.isSigned = !L.IsUnsigned := rfl
  have hrV : (ConvertIntegerToTypeWarnOnOverflow L w s Loc DiagID).1.VAL.val =
      if L.IsUnsigned = false ∧ L.isNegative = true then
        L.VAL.val + (2 ^ w - 2 ^ L.BitWidth)
      else L.VAL.val := by
    rw [Convert_widen _ _ _ _ _ h]
    exact APSInt.extend_val L w (le_of_lt h)
  obtain ⟨hrW, hrU⟩ := ConvertIntegerToTypeWarnOnOverflow_shape L w s Loc DiagID
  rw [Convert_widen_diags _ _ _ _ _ h, APSInt.toInt_fields, APSInt.toInt_fields L, hrU, hrV, hsg,
    hneg]
  simp only [hrW]
  exact widen_arith L.IsUnsigned s L.VAL.val (2 ^ w) (2 ^ L.BitWidth) (2 ^ (w - 1))
    (2 ^ (L.BitWidth - 1)) _ hv hY hX hw0

theorem APSInt.flip_sign_toInt (L : APSInt) :
    L.isNegative = true ↔ (L.setIsSigned (!L.isSigned)).toInt ≠ L.toInt := by
  have hu : (L.setIsSigned (!L.isSigned)).IsUnsigned = !L.IsUnsigned := by
    simp [APSInt.setIsSigned, APSInt.isSigned]
  have e1 : (L.setIsSigned (!L.isSigned)).toInt = (L.VAL.val : Int) -
      (if (!L.IsUnsigned) = false ∧ L.isNegative = true then ((2 ^ L.BitWidth : Nat) : Int)
        else 0) := by
    rw [APSInt.toInt_eq, hu]
    rfl
  have hpos : (0 : Int) < ((2 ^ L.BitWidth : Nat) : Int) := by positivity
  rw [e1, APSInt.toInt_eq L]
  generalize ((2 ^ L.BitWidth : Nat) : Int) = P at hpos ⊢
  cases L.IsUnsigned <;> cases L.isNegative <;> simp <;> omega

theorem Convert_same_width_diag_iff (L : APSInt) (s : Bool) (Loc : SourceLocation)
    (DiagID : diag) :
    (ConvertIntegerToTypeWarnOnOverflow L L.getBitWidth s Loc DiagID).2 ≠ [] ↔
      (ConvertIntegerToTypeWarnOnOverflow L L.getBitWidth s Loc DiagID).1.toInt ≠ L.toInt := by
  rw [Convert_same_width]
  by_cases hs : (s != L.isSigned) = true
  · have e : s = !L.isSigned := by
      cases s <;> cases h : L.isSigned <;> simp_all
    rw [if_pos hs]
    subst e
    have hneg : (L.setIsSigned (!L.isSigned)).isNegative = L.isNegative := rfl
    rw [← APSInt.flip_sign_toInt L, hneg]
    cases L.isNegative <;> simp
  · rw [if_neg hs]
    simp

theorem Convert_narrow_diag_iff (L : APSInt) (w : Nat) (s : Bool) (Loc : SourceLocation)
    (DiagID : diag) (h : w < L.BitWidth) (hex : ¬ (L.IsUnsigned = true ∧ s = true)) :
    (ConvertIntegerToTypeWarnOnOverflow L w s Loc DiagID).2 ≠ [] ↔
      (ConvertIntegerToTypeWarnOnOverflow L w s Loc DiagID).1.toInt ≠ L.toInt := by
  have hCshape : ((((L.trunc w).setIsSigned s).extend L.getBitWidth).setIsSigned
      L.isSigned).Shape L.BitWidth L.IsUnsigned :=
    ⟨APSInt.extend_BitWidth _ _, by simp [APSInt.setIsSigned, APSInt.isSigned]⟩
  have hne : ((((L.trunc w).setIsSigned s).extend L.getBitWidth).setIsSigned L.isSigned).ne L =
      !decide (((((L.trunc w).setIsSigned s).extend L.getBitWidth).setIsSigned
        L.isSigned).toInt = L.toInt) := by
    unfold APSInt.ne
    rw [APSInt.eq_eq_toInt hCshape ⟨rfl, rfl⟩]
  have hCT : ((((L.trunc w).setIsSigned s).extend L.getBitWidth).setIsSigned L.isSigned).toInt =
      ((L.trunc w).setIsSigned s).toInt := by
    by_cases hs : s = L.isSigned
    · have e : (((L.trunc w).setIsSigned s).extend L.getBitWidth).setIsSigned L.isSigned =
          ((L.trunc w).setIsSigned s).extend L.getBitWidth := by
        apply APSInt.eq_of_fields
        · rfl
        · rfl
        · rw [APSInt.extend_IsUnsigned]
          simp [APSInt.setIsSigned, hs]
      rw [e]
      exact APSInt.extend_toInt _ _ (le_of_lt h)
    · have hu : L.IsUnsigned = false := by
        cases hL : L.IsUnsigned
        · rfl
        · exfalso
          cases s
          · exact hs (by simp [APSInt.isSigned, hL])
          · exact hex ⟨hL, rfl⟩
      have hs2 : s = false := by
        cases s
        · rfl
        · exact absurd (by simp [APSInt.isSigned, hu]) hs
      subst hs2
      have hTV : ((L.trunc w).setIsSigned false).VAL.val < 2 ^ w :=
        ((L.trunc w).setIsSigned false).val_lt
      have hle : 2 ^ w ≤ 2 ^ (L.BitWidth - 1) := Nat.pow_le_pow_right (by decide) (by omega)
      have hval : ((((L.trunc w).setIsSigned false).extend L.getBitWidth).setIsSigned
          L.isSigned).VAL.val = ((L.trunc w).setIsSigned false).VAL.val := by
        have := APSInt.extend_val ((L.trunc w).setIsSigned false) L.getBitWidth (le_of_lt h)
        rw [if_neg (by simp [APSInt.setIsSigned])] at this
        exact this
      have hU : ((((L.trunc w).setIsSigned false).extend L.getBitWidth).setIsSigned
          L.isSigned).IsUnsigned = false := hCshape.2.trans hu
      have hT : ((L.trunc w).setIsSigned false).toInt =
          (((L.trunc w).setIsSigned false).VAL.val : Int) := by
        rw [APSInt.toInt_fields]
        simp [APSInt.setIsSigned]
      rw [hT, APSInt.toInt_fields, hU, hval]
      have hW : ((((L.trunc w).setIsSigned false).extend L.getBitWidth).setIsSigned
          L.isSigned).BitWidth = L.BitWidth := hCshape.1
      simp only [hW, Bool.false_eq_true, if_false]
      rw [if_neg (by omega)]
  rw [Convert_narrow _ _ _ _ _ h]
  simp only [hne, hCT]
  by_cases hT : ((L.trunc w).setIsSigned s).toInt = L.toInt <;> simp [hT]

theorem length_ite_singleton {α : Type} (c : Prop) [Decidable c] (d : α) :
    (if c then [d] else []).length ≤ 1 := by
  split <;> simp

theorem Convert_diag_iff (L : APSInt) (w : Nat) (s : Bool) (Loc : SourceLocation)
    (DiagID : diag) (hex : ¬ (w < L.BitWidth ∧ L.IsUnsigned = true ∧ s = true)) :
    ((ConvertIntegerToTypeWarnOnOverflow L w s Loc DiagID).2 ≠ [] ↔
      (ConvertIntegerToTypeWarnOnOverflow L w s Loc DiagID).1.toInt ≠ L.toInt) ∧
    (ConvertIntegerToTypeWarnOnOverflow L w s Loc DiagID).2.length ≤ 1 := by
  constructor
  · rcases Nat.lt_trichotomy L.BitWidth w with h | h | h
    · exact Convert_widen_diag_iff L w s Loc DiagID h
    · subst h
      exact Convert_same_width_diag_iff L s Loc DiagID
    · exact Convert_narrow_diag_iff L w s Loc DiagID h (fun hc => hex ⟨h, hc⟩)
  · unfold ConvertIntegerToTypeWarnOnOverflow
    split_ifs
    · exact length_ite_singleton _ _
    · exact length_ite_singleton _ _
    · exact length_ite_singleton _ _
    · exact Nat.zero_le _

/-! ## Properties of the return statement -/

theorem ActOnReturnStmt_checked
    (CheckSingleAssignmentConstraints : QualType → Expr → AssignmentCheckResult × Expr)
    (CheckReturnStackAddr : Expr → QualType → SourceLocation → List Diagnostic)
    (S : Sema) (newRS : Nat) (ReturnLoc : SourceLocation) (E : Expr)
    (lhsType : QualType) (funcName : IdentifierInfo)
    (hCur : S.Cur = some (lhsType, funcName)) (hv : lhsType.isVoidType = false) :
    ActOnReturnStmt CheckSingleAssignmentConstraints CheckReturnStackAddr S newRS ReturnLoc
        (some E) =
      some (.stmt (.Return ⟨newRS, ReturnLoc, some (CheckSingleAssignmentConstraints lhsType E).2⟩),
        { S with
          Diags := S.Diags ++
            (match (CheckSingleAssignmentConstraints lhsType E).1 with
              | .Compatible => []
              | .Incompatible =>
                [⟨ReturnLoc, .err_typecheck_return_incompatible,
                  [.typeName lhsType, .typeName E.getType,
                   .range (CheckSingleAssignmentConstraints lhsType E).2.getLocStart
                     (CheckSingleAssignmentConstraints lhsType E).2.getLocEnd]⟩]
              | .PointerFromInt =>
                [⟨ReturnLoc, .ext_typecheck_return_pointer_int,
                  [.typeName lhsType, .typeName E.getType,
                   .range (CheckSingleAssignmentConstraints lhsType E).2.getLocStart
                     (CheckSingleAssignmentConstraints lhsType E).2.getLocEnd]⟩]
              | .IntFromPointer =>
                [⟨ReturnLoc, .ext_typecheck_return_pointer_int,
                  [.typeName lhsType, .typeName E.getType,
                   .range (CheckSingleAssignmentConstraints lhsType E).2.getLocStart
                     (CheckSingleAssignmentConstraints lhsType E).2.getLocEnd]⟩]
              | .IncompatiblePointer =>
                [⟨ReturnLoc, .ext_typecheck_return_incompatible_pointer,
                  [.typeName lhsType, .typeName E.getType,
                   .range (CheckSingleAssignmentConstraints lhsType E).2.getLocStart
                     (CheckSingleAssignmentConstraints lhsType E).2.getLocEnd]⟩]
              | .CompatiblePointerDiscardsQualifiers =>
                [⟨ReturnLoc, .ext_typecheck_return_discards_qualifiers,
                  [.typeName lhsType, .typeName E.getType,
                   .range (CheckSingleAssignmentConstraints lhsType E).2.getLocStart
                     (CheckSingleAssignmentConstraints lhsType E).2.getLocEnd]⟩]) ++
            CheckReturnStackAddr (CheckSingleAssignmentConstraints lhsType E).2 lhsType
              ReturnLoc }) := by
  unfold Sema.Cur at hCur
  unfold ActOnReturnStmt
  simp only [hCur, hv, Bool.false_eq_true, if_false]
  cases (CheckSingleAssignmentConstraints lhsType E).1 <;>
    simp [Sema.Diag, List.append_assoc]

theorem ActOnReturnStmt_void
    (CheckSingleAssignmentConstraints : QualType → Expr → AssignmentCheckResult × Expr)
    (CheckReturnStackAddr : Expr → QualType → SourceLocation → List Diagnostic)
    (S : Sema) (newRS : Nat) (ReturnLoc : SourceLocation) (E : Expr)
    (lhsType : QualType) (funcName : IdentifierInfo)
    (hCur : S.Cur = some (lhsType, funcName)) (hv : lhsType.isVoidType = true) :
    ActOnReturnStmt CheckSingleAssignmentConstraints CheckReturnStackAddr S newRS ReturnLoc
        (some E) =
      some (.stmt (.Return ⟨newRS, ReturnLoc, some E⟩),
        { S with
          Diags := S.Diags ++ [⟨ReturnLoc, .ext_return_has_expr,
            [.ident funcName, .range E.getLocStart E.getLocEnd]⟩] }) := by
  unfold Sema.Cur at hCur
  unfold ActOnReturnStmt
  simp [hCur, hv, Sema.Diag]

/-! ## Properties of the for statement -/

theorem checkForDecls_eq (Ds : List ScopedDecl) : ∀ S : Sema,
    checkForDecls S Ds =
      { S with
        Diags := S.Diags ++
          (Ds.filter (fun D => !(D.isBlockVarDecl && D.hasLocalStorage))).map
            (fun D => ⟨D.getLocation, .err_non_variable_decl_in_for, []⟩) } := by
  induction Ds with
  | nil =>
    intro S
    simp [checkForDecls]
  | cons D rest ih =>
    intro S
    unfold checkForDecls
    cases hb : D.isBlockVarDecl <;> cases hl : D.hasLocalStorage <;>
      simp [ih, Sema.Diag, hb, hl]

/-! ## Properties of the compound statement -/

theorem isaDeclStmt_iff (Elt : StmtRef) :
    Elt.isaDeclStmt = true ↔ ∃ DS, Elt.Class = .DeclStmt DS := by
  unfold StmtRef.isaDeclStmt
  cases Elt.Class <;> simp

theorem firstDecl_of_not_decl (Elt : StmtRef) (rest : List StmtRef)
    (h : Elt.isaDeclStmt = false) : firstDecl (Elt :: rest) = firstDecl rest := by
  unfold StmtRef.isaDeclStmt at h
  rw [firstDecl]
  cases hc : Elt.Class <;> simp_all

theorem firstDecl_of_decl (Elt : StmtRef) (rest : List StmtRef) (DS : DeclStmt)
    (h : Elt.Class = .DeclStmt DS) : firstDecl (Elt :: rest) = some DS := by
  rw [firstDecl]
  simp [h]

theorem skipOtherStmts_eq (todo : List StmtRef) :
    ∀ (pre : List StmtRef) (fuel : Nat), todo.length < fuel →
      (skipOtherStmts (pre ++ todo) (pre ++ todo).length fuel pre.length).bind
          (declAt (pre ++ todo) (pre ++ todo).length) = some (firstDecl todo) := by
  induction todo with
  | nil =>
    intro pre fuel hf
    cases fuel with
    | zero => cases hf
    | succ fuel => simp [skipOtherStmts, declAt, firstDecl]
  | cons Elt rest ih =>
    intro pre fuel hf
    cases fuel with
    | zero => cases hf
    | succ fuel =>
      have hne : ¬ pre.length = (pre ++ Elt :: rest).length := by simp
      have hget : (pre ++ Elt :: rest)[pre.length]? = some Elt := by
        rw [List.getElem?_append_right (le_refl _)]
        simp
      rw [skipOtherStmts, if_neg hne, hget]
      simp only []
      cases hd : Elt.isaDeclStmt with
      | false =>
        have e : pre ++ Elt :: rest = (pre ++ [Elt]) ++ rest := by simp
        have hl : pre.length + 1 = (pre ++ [Elt]).length := by simp
        simp only [Bool.not_false, if_true]
        rw [firstDecl_of_not_decl Elt rest hd, e, hl]
        exact ih (pre ++ [Elt]) fuel (by simpa using hf)
      | true =>
        obtain ⟨DS, hDS⟩ := (isaDeclStmt_iff Elt).1 hd
        simp only [Bool.not_true, Bool.false_eq_true, if_false, Option.some_bind]
        rw [firstDecl_of_decl Elt rest DS hDS]
        unfold declAt
        rw [if_pos hne, hget]
        obtain ⟨a, c⟩ := Elt
        simp only at hDS
        subst hDS
        rfl

theorem skipDeclStmts_eq (todo : List StmtRef) :
    ∀ (pre : List StmtRef) (fuel : Nat), todo.length < fuel →
      (skipDeclStmts (pre ++ todo) (pre ++ todo).length fuel pre.length).bind
          (fun i1 =>
            (skipOtherStmts (pre ++ todo) (pre ++ todo).length ((pre ++ todo).length + 1) i1).bind
              (declAt (pre ++ todo) (pre ++ todo).length)) =
        some (firstDeclAfterStmt todo) := by
  induction todo with
  | nil =>
    intro pre fuel hf
    cases fuel with
    | zero => cases hf
    | succ fuel => simp [skipDeclStmts, skipOtherStmts, declAt, firstDeclAfterStmt]
  | cons Elt rest ih =>
    intro pre fuel hf
    cases fuel with
    | zero => cases hf
    | succ fuel =>
      have hne : ¬ pre.length = (pre ++ Elt :: rest).length := by simp
      have hget : (pre ++ Elt :: rest)[pre.length]? = some Elt := by
        rw [List.getElem?_append_right (le_refl _)]
        simp
      rw [skipDeclStmts, if_neg hne, hget]
      simp only []
      cases hd : Elt.isaDeclStmt with
      | true =>
        have e : pre ++ Elt :: rest = (pre ++ [Elt]) ++ rest := by simp
        have hl : pre.length + 1 = (pre ++ [Elt]).length := by simp
        simp only [if_true]
        rw [firstDeclAfterStmt, hd, if_pos rfl, e, hl]
        exact ih (pre ++ [Elt]) fuel (by simpa using hf)
      | false =>
        simp only [Bool.false_eq_true, if_false, Option.some_bind]
        rw [firstDeclAfterStmt, hd, if_neg (by simp)]
        have hlen : (Elt :: rest).length < (pre ++ Elt :: rest).length + 1 := by
          rw [List.length_append]
          omega
        rw [← firstDecl_of_not_decl Elt rest hd]
        exact skipOtherStmts_eq (Elt :: rest) pre ((pre ++ Elt :: rest).length + 1) hlen

theorem checkMixedDecls_eq (LangOpts : LangOptions) (Elts : List StmtRef) :
    checkMixedDecls LangOpts Elts Elts.length =
      some (if (!LangOpts.C99 && !LangOpts.CPlusPlus) = true then
        match firstDeclAfterStmt Elts with
        | some DS => [⟨DS.getDecl.getLocation, .ext_mixed_decls_code, []⟩]
        | none => []
      else []) := by
  unfold checkMixedDecls
  by_cases hL : (!LangOpts.C99 && !LangOpts.CPlusPlus) = true
  · rw [if_pos hL, if_pos hL]
    have h := skipDeclStmts_eq Elts [] (Elts.length + 1) (Nat.lt_succ_self _)
    simp only [List.nil_append, List.length_nil] at h
    cases h1 : skipDeclStmts Elts Elts.length (Elts.length + 1) 0 with
    | none => simp [h1] at h
    | some i1 =>
      rw [h1, Option.some_bind] at h
      cases h2 : skipOtherStmts Elts Elts.length (Elts.length + 1) i1 with
      | none => simp [h2] at h
      | some i =>
        rw [h2, Option.some_bind] at h
        unfold declAt at h
        simp only [h2]
        by_cases hi : i = Elts.length
        · have hn : ¬ (i ≠ Elts.length) := fun hc => hc hi
          rw [if_neg hn] at h
          rw [if_neg hn, ← Option.some.inj h]
        · have hn : i ≠ Elts.length := hi
          rw [if_pos hn] at h
          rw [if_pos hn]
          cases hE : Elts[i]? with
          | none => simp [hE] at h
          | some Elt =>
            obtain ⟨a, c⟩ := Elt
            cases c with
            | DeclStmt DS =>
              simp only [hE, Option.some.injEq] at h
              rw [← h]
            | Expr E b C => simp [hE] at h
            | Other => simp [hE] at h
  · rw [if_neg hL, if_neg hL]

theorem warnUnusedExpr_ID (NumElts : Nat) (isStmtExpr : Bool) (i : Nat) (Elt : StmtRef) :
    ∀ d ∈ warnUnusedExpr NumElts isStmtExpr i Elt, d.ID = .warn_unused_expr := by
  intro d hd
  unfold warnUnusedExpr at hd
  split at hd
  · split_ifs at hd
    · cases hd
    · cases hd
    · split at hd <;> simp at hd <;> rw [hd]
  · cases hd

theorem warnUnusedExprs_ok (Elts : List StmtRef) (NumElts : Nat) (isStmtExpr : Bool) :
    ∀ idxs : List Nat, (∀ i ∈ idxs, i < Elts.length) →
      ∃ D, warnUnusedExprs Elts NumElts isStmtExpr idxs = some D ∧
        ∀ d ∈ D, d.ID = .warn_unused_expr := by
  intro idxs
  induction idxs with
  | nil => exact fun _ => ⟨[], rfl, fun d hd => by cases hd⟩
  | cons i rest ih =>
    intro h
    obtain ⟨D, hD, hID⟩ := ih (fun j hj => h j (List.mem_cons_of_mem _ hj))
    have hi : i < Elts.length := h i (List.mem_cons_self _ _)
    refine ⟨warnUnusedExpr NumElts isStmtExpr i Elts[i] ++ D, ?_, ?_⟩
    · rw [warnUnusedExprs, List.getElem?_eq_getElem hi]
      simp only [hD]
    · intro d hd
      rcases List.mem_append.1 hd with h1 | h1
      · exact warnUnusedExpr_ID _ _ _ _ d h1
      · exact hID d h1

theorem firstDecl_none (l : List StmtRef) (h : firstDecl l = none) :
    ∀ E ∈ l, E.isaDeclStmt = false := by
  induction l with
  | nil => intro E hE; cases hE
  | cons Elt rest ih =>
    intro E hE
    cases hd : Elt.isaDeclStmt with
    | true =>
      obtain ⟨DS, hDS⟩ := (isaDeclStmt_iff Elt).1 hd
      rw [firstDecl_of_decl Elt rest DS hDS] at h
      cases h
    | false =>
      rw [firstDecl_of_not_decl Elt rest hd] at h
      rcases List.mem_cons.1 hE with e | e
      · rw [e]
        exact hd
      · exact ih h E e

theorem firstDecl_some (l : List StmtRef) (DS : DeclStmt) (h : firstDecl l = some DS) :
    ∃ B a C, l = B ++ ⟨a, .DeclStmt DS⟩ :: C ∧ ∀ E ∈ B, E.isaDeclStmt = false := by
  induction l with
  | nil => cases h
  | cons Elt rest ih =>
    cases hd : Elt.isaDeclStmt with
    | true =>
      obtain ⟨DS2, hDS⟩ := (isaDeclStmt_iff Elt).1 hd
      rw [firstDecl_of_decl Elt rest DS2 hDS] at h
      cases h
      obtain ⟨a, c⟩ := Elt
      simp only at hDS
      subst hDS
      exact ⟨[], a, rest, rfl, fun E hE => by cases hE⟩
    | false =>
      rw [firstDecl_of_not_decl Elt rest hd] at h
      obtain ⟨B, a, C, e, hB⟩ := ih h
      refine ⟨Elt :: B, a, C, by rw [e]; rfl, ?_⟩
      intro E hE
      rcases List.mem_cons.1 hE with e1 | e1
      · rw [e1]
        exact hd
      · exact hB E e1

theorem firstDeclAfterStmt_some (l : List StmtRef) (DS : DeclStmt)
    (h : firstDeclAfterStmt l = some DS) :
    ∃ A B a C, l = A ++ B ++ ⟨a, .DeclStmt DS⟩ :: C ∧ (∀ E ∈ A, E.isaDeclStmt = true) ∧
      B ≠ [] ∧ ∀ E ∈ B, E.isaDeclStmt = false := by
  induction l with
  | nil => cases h
  | cons Elt rest ih =>
    rw [firstDeclAfterStmt] at h
    cases hd : Elt.isaDeclStmt with
    | true =>
      rw [hd, if_pos rfl] at h
      obtain ⟨A, B, a, C, e, hA, hB0, hB⟩ := ih h
      refine ⟨Elt :: A, B, a, C, by rw [e]; rfl, ?_, hB0, hB⟩
      intro E hE
      rcases List.mem_cons.1 hE with e1 | e1
      · rw [e1]
        exact hd
      · exact hA E e1
    | false =>
      rw [hd, if_neg (by simp)] at h
      obtain ⟨B, a, C, e, hB⟩ := firstDecl_some rest DS h
      refine ⟨[], Elt :: B, a, C, (by rw [e]; rfl), (fun E hE => by cases hE), (by simp), ?_⟩
      intro E hE
      rcases List.mem_cons.1 hE with e1 | e1
      · rw [e1]
        exact hd
      · exact hB E e1

theorem firstDeclAfterStmt_none (l : List StmtRef) (h : firstDeclAfterStmt l = none) :
    ¬ ∃ pre E1 mid E2 post, l = pre ++ E1 :: (mid ++ E2 :: post) ∧ E1.isaDeclStmt = false ∧
      E2.isaDeclStmt = true := by
  induction l with
  | nil =>
    rintro ⟨pre, E1, mid, E2, post, e, _, _⟩
    cases pre <;> cases e
  | cons Elt rest ih =>
    rintro ⟨pre, E1, mid, E2, post, e, h1, h2⟩
    rw [firstDeclAfterStmt] at h
    cases hd : Elt.isaDeclStmt with
    | true =>
      rw [hd, if_pos rfl] at h
      cases pre with
      | nil =>
        simp only [List.nil_append, List.cons.injEq] at e
        rw [e.1, h1] at hd
        cases hd
      | cons P pre2 =>
        simp only [List.cons_append, List.cons.injEq] at e
        exact ih h ⟨pre2, E1, mid, E2, post, e.2, h1, h2⟩
    | false =>
      rw [hd, if_neg (by simp)] at h
      have hall := firstDecl_none rest h
      have hmem : E2 ∈ rest := by
        cases pre with
        | nil =>
          simp only [List.nil_append, List.cons.injEq] at e
          rw [e.2]
          simp
        | cons P pre2 =>
          simp only [List.cons_append, List.cons.injEq] at e
          rw [e.2]
          simp
      rw [hall E2 hmem] at h2
      cases h2

theorem filter_mixed_of_unused (D : List Diagnostic) (h : ∀ d ∈ D, d.ID = .warn_unused_expr) :
    D.filter (fun d => decide (d.ID = .ext_mixed_decls_code)) = [] := by
  rw [List.filter_eq_nil_iff]
  intro d hd
  rw [h d hd]
  decide

theorem ActOnCompoundStmt_eq (S : Sema) (newCS : Nat) (L R : SourceLocation)
    (Elts : List StmtRef) (isStmtExpr : Bool) :
    ∃ D2, (∀ d ∈ D2, d.ID = .warn_unused_expr) ∧
      ActOnCompoundStmt S newCS L R Elts Elts.length isStmtExpr =
        some (.stmt (.Compound ⟨newCS, Elts, L, R⟩),
          { S with
            Diags := S.Diags ++
              (if (!S.getLangOptions.C99 && !S.getLangOptions.CPlusPlus) = true then
                match firstDeclAfterStmt Elts with
                | some DS => [⟨DS.getDecl.getLocation, .ext_mixed_decls_code, []⟩]
                | none => []
              else []) ++ D2 }) := by
  obtain ⟨D2, hD2, hID⟩ := warnUnusedExprs_ok Elts Elts.length isStmtExpr
    (List.range Elts.length) (fun i hi => List.mem_range.1 hi)
  refine ⟨D2, hID, ?_⟩
  unfold ActOnCompoundStmt
  rw [checkMixedDecls_eq]
  simp only [hD2, List.take_length]

/-! ## Properties of the asm statement -/

theorem checkAsmOutputs_loop (Target : TargetInfo) (Cs : List StringLiteral)
    (Es : List OperandExpr) (idxs : List Nat) :
    checkAsmOutputs Target Cs Es idxs = loopUntil (asmOutputStep Target Cs Es) idxs := by
  induction idxs with
  | nil => rfl
  | cons i rest ih =>
    rw [checkAsmOutputs, loopUntil, asmOutputStep, ih]
    cases Cs[i]? with
    | none => rfl
    | some Literal =>
      simp only []
      by_cases hw : Literal.isWide = true
      · simp [hw]
      · by_cases hv : Target.validateOutputConstraint Literal.getStrData = true
        · cases Es[i]? with
          | none => simp [hw, hv]
          | some OutputExpr =>
            by_cases hl : OutputExpr.isLvalue = .LV_Valid
            · simp [hw, hv, hl]
            · cases OutputExpr <;> simp [hw, hv, hl]
        · simp [hw, hv]

theorem checkAsmInputs_loop (Target : TargetInfo) (NumOutputs : Nat) (Cs : List StringLiteral)
    (Es : List OperandExpr) (idxs : List Nat) :
    checkAsmInputs Target NumOutputs Cs Es idxs =
      loopUntil (asmInputStep Target NumOutputs Cs Es) idxs := by
  induction idxs with
  | nil => rfl
  | cons i rest ih =>
    rw [checkAsmInputs, loopUntil, asmInputStep, ih]
    cases Cs[i]? with
    | none => rfl
    | some Literal =>
      simp only []
      by_cases hw : Literal.isWide = true
      · simp [hw]
      · by_cases hv : Target.validateInputConstraint Literal.getStrData NumOutputs = true
        · cases Es[i]? with
          | none => simp [hw, hv]
          | some InputExpr =>
            by_cases hl : InputExpr.getType.isVoidType = true
            · cases InputExpr <;> simp [hw, hv, hl]
            · simp [hw, hv, hl]
        · simp [hw, hv]

theorem checkAsmClobbers_loop (Target : TargetInfo) (Cl : List StringLiteral)
    (idxs : List Nat) :
    checkAsmClobbers Target Cl idxs = loopUntil (asmClobberStep Target Cl) idxs := by
  induction idxs with
  | nil => rfl
  | cons i rest ih =>
    rw [checkAsmClobbers, loopUntil, asmClobberStep, ih]
    cases Cl[i]? with
    | none => rfl
    | some Literal =>
      simp only []
      by_cases hw : Literal.isWide = true
      · simp [hw]
      · by_cases hv : Target.isValidGCCRegisterName Literal.getStrData = true
        · simp [hw, hv]
        · simp [hw, hv]

theorem loopUntil_congr (body body2 : Nat → Option (Option Diagnostic)) (idxs : List Nat)
    (h : ∀ i ∈ idxs, body2 i = body i) : loopUntil body2 idxs = loopUntil body idxs := by
  induction idxs with
  | nil => rfl
  | cons i rest ih =>
    rw [loopUntil, loopUntil, h i (List.mem_cons_self _ _),
      ih (fun j hj => h j (List.mem_cons_of_mem _ hj))]

theorem loopUntil_exit (body : Nat → Option (Option Diagnostic)) (d : Diagnostic) :
    ∀ (n s : Nat), loopUntil body (List.range' s n) = some (some d) →
      ∃ j, s ≤ j ∧ j < s + n ∧
        ∀ (body2 : Nat → Option (Option Diagnostic)) (n2 : Nat),
          (∀ i, s ≤ i → i ≤ j → body2 i = body i) → j < s + n2 →
            loopUntil body2 (List.range' s n2) = some (some d) := by
  intro n
  induction n with
  | zero =>
    intro s h
    simp [loopUntil] at h
  | succ n ih =>
    intro s h
    rw [List.range'_succ, loopUntil] at h
    cases hb : body s with
    | none => simp [hb] at h
    | some r =>
      cases r with
      | some d2 =>
        simp only [hb, Option.some.injEq] at h
        subst h
        refine ⟨s, le_refl _, by omega, ?_⟩
        intro body2 n2 hag hn2
        obtain ⟨m, rfl⟩ : ∃ m, n2 = m + 1 := ⟨n2 - 1, by omega⟩
        rw [List.range'_succ, loopUntil, hag s (le_refl _) (le_refl _), hb]
      | none =>
        simp only [hb] at h
        obtain ⟨j, hj1, hj2, hj⟩ := ih (s + 1) h
        refine ⟨j, by omega, by omega, ?_⟩
        intro body2 n2 hag hn2
        obtain ⟨m, rfl⟩ : ∃ m, n2 = m + 1 := ⟨n2 - 1, by omega⟩
        rw [List.range'_succ, loopUntil, hag s (le_refl _) (by omega), hb]
        exact hj body2 m (fun i hi1 hi2 => hag i (by omega) hi2) (by omega)

theorem firstFailure_append (l1 l2 : List (Bool × Diagnostic)) :
    firstFailure (l1 ++ l2) = (firstFailure l1).or (firstFailure l2) := by
  unfold firstFailure
  rw [List.find?_append]
  cases List.find? (fun c => !c.1) l1 <;> rfl

theorem loopUntil_eq_firstFailure {α : Type} (checks : α → List (Bool × Diagnostic))
    (body : Nat → Option (Option Diagnostic)) :
    ∀ (todo : List α) (s : Nat),
      (∀ (k : Nat) (x : α), todo[k]? = some x → body (s + k) = some (firstFailure (checks x))) →
      loopUntil body (List.range' s todo.length) = some (firstFailure (todo.flatMap checks)) := by
  intro todo
  induction todo with
  | nil =>
    intro s _
    rfl
  | cons x rest ih =>
    intro s h
    have h0 := h 0 x (by simp)
    rw [Nat.add_zero] at h0
    have hrest := ih (s + 1) (fun k y hy => by
      have := h (k + 1) y (by simpa using hy)
      rw [← this]
      congr 1
      omega)
    rw [List.length_cons, List.range'_succ, loopUntil, h0, List.flatMap_cons,
      firstFailure_append]
    cases firstFailure (checks x) with
    | none => simpa using hrest
    | some d => rfl

theorem getElem?_of_take_eq {α : Type} (l l2 : List α) (m i : Nat)
    (h : l2.take m = l.take m) (hi : i < m) : l2[i]? = l[i]? := by
  have := congrArg (fun t => t[i]?) h
  simpa [List.getElem?_take, hi] using this

theorem asmOutputStep_congr (Target : TargetInfo) (Cs Cs2 : List StringLiteral)
    (Es Es2 : List OperandExpr) (i : Nat) (h1 : Cs2[i]? = Cs[i]?) (h2 : Es2[i]? = Es[i]?) :
    asmOutputStep Target Cs2 Es2 i = asmOutputStep Target Cs Es i := by
  unfold asmOutputStep
  rw [h1, h2]

theorem asmInputStep_congr (Target : TargetInfo) (N : Nat) (Cs Cs2 : List StringLiteral)
    (Es Es2 : List OperandExpr) (i : Nat) (h1 : Cs2[i]? = Cs[i]?) (h2 : Es2[i]? = Es[i]?) :
    asmInputStep Target N Cs2 Es2 i = asmInputStep Target N Cs Es i := by
  unfold asmInputStep
  rw [h1, h2]

theorem asmClobberStep_congr (Target : TargetInfo) (Cl Cl2 : List StringLiteral) (i : Nat)
    (h1 : Cl2[i]? = Cl[i]?) : asmClobberStep Target Cl2 i = asmClobberStep Target Cl i := by
  unfold asmClobberStep
  rw [h1]

theorem asmOutputStep_checks (Target : TargetInfo) (Cs : List StringLiteral)
    (Es : List OperandExpr) (i : Nat) (o : StringLiteral × ParenExpr)
    (h1 : Cs[i]? = some o.1) (h2 : Es[i]? = some (.Paren o.2)) (hw : o.1.isWide = false) :
    asmOutputStep Target Cs Es i = some (firstFailure (outputChecks Target o)) := by
  unfold asmOutputStep firstFailure outputChecks
  rw [h1, h2]
  by_cases hv : Target.validateOutputConstraint o.1.getStrData = true
  · by_cases hl : o.2.isLvalue = .LV_Valid
    · simp [hw, hv, hl, OperandExpr.isLvalue]
    · simp [hw, hv, hl, OperandExpr.isLvalue]
  · simp [hw, hv]

theorem asmInputStep_checks (Target : TargetInfo) (N : Nat) (Cs : List StringLiteral)
    (Es : List OperandExpr) (i : Nat) (o : StringLiteral × ParenExpr)
    (h1 : Cs[i]? = some o.1) (h2 : Es[i]? = some (.Paren o.2)) (hw : o.1.isWide = false) :
    asmInputStep Target N Cs Es i = some (firstFailure (inputChecks Target N o)) := by
  unfold asmInputStep firstFailure inputChecks
  rw [h1, h2]
  by_cases hv : Target.validateInputConstraint o.1.getStrData N = true
  · by_cases hl : o.2.getType.isVoidType = true
    · simp [hw, hv, hl, OperandExpr.getType]
    · simp [hw, hv, hl, OperandExpr.getType]
  · simp [hw, hv]

theorem asmClobberStep_checks (Target : TargetInfo) (Cl : List StringLiteral) (i : Nat)
    (c : StringLiteral) (h1 : Cl[i]? = some c) (hw : c.isWide = false) :
    asmClobberStep Target Cl i = some (firstFailure (clobberChecks Target c)) := by
  unfold asmClobberStep firstFailure clobberChecks
  rw [h1]
  by_cases hv : Target.isValidGCCRegisterName c.getStrData = true
  · simp [hw, hv]
  · simp [hw, hv]

theorem ActOnAsmStmt_loops (Target : TargetInfo) (S : Sema) (newAS : Nat)
    (AsmLoc : SourceLocation) (IsVolatile : Bool) (N1 N2 : Nat) (Names : List String)
    (Cs : List StringLiteral) (Es : List OperandExpr) (AsmString : StringLiteral)
    (N3 : Nat) (Cl : List StringLiteral) (RParenLoc : SourceLocation) :
    ActOnAsmStmt Target S newAS AsmLoc IsVolatile N1 N2 Names Cs Es AsmString N3 Cl RParenLoc =
      match loopUntil (asmOutputStep Target Cs Es) (List.range' 0 N1) with
      | none => none
      | some (some d) => some (.invalid, { S with Diags := S.Diags ++ [d] })
      | some none =>
        match loopUntil (asmInputStep Target N1 Cs Es) (List.range' N1 N2) with
        | none => none
        | some (some d) => some (.invalid, { S with Diags := S.Diags ++ [d] })
        | some none =>
          match loopUntil (asmClobberStep Target Cl) (List.range' 0 N3) with
          | none => none
          | some (some d) => some (.invalid, { S with Diags := S.Diags ++ [d] })
          | some none =>
            some (.stmt (.Asm ⟨newAS, AsmLoc, IsVolatile, N1, N2, Names, Cs, Es, AsmString, N3,
              Cl, RParenLoc⟩), S) := by
  unfold ActOnAsmStmt
  rw [checkAsmOutputs_loop, checkAsmInputs_loop, checkAsmClobbers_loop, List.range_eq_range',
    List.range_eq_range']
  rfl

theorem asmOutputs_wellformed (Target : TargetInfo)
    (Outputs Inputs : List (StringLiteral × ParenExpr))
    (hO : ∀ o ∈ Outputs, o.1.isWide = false) :
    loopUntil
        (asmOutputStep Target ((Outputs ++ Inputs).map Prod.fst)
          ((Outputs ++ Inputs).map (fun o => OperandExpr.Paren o.2)))
        (List.range' 0 Outputs.length) =
      some (firstFailure (Outputs.flatMap (outputChecks Target))) := by
  apply loopUntil_eq_firstFailure
  intro k x hx
  have hk : k < Outputs.length := by
    by_contra hc
    rw [List.getElem?_eq_none (by omega)] at hx
    cases hx
  have hget : (Outputs ++ Inputs)[0 + k]? = some x := by
    rw [Nat.zero_add, List.getElem?_append_left hk]
    exact hx
  apply asmOutputStep_checks
  · rw [List.getElem?_map, hget]
    rfl
  · rw [List.getElem?_map, hget]
    rfl
  · exact hO x (List.getElem?_mem hx)

theorem asmInputs_wellformed (Target : TargetInfo)
    (Outputs Inputs : List (StringLiteral × ParenExpr))
    (hI : ∀ o ∈ Inputs, o.1.isWide = false) :
    loopUntil
        (asmInputStep Target Outputs.length ((Outputs ++ Inputs).map Prod.fst)
          ((Outputs ++ Inputs).map (fun o => OperandExpr.Paren o.2)))
        (List.range' Outputs.length Inputs.length) =
      some (firstFailure (Inputs.flatMap (inputChecks Target Outputs.length))) := by
  apply loopUntil_eq_firstFailure
  intro k x hx
  have hget : (Outputs ++ Inputs)[Outputs.length + k]? = some x := by
    rw [List.getElem?_append_right (by omega)]
    simpa using hx
  apply asmInputStep_checks
  · rw [List.getElem?_map, hget]
    rfl
  · rw [List.getElem?_map, hget]
    rfl
  · exact hI x (List.getElem?_mem hx)

theorem asmClobbers_wellformed (Target : TargetInfo) (Clobbers : List StringLiteral)
    (hC : ∀ c ∈ Clobbers, c.isWide = false) :
    loopUntil (asmClobberStep Target Clobbers) (List.range' 0 Clobbers.length) =
      some (firstFailure (Clobbers.flatMap (clobberChecks Target))) := by
  apply loopUntil_eq_firstFailure
  intro k x hx
  apply asmClobberStep_checks
  · rw [Nat.zero_add]
    exact hx
  · exact hC x (List.getElem?_mem hx)

theorem firstFailure_eq_none (l : List (Bool × Diagnostic)) :
    firstFailure l = none ↔ ∀ c ∈ l, c.1 = true := by
  unfold firstFailure
  rw [Option.map_eq_none', List.find?_eq_none]
  simp

/-! # The properties of the switch analysis -/

/-- C1: for a switch whose controlling expression has integer type, `ActOnFinishSwitchStmt`
returns a result, which is the switch node or the failure marker, and it is the switch node
if and only if, on the bounds renormalised to the controlling type, the chain holds at most
one default, no two scalar cases have equal values, no scalar case value lies in a non-empty
range, and no two non-empty ranges intersect. -/
theorem ActOnFinishSwitchStmt_valid_iff (S : Sema) (rest : List SwitchStmt) (SS : SwitchStmt)
    (SwitchLoc Body : Nat) (hS : S.SwitchStack = rest ++ [SS])
    (hInt : SS.getCond.getType.isIntegerType = true) :
    ∃ r S2, ActOnFinishSwitchStmt S SwitchLoc SS.addr Body = some (r, S2) ∧
      (r = .stmt (.Switch (SS.setBody Body SwitchLoc)) ∨ r = .invalid) ∧
      (r = .stmt (.Switch (SS.setBody Body SwitchLoc)) ↔
        defaultCount SS.getSwitchCaseList ≤ 1 ∧
        (scalarValues SS.getCond.getType.TypeSize SS.getCond.getType.isSignedIntegerType
          SS.getSwitchCaseList).Nodup ∧
        (∀ v ∈ scalarValues SS.getCond.getType.TypeSize
            SS.getCond.getType.isSignedIntegerType SS.getSwitchCaseList,
          ∀ r ∈ nonEmptyRanges SS.getCond.getType.TypeSize
            SS.getCond.getType.isSignedIntegerType SS.getSwitchCaseList,
            ¬ (r.1 ≤ v ∧ v ≤ r.2)) ∧
        (nonEmptyRanges SS.getCond.getType.TypeSize SS.getCond.getType.isSignedIntegerType
          SS.getSwitchCaseList).Pairwise (fun a b => a.2 < b.1 ∨ b.2 < a.1)) := by
  obtain ⟨D, flag, hc, hiff⟩ := checkSwitchCases_flag SS.getCond.getType.TypeSize
    SS.getCond.getType.isSignedIntegerType SS.getSwitchCaseList
  refine ⟨_, _, ActOnFinishSwitchStmt_eq S rest SS SwitchLoc Body hS hInt D flag hc, ?_, ?_⟩
  · cases flag <;> simp
  · rw [← hiff]
    cases flag <;> simp

/-- Witness of C1 on the chain `case 4: case 3 ... 5:`. -/
theorem ActOnFinishSwitchStmt_valid_iff_witness :
    ∃ r S2, ActOnFinishSwitchStmt (exSema exInt [exScalar 2 4, exRange 3 3 5]) 7 1 9 =
        some (r, S2) ∧
      (r = .stmt (.Switch ((exSwitch exInt [exScalar 2 4, exRange 3 3 5]).setBody 9 7)) ∨
        r = .invalid) ∧
      (r = .stmt (.Switch ((exSwitch exInt [exScalar 2 4, exRange 3 3 5]).setBody 9 7)) ↔
        defaultCount [exScalar 2 4, exRange 3 3 5] ≤ 1 ∧
        (scalarValues 32 true [exScalar 2 4, exRange 3 3 5]).Nodup ∧
        (∀ v ∈ scalarValues 32 true [exScalar 2 4, exRange 3 3 5],
          ∀ r ∈ nonEmptyRanges 32 true [exScalar 2 4, exRange 3 3 5],
            ¬ (r.1 ≤ v ∧ v ≤ r.2)) ∧
        (nonEmptyRanges 32 true [exScalar 2 4, exRange 3 3 5]).Pairwise
          (fun a b => a.2 < b.1 ∨ b.2 < a.1)) :=
  ActOnFinishSwitchStmt_valid_iff (exSema exInt [exScalar 2 4, exRange 3 3 5]) []
    (exSwitch exInt [exScalar 2 4, exRange 3 3 5]) 7 9 rfl rfl

/-- C2: the scalar cases of a chain are stably sorted by (value, source location), and the scan
of the sorted list reports a duplicate-case error exactly for each neighbouring pair with
equal values, with the primary at the later element of the pair and the note at the earlier:
the number of these errors is the number of scalar cases minus the number of distinct
renormalised values, it is zero iff all values are distinct, and the list is marked
erroneous iff some value occurs twice. -/
theorem scanAllCaseVals_duplicates (w : Nat) (s : Bool) (chain : List SwitchCase) :
    (stable_sort CmpCaseVals (walkSwitchCases w s chain none).CaseVals).Perm
        (walkSwitchCases w s chain none).CaseVals ∧
      (stable_sort CmpCaseVals (walkSwitchCases w s chain none).CaseVals).Pairwise
        (fun a b => a.1.toInt < b.1.toInt ∨
          (a.1.toInt = b.1.toInt ∧ a.2.getCaseLoc ≤ b.2.getCaseLoc)) ∧
      ∃ D flag,
        scanAllCaseVals (stable_sort CmpCaseVals (walkSwitchCases w s chain none).CaseVals) =
          some (D, flag) ∧
        D = (((stable_sort CmpCaseVals (walkSwitchCases w s chain none).CaseVals).zip
              (stable_sort CmpCaseVals (walkSwitchCases w s chain none).CaseVals).tail).filter
            (fun ab => decide (ab.1.1.toInt = ab.2.1.toInt))).flatMap
            (fun ab => duplicateCaseDiags ab.1 ab.2) ∧
        D.countP (fun d => decide (d.ID = .err_duplicate_case)) =
          (walkSwitchCases w s chain none).CaseVals.length -
            (scalarValues w s chain).toFinset.card ∧
        (D.countP (fun d => decide (d.ID = .err_duplicate_case)) = 0 ↔
          (scalarValues w s chain).Nodup) ∧
        (flag = true ↔ ¬ (scalarValues w s chain).Nodup) := by
  rw [walk_CaseVals]
  have hsh : ∀ p ∈ stable_sort CmpCaseVals (caseValsOf w s chain), p.1.Shape w (!s) :=
    sortedVals_shape w s chain
  have hsorted := sorted_caseVals w s chain
  have hperm := sortedVals_perm w s chain
  unfold sortedVals at hperm
  have hcount := adjacentDuplicates_count w (!s) _ hsh hsorted
  have hlen : (stable_sort CmpCaseVals (caseValsOf w s chain)).length =
      (caseValsOf w s chain).length := (stable_sort_perm _ _).length_eq
  have hlen2 : (scalarValues w s chain).length = (caseValsOf w s chain).length := by
    rw [← caseValsOf_map, List.length_map]
  have hded : ((stable_sort CmpCaseVals (caseValsOf w s chain)).map
      (fun p => p.1.toInt)).dedup.length = (scalarValues w s chain).toFinset.card := by
    rw [List.toFinset_eq_of_perm _ _ hperm.symm, List.card_toFinset]
  refine ⟨stable_sort_perm _ _, ?_, _, _, scanAllCaseVals_eq _, ?_, ?_, ?_, ?_⟩
  · have h := stable_sort_sorted valKey CmpCaseVals (caseValsOf w s chain)
      (fun a ha b hb => CmpCaseVals_key (caseValsOf_shape w s chain a ha)
        (caseValsOf_shape w s chain b hb))
    refine h.imp ?_
    intro a b hab
    have := (Prod.Lex.le_iff (toLex (a.1.toInt, a.2.getCaseLoc))
      (toLex (b.1.toInt, b.2.getCaseLoc))).1 hab
    exact this
  · exact adjacentDuplicates_diags w (!s) _ hsh
  · rw [hded] at hcount
    omega
  · rw [← hperm.nodup_iff, nodup_iff_dedup_length, List.length_map]
    omega
  · rw [adjacentDuplicates_flag w (!s) _ hsh hsorted, hperm.nodup_iff]

/-- C3: on a sorted list of scalar case values the two binary-search probes of a case range
`[CRLo, CRHi]` report a scalar overlap if and only if some scalar value `v` satisfies
`CRLo ≤ v ≤ CRHi` (inclusive at both ends), and the reported scalar is a member of the list
that lies in `[CRLo, CRHi]`. -/
theorem overlapWithSingletons_detects (w : Nat) (u : Bool) (CaseVals : List (APSInt × CaseStmt))
    (CRLo CRHi : APSInt) (hV : ∀ p ∈ CaseVals, p.1.Shape w u)
    (hs : CaseVals.Pairwise (fun a b => a.1.toInt ≤ b.1.toInt))
    (hlo : CRLo.Shape w u) (hhi : CRHi.Shape w u) :
    ∃ OverlapVal OverlapStmt,
      overlapWithSingletons CaseVals CRLo CRHi = some (OverlapVal, OverlapStmt) ∧
      (OverlapStmt.isSome = true ↔
        ∃ p ∈ CaseVals, CRLo.toInt ≤ p.1.toInt ∧ p.1.toInt ≤ CRHi.toInt) ∧
      (∀ O, OverlapStmt = some O →
        (OverlapVal, O) ∈ CaseVals ∧ CRLo.toInt ≤ OverlapVal.toInt ∧
          OverlapVal.toInt ≤ CRHi.toInt) := by
  obtain ⟨r, h1, h2, h3⟩ := overlapWithSingletons_spec w u CaseVals CRLo CRHi hV hs hlo hhi
  exact ⟨r.1, r.2, h1, h2, h3⟩

/-- Witness of C3: the scalars 1, 5, 9 against the one-point range `5 ... 5`. -/
theorem overlapWithSingletons_detects_witness :
    ∃ OverlapVal OverlapStmt,
      overlapWithSingletons [exVal 1 1, exVal 2 5, exVal 3 9] (APSInt.get 32 5 false)
        (APSInt.get 32 5 false) = some (OverlapVal, OverlapStmt) ∧
      (OverlapStmt.isSome = true ↔
        ∃ p ∈ [exVal 1 1, exVal 2 5, exVal 3 9],
          (APSInt.get 32 5 false).toInt ≤ p.1.toInt ∧
            p.1.toInt ≤ (APSInt.get 32 5 false).toInt) ∧
      (∀ O, OverlapStmt = some O →
        (OverlapVal, O) ∈ [exVal 1 1, exVal 2 5, exVal 3 9] ∧
          (APSInt.get 32 5 false).toInt ≤ OverlapVal.toInt ∧
          OverlapVal.toInt ≤ (APSInt.get 32 5 false).toInt) :=
  overlapWithSingletons_detects 32 false [exVal 1 1, exVal 2 5, exVal 3 9]
    (APSInt.get 32 5 false) (APSInt.get 32 5 false) (by decide) (by decide) (by decide)
    (by decide)

/-- C4: on non-empty ranges sorted by low bound, some range starts at or below the high bound
of its immediate predecessor if and only if some two ranges (adjacent or not) intersect; the
rescan of the ranges returns, and it marks the switch erroneous if and only if two of the
ranges intersect or some scalar case value lies in one of them. -/
theorem rescanCaseRanges_neighbours_suffice (w : Nat) (s : Bool)
    (CaseVals CaseRanges : List (APSInt × CaseStmt))
    (hV : ∀ p ∈ CaseVals, p.1.Shape w (!s))
    (hVs : CaseVals.Pairwise (fun a b => a.1.toInt ≤ b.1.toInt))
    (hR : ∀ p ∈ CaseRanges, p.1.Shape w (!s) ∧ p.2.getRHS.isSome = true)
    (hRs : CaseRanges.Pairwise (fun a b => a.1.toInt ≤ b.1.toInt))
    (hne : ∀ p ∈ CaseRanges, p.1.toInt ≤ (HiValOf w s p.2).1.toInt) :
    ((∃ (i : Nat) (a b : APSInt × CaseStmt), CaseRanges[i]? = some a ∧
          CaseRanges[i + 1]? = some b ∧ b.1.toInt ≤ (HiValOf w s a.2).1.toInt) ↔
        ∃ (i j : Nat) (a b : APSInt × CaseStmt), i < j ∧ CaseRanges[i]? = some a ∧
          CaseRanges[j]? = some b ∧ a.1.toInt ≤ (HiValOf w s b.2).1.toInt ∧
          b.1.toInt ≤ (HiValOf w s a.2).1.toInt) ∧
      ∃ D flag,
        rescanCaseRanges CaseVals CaseRanges (CaseRanges.map (fun p => (HiValOf w s p.2).1))
          CaseRanges.length CaseRanges.length 0 = some (D, flag) ∧
        (flag = true ↔
          (∃ (i j : Nat) (a b : APSInt × CaseStmt), i < j ∧ CaseRanges[i]? = some a ∧
            CaseRanges[j]? = some b ∧ a.1.toInt ≤ (HiValOf w s b.2).1.toInt ∧
            b.1.toInt ≤ (HiValOf w s a.2).1.toInt) ∨
          ∃ R ∈ CaseRanges, ∃ p ∈ CaseVals, R.1.toInt ≤ p.1.toInt ∧
            p.1.toInt ≤ (HiValOf w s R.2).1.toInt) := by
  have h1 := adjacent_iff_not_pairwise_sep w s CaseRanges hRs
  have h2 := not_pairwise_sep_iff_intersect w s CaseRanges hRs hne
  obtain ⟨r, hr, hiff⟩ := rescanList_spec w s CaseVals hV hVs CaseRanges none hR
    (fun P hP => Option.noConfusion hP) hRs
  refine ⟨h1.trans h2, r.1, r.2, ?_, ?_⟩
  · have := rescanCaseRanges_eq w s CaseVals CaseRanges CaseRanges.length 0 (by omega)
    simp only [prevRange, if_true, List.drop_zero] at this
    rw [this, hr]
  · rw [hiff, ← h2]
    simp only [Option.toList_none, List.nil_append]
    exact or_comm

/-- Witness of C4: the ranges `1 ... 10`, `2 ... 3`, `5 ... 6` and the scalar 20. -/
theorem rescanCaseRanges_neighbours_suffice_witness :
    ((∃ (i : Nat) (a b : APSInt × CaseStmt),
          [exRng 1 1 10, exRng 2 2 3, exRng 3 5 6][i]? = some a ∧
          [exRng 1 1 10, exRng 2 2 3, exRng 3 5 6][i + 1]? = some b ∧
          b.1.toInt ≤ (HiValOf 32 true a.2).1.toInt) ↔
        ∃ (i j : Nat) (a b : APSInt × CaseStmt), i < j ∧
          [exRng 1 1 10, exRng 2 2 3, exRng 3 5 6][i]? = some a ∧
          [exRng 1 1 10, exRng 2 2 3, exRng 3 5 6][j]? = some b ∧
          a.1.toInt ≤ (HiValOf 32 true b.2).1.toInt ∧
          b.1.toInt ≤ (HiValOf 32 true a.2).1.toInt) ∧
      ∃ D flag,
        rescanCaseRanges [exVal 4 20] [exRng 1 1 10, exRng 2 2 3, exRng 3 5 6]
          ([exRng 1 1 10, exRng 2 2 3, exRng 3 5 6].map (fun p => (HiValOf 32 true p.2).1))
          [exRng 1 1 10, exRng 2 2 3, exRng 3 5 6].length
          [exRng 1 1 10, exRng 2 2 3, exRng 3 5 6].length 0 = some (D, flag) ∧
        (flag = true ↔
          (∃ (i j : Nat) (a b : APSInt × CaseStmt), i < j ∧
            [exRng 1 1 10, exRng 2 2 3, exRng 3 5 6][i]? = some a ∧
            [exRng 1 1 10, exRng 2 2 3, exRng 3 5 6][j]? = some b ∧
            a.1.toInt ≤ (HiValOf 32 true b.2).1.toInt ∧
            b.1.toInt ≤ (HiValOf 32 true a.2).1.toInt) ∨
          ∃ R ∈ [exRng 1 1 10, exRng 2 2 3, exRng 3 5 6], ∃ p ∈ [exVal 4 20],
            R.1.toInt ≤ p.1.toInt ∧ p.1.toInt ≤ (HiValOf 32 true R.2).1.toInt) :=
  rescanCaseRanges_neighbours_suffice 32 true [exVal 4 20]
    [exRng 1 1 10, exRng 2 2 3, exRng 3 5 6] (by decide) (by decide) (by decide) (by decide)
    (by decide)

/-- C5, counterexample: on the chain `case 1 ... 10: case 2 ... 3: case 5 ... 6:` the sorted
non-empty ranges are these three in this order, the third range `5 ... 6` is non-empty and
intersects the first range `1 ... 10` placed before it, and `ActOnFinishSwitchStmt` emits one
duplicate-case error only, at the second range: no duplicate-case error has its primary
location at the third range. -/
theorem overlap_with_earlier_range_not_reported :
    sortedRanges 32 true [exRange 1 1 10, exRange 2 2 3, exRange 3 5 6] =
        [exRng 1 1 10, exRng 2 2 3, exRng 3 5 6] ∧
      (exRng 3 5 6).1.toInt ≤ (HiValOf 32 true (exRng 3 5 6).2).1.toInt ∧
      ((exRng 1 1 10).1.toInt ≤ (HiValOf 32 true (exRng 3 5 6).2).1.toInt ∧
        (exRng 3 5 6).1.toInt ≤ (HiValOf 32 true (exRng 1 1 10).2).1.toInt) ∧
      (ActOnFinishSwitchStmt (exSema exInt [exRange 1 1 10, exRange 2 2 3, exRange 3 5 6])
          7 1 9).map (fun p => (p.1, p.2.Diags)) =
        some (.invalid,
          [⟨20, .err_duplicate_case, [.str 10]⟩, ⟨10, .err_duplicate_case_prev, []⟩]) ∧
      (ActOnFinishSwitchStmt (exSema exInt [exRange 1 1 10, exRange 2 2 3, exRange 3 5 6])
          7 1 9).map (fun p => p.2.Diags.any fun d =>
            decide (d.ID = .err_duplicate_case ∧
              d.Loc = (exRng 3 5 6).2.getLHS.getLocStart)) = some false := by
  refine ⟨by decide, by decide, by decide, by decide, by decide⟩

/-- C5, amended: for every non-empty case range `R` that intersects the non-empty range `P`
placed immediately before it in the sort order of the ranges (its low bound is at most the
high bound of `P`), `ActOnFinishSwitchStmt` returns the failure marker and emits a
duplicate-case error whose primary location is `R`, directly followed by the note at `P`. -/
theorem overlap_with_preceding_range_reported (S : Sema) (rest : List SwitchStmt)
    (SS : SwitchStmt) (SwitchLoc Body : Nat) (i : Nat) (P R : APSInt × CaseStmt)
    (hS : S.SwitchStack = rest ++ [SS]) (hInt : SS.getCond.getType.isIntegerType = true)
    (hP : (sortedRanges SS.getCond.getType.TypeSize SS.getCond.getType.isSignedIntegerType
      SS.getSwitchCaseList)[i]? = some P)
    (hR : (sortedRanges SS.getCond.getType.TypeSize SS.getCond.getType.isSignedIntegerType
      SS.getSwitchCaseList)[i + 1]? = some R)
    (hov : R.1.toInt ≤ (HiValOf SS.getCond.getType.TypeSize
      SS.getCond.getType.isSignedIntegerType P.2).1.toInt) :
    ∃ S2 D1 D2, ActOnFinishSwitchStmt S SwitchLoc SS.addr Body = some (.invalid, S2) ∧
      S2.Diags = S.Diags ++ D1 ++
        [⟨R.2.getLHS.getLocStart, .err_duplicate_case,
          [.str (HiValOf SS.getCond.getType.TypeSize SS.getCond.getType.isSignedIntegerType
            P.2).1.toString]⟩,
         ⟨P.2.getLHS.getLocStart, .err_duplicate_case_prev, []⟩] ++ D2 := by
  obtain ⟨r, hr, hiff, hc⟩ := checkSwitchCases_eq SS.getCond.getType.TypeSize
    SS.getCond.getType.isSignedIntegerType SS.getSwitchCaseList
  have hPm := sortedRanges_shape _ _ _ P (List.getElem?_mem hP)
  have hRm := sortedRanges_shape _ _ _ R (List.getElem?_mem hR)
  have hle : R.1.le (HiValOf SS.getCond.getType.TypeSize
      SS.getCond.getType.isSignedIntegerType P.2).1 = true := by
    rw [APSInt.le_eq_toInt hRm.1 (HiValOf_shape _ _ P.2 hPm.2), decide_eq_true_eq]
    exact hov
  obtain ⟨D1, D2, hD⟩ := rescanList_reports _ _ _ _ none r hr i P R (by simpa using hP)
    (by simpa using hR) hle
  have hflag : r.2 = true := by
    rw [hiff]
    right
    exact (adjacent_iff_not_pairwise_sep _ _ _ (sortedRanges_sorted _ _ _)).1
      ⟨i, P, R, hP, hR, hov⟩
  have hfin := ActOnFinishSwitchStmt_eq S rest SS SwitchLoc Body hS hInt _ _ hc
  rw [hflag] at hfin
  simp only [Bool.or_true, if_true] at hfin
  refine ⟨_,
    (walkSwitchCases SS.getCond.getType.TypeSize SS.getCond.getType.isSignedIntegerType
        SS.getSwitchCaseList none).Diags ++
      (adjacentDuplicates (sortedVals SS.getCond.getType.TypeSize
        SS.getCond.getType.isSignedIntegerType SS.getSwitchCaseList)).1 ++
      (stable_sort pair_lt (caseRangesOf SS.getCond.getType.TypeSize
        SS.getCond.getType.isSignedIntegerType SS.getSwitchCaseList)).flatMap
        (rangeDiags SS.getCond.getType.TypeSize SS.getCond.getType.isSignedIntegerType) ++ D1,
    D2, hfin, ?_⟩
  simp only [hD, List.append_assoc]

/-- Witness of C5 (amended): the chain `case 1 ... 10: case 2 ... 3: case 5 ... 6:`, where the
second range intersects the first. -/
theorem overlap_with_preceding_range_reported_witness :
    ∃ S2 D1 D2,
      ActOnFinishSwitchStmt (exSema exInt [exRange 1 1 10, exRange 2 2 3, exRange 3 5 6]) 7
        (exSwitch exInt [exRange 1 1 10, exRange 2 2 3, exRange 3 5 6]).addr 9 =
          some (.invalid, S2) ∧
      S2.Diags = (exSema exInt [exRange 1 1 10, exRange 2 2 3, exRange 3 5 6]).Diags ++ D1 ++
        [⟨(exRng 2 2 3).2.getLHS.getLocStart, .err_duplicate_case,
          [.str (HiValOf 32 true (exRng 1 1 10).2).1.toString]⟩,
         ⟨(exRng 1 1 10).2.getLHS.getLocStart, .err_duplicate_case_prev, []⟩] ++ D2 :=
  overlap_with_preceding_range_reported
    (exSema exInt [exRange 1 1 10, exRange 2 2 3, exRange 3 5 6]) []
    (exSwitch exInt [exRange 1 1 10, exRange 2 2 3, exRange 3 5 6]) 7 9 0 (exRng 1 1 10)
    (exRng 2 2 3) rfl rfl (by decide) (by decide) (by decide)

/-- C6: `ActOnFinishSwitchStmt` emits exactly one "case range is empty" warning for every case
range whose renormalised low bound exceeds its renormalised high bound, and such ranges take
part in nothing else: on the chain with all empty ranges deleted it returns the failure marker
in exactly the same cases, emits the same duplicate-case errors and notes in the same order,
and emits no empty-range warning. -/
theorem empty_ranges_are_ignored (S : Sema) (rest : List SwitchStmt) (SS : SwitchStmt)
    (SwitchLoc Body : Nat) (hS : S.SwitchStack = rest ++ [SS])
    (hInt : SS.getCond.getType.isIntegerType = true) :
    ∃ r S2 r2 S3 D D2,
      ActOnFinishSwitchStmt S SwitchLoc SS.addr Body = some (r, S2) ∧
      S2.Diags = S.Diags ++ D ∧
      ActOnFinishSwitchStmt
        { S with
          SwitchStack := rest ++
            [{ SS with
              getSwitchCaseList := SS.getSwitchCaseList.filter fun SC =>
                !isEmptyRangeCase SS.getCond.getType.TypeSize
                  SS.getCond.getType.isSignedIntegerType SC }] }
        SwitchLoc SS.addr Body = some (r2, S3) ∧
      S3.Diags = S.Diags ++ D2 ∧
      (r = .invalid ↔ r2 = .invalid) ∧
      D.filter isDuplicateCaseDiag = D2.filter isDuplicateCaseDiag ∧
      D.countP (fun d => decide (d.ID = .warn_case_empty_range)) =
        SS.getSwitchCaseList.countP (isEmptyRangeCase SS.getCond.getType.TypeSize
          SS.getCond.getType.isSignedIntegerType) ∧
      D2.countP (fun d => decide (d.ID = .warn_case_empty_range)) = 0 := by
  obtain ⟨D, D2, flag, hc, hc2, hdup, hcnt, hcnt2⟩ := checkSwitchCases_filter_empty
    SS.getCond.getType.TypeSize SS.getCond.getType.isSignedIntegerType SS.getSwitchCaseList
  have hfin := ActOnFinishSwitchStmt_eq S rest SS SwitchLoc Body hS hInt _ _ hc
  have hfin2 := ActOnFinishSwitchStmt_eq
    { S with
      SwitchStack := rest ++
        [{ SS with
          getSwitchCaseList := SS.getSwitchCaseList.filter fun SC =>
            !isEmptyRangeCase SS.getCond.getType.TypeSize
              SS.getCond.getType.isSignedIntegerType SC }] }
    rest
    { SS with
      getSwitchCaseList := SS.getSwitchCaseList.filter fun SC =>
        !isEmptyRangeCase SS.getCond.getType.TypeSize
          SS.getCond.getType.isSignedIntegerType SC }
    SwitchLoc Body rfl hInt _ _ hc2
  refine ⟨_, _, _, _, D, D2, hfin, rfl, hfin2, rfl, ?_, hdup, hcnt, hcnt2⟩
  cases flag <;> simp

/-- Witness of C6: a chain with an empty range between two overlapping ranges and a duplicated
scalar. -/
theorem empty_ranges_are_ignored_witness :
    ∃ r S2 r2 S3 D D2,
      ActOnFinishSwitchStmt
        (exSema exInt [exRange 2 1 5, exRange 3 9 8, exScalar 4 7, exRange 5 3 8, exScalar 6 7])
        7 (exSwitch exInt
          [exRange 2 1 5, exRange 3 9 8, exScalar 4 7, exRange 5 3 8, exScalar 6 7]).addr 9 =
        some (r, S2) ∧
      S2.Diags = (exSema exInt
        [exRange 2 1 5, exRange 3 9 8, exScalar 4 7, exRange 5 3 8, exScalar 6 7]).Diags ++ D ∧
      ActOnFinishSwitchStmt
        { exSema exInt
            [exRange 2 1 5, exRange 3 9 8, exScalar 4 7, exRange 5 3 8, exScalar 6 7] with
          SwitchStack := [] ++
            [{ exSwitch exInt
                [exRange 2 1 5, exRange 3 9 8, exScalar 4 7, exRange 5 3 8, exScalar 6 7] with
              getSwitchCaseList :=
                (exSwitch exInt [exRange 2 1 5, exRange 3 9 8, exScalar 4 7, exRange 5 3 8,
                  exScalar 6 7]).getSwitchCaseList.filter fun SC =>
                  !isEmptyRangeCase
                    (exSwitch exInt [exRange 2 1 5, exRange 3 9 8, exScalar 4 7, exRange 5 3 8,
                      exScalar 6 7]).getCond.getType.TypeSize
                    (exSwitch exInt [exRange 2 1 5, exRange 3 9 8, exScalar 4 7, exRange 5 3 8,
                      exScalar 6 7]).getCond.getType.isSignedIntegerType SC }] }
        7 (exSwitch exInt
          [exRange 2 1 5, exRange 3 9 8, exScalar 4 7, exRange 5 3 8, exScalar 6 7]).addr 9 =
        some (r2, S3) ∧
      S3.Diags = (exSema exInt
        [exRange 2 1 5, exRange 3 9 8, exScalar 4 7, exRange 5 3 8, exScalar 6 7]).Diags ++ D2 ∧
      (r = .invalid ↔ r2 = .invalid) ∧
      D.filter isDuplicateCaseDiag = D2.filter isDuplicateCaseDiag ∧
      D.countP (fun d => decide (d.ID = .warn_case_empty_range)) =
        (exSwitch exInt [exRange 2 1 5, exRange 3 9 8, exScalar 4 7, exRange 5 3 8,
          exScalar 6 7]).getSwitchCaseList.countP
          (isEmptyRangeCase
            (exSwitch exInt [exRange 2 1 5, exRange 3 9 8, exScalar 4 7, exRange 5 3 8,
              exScalar 6 7]).getCond.getType.TypeSize
            (exSwitch exInt [exRange 2 1 5, exRange 3 9 8, exScalar 4 7, exRange 5 3 8,
              exScalar 6 7]).getCond.getType.isSignedIntegerType) ∧
      D2.countP (fun d => decide (d.ID = .warn_case_empty_range)) = 0 :=
  empty_ranges_are_ignored
    (exSema exInt [exRange 2 1 5, exRange 3 9 8, exScalar 4 7, exRange 5 3 8, exScalar 6 7]) []
    (exSwitch exInt [exRange 2 1 5, exRange 3 9 8, exScalar 4 7, exRange 5 3 8, exScalar 6 7])
    7 9 rfl rfl

/-- C7: for a chain with `d` default labels, `ActOnFinishSwitchStmt` emits exactly `d - 1`
(zero when `d ≤ 1`) "multiple default labels" errors: one at every default after the first,
each directly paired with its note at the default before it in the chain; when `d ≥ 2` the
result is the failure marker. -/
theorem multiple_default_labels (S : Sema) (rest : List SwitchStmt) (SS : SwitchStmt)
    (SwitchLoc Body : Nat) (hS : S.SwitchStack = rest ++ [SS])
    (hInt : SS.getCond.getType.isIntegerType = true) :
    ∃ r S2 D, ActOnFinishSwitchStmt S SwitchLoc SS.addr Body = some (r, S2) ∧
      S2.Diags = S.Diags ++ D ∧
      D.filter isMultipleDefaultDiag = multipleDefaultDiags (defaultsOf SS.getSwitchCaseList) ∧
      D.countP (fun d => decide (d.ID = .err_multiple_default_labels_defined)) =
        defaultCount SS.getSwitchCaseList - 1 ∧
      D.countP (fun d => decide (d.ID = .err_first_label)) =
        defaultCount SS.getSwitchCaseList - 1 ∧
      (2 ≤ defaultCount SS.getSwitchCaseList → r = .invalid) := by
  obtain ⟨r, D, _, hc, _, hmul, _, _⟩ := checkSwitchCases_parts
    SS.getCond.getType.TypeSize SS.getCond.getType.isSignedIntegerType SS.getSwitchCaseList
  have hfin := ActOnFinishSwitchStmt_eq S rest SS SwitchLoc Body hS hInt _ _ hc
  have hcount := multipleDefaultDiags_count (defaultsOf SS.getSwitchCaseList)
  rw [defaultsOf_length] at hcount
  refine ⟨_, _, D, hfin, rfl, hmul, ?_, ?_, ?_⟩
  · rw [← hcount.1, ← hmul]
    exact (countP_filter_of_imp D (fun d hd => by
      simp only [decide_eq_true_eq] at hd
      simp [isMultipleDefaultDiag, hd])).symm
  · rw [← hcount.2, ← hmul]
    exact (countP_filter_of_imp D (fun d hd => by
      simp only [decide_eq_true_eq] at hd
      simp [isMultipleDefaultDiag, hd])).symm
  · intro h2
    rw [(walk_err_iff _ _ _).2 h2]
    rfl

/-- Witness of C7: a chain with three defaults among scalar and range cases. -/
theorem multiple_default_labels_witness :
    ∃ r S2 D,
      ActOnFinishSwitchStmt
        (exSema exInt [exDefault 2, exScalar 3 4, exDefault 4, exRange 5 6 8, exDefault 6]) 7
        (exSwitch exInt
          [exDefault 2, exScalar 3 4, exDefault 4, exRange 5 6 8, exDefault 6]).addr 9 =
        some (r, S2) ∧
      S2.Diags = (exSema exInt
        [exDefault 2, exScalar 3 4, exDefault 4, exRange 5 6 8, exDefault 6]).Diags ++ D ∧
      D.filter isMultipleDefaultDiag = multipleDefaultDiags (defaultsOf
        (exSwitch exInt [exDefault 2, exScalar 3 4, exDefault 4, exRange 5 6 8,
          exDefault 6]).getSwitchCaseList) ∧
      D.countP (fun d => decide (d.ID = .err_multiple_default_labels_defined)) =
        defaultCount (exSwitch exInt [exDefault 2, exScalar 3 4, exDefault 4, exRange 5 6 8,
          exDefault 6]).getSwitchCaseList - 1 ∧
      D.countP (fun d => decide (d.ID = .err_first_label)) =
        defaultCount (exSwitch exInt [exDefault 2, exScalar 3 4, exDefault 4, exRange 5 6 8,
          exDefault 6]).getSwitchCaseList - 1 ∧
      (2 ≤ defaultCount (exSwitch exInt [exDefault 2, exScalar 3 4, exDefault 4,
        exRange 5 6 8, exDefault 6]).getSwitchCaseList → r = .invalid) :=
  multiple_default_labels
    (exSema exInt [exDefault 2, exScalar 3 4, exDefault 4, exRange 5 6 8, exDefault 6]) []
    (exSwitch exInt [exDefault 2, exScalar 3 4, exDefault 4, exRange 5 6 8, exDefault 6])
    7 9 rfl rfl

/-- C8: when the type of the controlling expression is not an integer type,
`ActOnFinishSwitchStmt` returns the failure marker and emits exactly one diagnostic, the
"requires integer" error at the switch location: nothing else is appended to the
diagnostics, whatever the case chain contains. -/
theorem ActOnFinishSwitchStmt_requires_integer (S : Sema) (rest : List SwitchStmt)
    (SS : SwitchStmt) (SwitchLoc Body : Nat) (hS : S.SwitchStack = rest ++ [SS])
    (hNot : SS.getCond.getType.isIntegerType = false) :
    ActOnFinishSwitchStmt S SwitchLoc SS.addr Body =
      some (.invalid,
        { S with
          SwitchStack := rest
          Diags := S.Diags ++
            [⟨SwitchLoc, .err_typecheck_statement_requires_integer,
              [.typeName SS.getCond.getType,
               .range SS.getCond.getLocStart SS.getCond.getLocEnd]⟩] }) :=
  ActOnFinishSwitchStmt_not_integer S rest SS SwitchLoc Body hS hNot

/-- Witness of C8: a switch on a non-integer condition whose chain holds duplicate cases, an
empty range and two defaults. -/
theorem ActOnFinishSwitchStmt_requires_integer_witness :
    ActOnFinishSwitchStmt
        (exSema exFloat [exScalar 2 4, exScalar 3 4, exRange 4 9 8, exDefault 5, exDefault 6])
        7 1 9 =
      some (.invalid,
        { exSema exFloat
            [exScalar 2 4, exScalar 3 4, exRange 4 9 8, exDefault 5, exDefault 6] with
          SwitchStack := []
          Diags :=
            (exSema exFloat
              [exScalar 2 4, exScalar 3 4, exRange 4 9 8, exDefault 5, exDefault 6]).Diags ++
            [⟨7, .err_typecheck_statement_requires_integer,
              [.typeName
                (exSwitch exFloat [exScalar 2 4, exScalar 3 4, exRange 4 9 8, exDefault 5,
                  exDefault 6]).getCond.getType,
               .range
                (exSwitch exFloat [exScalar 2 4, exScalar 3 4, exRange 4 9 8, exDefault 5,
                  exDefault 6]).getCond.getLocStart
                (exSwitch exFloat [exScalar 2 4, exScalar 3 4, exRange 4 9 8, exDefault 5,
                  exDefault 6]).getCond.getLocEnd]⟩] }) :=
  ActOnFinishSwitchStmt_requires_integer
    (exSema exFloat [exScalar 2 4, exScalar 3 4, exRange 4 9 8, exDefault 5, exDefault 6]) []
    (exSwitch exFloat [exScalar 2 4, exScalar 3 4, exRange 4 9 8, exDefault 5, exDefault 6])
    7 9 rfl rfl

/-- C9: `ActOnStartOfSwitchStmt` pushes exactly one entry, the new switch, on the
switch-context stack and leaves the entries below unchanged; `ActOnFinishSwitchStmt` called on
that switch at the top of the stack, whatever its controlling type and case chain have become
(`SS` is the entry in its current state), returns and pops exactly that entry, so that the
stack is again the stack before the start. -/
theorem SwitchStack_balanced (UsualUnaryConversions : Expr → Expr) (S S1 : Sema) (newSS : Nat)
    (cond : Expr) (SS : SwitchStmt) (SwitchLoc Body : Nat)
    (h1 : S1.SwitchStack =
      (ActOnStartOfSwitchStmt UsualUnaryConversions S newSS cond).2.SwitchStack.dropLast ++ [SS])
    (h2 : SS.addr = newSS) :
    (ActOnStartOfSwitchStmt UsualUnaryConversions S newSS cond).2.SwitchStack =
        S.SwitchStack ++ [⟨newSS, UsualUnaryConversions cond, [], none, none⟩] ∧
      (ActOnStartOfSwitchStmt UsualUnaryConversions S newSS cond).1 =
        .stmt (.Switch ⟨newSS, UsualUnaryConversions cond, [], none, none⟩) ∧
      ∃ r S2, ActOnFinishSwitchStmt S1 SwitchLoc newSS Body = some (r, S2) ∧
        S2.SwitchStack = S.SwitchStack := by
  refine ⟨rfl, rfl, ?_⟩
  have h3 : S1.SwitchStack = S.SwitchStack ++ [SS] := by
    rw [h1]
    simp [ActOnStartOfSwitchStmt]
  subst h2
  by_cases hInt : SS.getCond.getType.isIntegerType = true
  · obtain ⟨D, flag, hc, _⟩ := checkSwitchCases_flag SS.getCond.getType.TypeSize
      SS.getCond.getType.isSignedIntegerType SS.getSwitchCaseList
    exact ⟨_, _, ActOnFinishSwitchStmt_eq S1 S.SwitchStack SS SwitchLoc Body h3 hInt D flag hc,
      rfl⟩
  · have hNot : SS.getCond.getType.isIntegerType = false := by simpa using hInt
    exact ⟨_, _, ActOnFinishSwitchStmt_not_integer S1 S.SwitchStack SS SwitchLoc Body h3 hNot,
      rfl⟩

/-- Witness of C9: a switch opened inside another open switch, finished after two cases were
attached to it. -/
theorem SwitchStack_balanced_witness :
    (ActOnStartOfSwitchStmt id (exSema exInt [exScalar 2 4]) 8 (exExpr 0 3)).2.SwitchStack =
        (exSema exInt [exScalar 2 4]).SwitchStack ++ [⟨8, id (exExpr 0 3), [], none, none⟩] ∧
      (ActOnStartOfSwitchStmt id (exSema exInt [exScalar 2 4]) 8 (exExpr 0 3)).1 =
        .stmt (.Switch ⟨8, id (exExpr 0 3), [], none, none⟩) ∧
      ∃ r S2,
        ActOnFinishSwitchStmt
          { exEmpty with
            SwitchStack := [exSwitch exInt [exScalar 2 4],
              ⟨8, exExpr 0 3, [exScalar 9 1, exScalar 10 1], none, none⟩] } 7 8 9 =
          some (r, S2) ∧
        S2.SwitchStack = (exSema exInt [exScalar 2 4]).SwitchStack :=
  SwitchStack_balanced id (exSema exInt [exScalar 2 4])
    { exEmpty with
      SwitchStack := [exSwitch exInt [exScalar 2 4],
        ⟨8, exExpr 0 3, [exScalar 9 1, exScalar 10 1], none, none⟩] } 8 (exExpr 0 3)
    ⟨8, exExpr 0 3, [exScalar 9 1, exScalar 10 1], none, none⟩ 7 9 rfl rfl

/-- C10: while the switch-context stack is non-empty, a case label whose low bound is an
integer constant expression, and every default label, is appended to the case chain of the
switch at the top of the stack and returned as the new node; the entries below the top, the
height of the stack and the switches on it (their addresses) are unchanged. -/
theorem case_attaches_to_innermost_switch (S : Sema) (rest : List SwitchStmt) (SS : SwitchStmt)
    (newCS CaseLoc DotDotDotLoc ColonLoc subStmt : Nat) (lhsval : Expr) (rhsval : Option Expr)
    (newDS DefaultLoc : Nat) (hS : S.SwitchStack = rest ++ [SS])
    (hICE : lhsval.ICE.isSome = true) :
    (∃ CS : CaseStmt,
        CS.addr = newCS ∧ CS.getLHS = lhsval ∧ CS.getCaseLoc = CaseLoc ∧
        (ActOnCaseStmt S newCS CaseLoc lhsval DotDotDotLoc rhsval ColonLoc subStmt).1 =
          .stmt (.Case CS) ∧
        (ActOnCaseStmt S newCS CaseLoc lhsval DotDotDotLoc rhsval ColonLoc subStmt).2.SwitchStack =
          rest ++ [{ SS with getSwitchCaseList := SS.getSwitchCaseList ++ [.Case CS] }]) ∧
      (ActOnDefaultStmt S newDS DefaultLoc ColonLoc subStmt).1 =
        .stmt (.Default ⟨newDS, DefaultLoc, subStmt⟩) ∧
      (ActOnDefaultStmt S newDS DefaultLoc ColonLoc subStmt).2.SwitchStack =
        rest ++ [{ SS with
          getSwitchCaseList := SS.getSwitchCaseList ++ [.Default ⟨newDS, DefaultLoc, subStmt⟩] }] ∧
      ((ActOnCaseStmt S newCS CaseLoc lhsval DotDotDotLoc rhsval ColonLoc
          subStmt).2.SwitchStack.map SwitchStmt.addr = S.SwitchStack.map SwitchStmt.addr) ∧
      ((ActOnDefaultStmt S newDS DefaultLoc ColonLoc subStmt).2.SwitchStack.map SwitchStmt.addr =
        S.SwitchStack.map SwitchStmt.addr) := by
  obtain ⟨V, hV⟩ := Option.isSome_iff_exists.1 hICE
  have hcase : ∃ CS : CaseStmt,
      CS.addr = newCS ∧ CS.getLHS = lhsval ∧ CS.getCaseLoc = CaseLoc ∧
      (ActOnCaseStmt S newCS CaseLoc lhsval DotDotDotLoc rhsval ColonLoc subStmt).1 =
        .stmt (.Case CS) ∧
      (ActOnCaseStmt S newCS CaseLoc lhsval DotDotDotLoc rhsval ColonLoc subStmt).2.SwitchStack =
        rest ++ [{ SS with getSwitchCaseList := SS.getSwitchCaseList ++ [.Case CS] }] := by
    unfold ActOnCaseStmt
    simp only [hV]
    cases rhsval with
    | none =>
      simp only [hS, List.getLast?_concat, List.dropLast_concat, SwitchStmt.addSwitchCase]
      exact ⟨_, rfl, rfl, rfl, rfl, rfl⟩
    | some R =>
      cases hR : R.ICE with
      | none =>
        simp only [hR, Sema.Diag, hS, List.getLast?_concat, List.dropLast_concat,
          SwitchStmt.addSwitchCase]
        exact ⟨_, rfl, rfl, rfl, rfl, rfl⟩
      | some RV =>
        simp only [hR, hS, List.getLast?_concat, List.dropLast_concat,
          SwitchStmt.addSwitchCase]
        exact ⟨_, rfl, rfl, rfl, rfl, rfl⟩
  have hdef : (ActOnDefaultStmt S newDS DefaultLoc ColonLoc subStmt).1 =
        .stmt (.Default ⟨newDS, DefaultLoc, subStmt⟩) ∧
      (ActOnDefaultStmt S newDS DefaultLoc ColonLoc subStmt).2.SwitchStack =
        rest ++ [{ SS with
          getSwitchCaseList :=
            SS.getSwitchCaseList ++ [.Default ⟨newDS, DefaultLoc, subStmt⟩] }] := by
    unfold ActOnDefaultStmt
    simp only [hS, List.getLast?_concat, List.dropLast_concat, SwitchStmt.addSwitchCase]
    refine ⟨?_, ?_⟩ <;> first | rfl | trivial
  obtain ⟨CS, c1, c2, c3, c4, c5⟩ := hcase
  refine ⟨⟨CS, c1, c2, c3, c4, c5⟩, hdef.1, hdef.2, ?_, ?_⟩
  · rw [c5, hS]
    simp
  · rw [hdef.2, hS]
    simp

/-- Witness of C10: a case range and a default attached inside two nested switches. -/
theorem case_attaches_to_innermost_switch_witness :
    (∃ CS : CaseStmt,
        CS.addr = 11 ∧ CS.getLHS = exExpr 3 110 ∧ CS.getCaseLoc = 110 ∧
        (ActOnCaseStmt exNested
          11 110 (exExpr 3 110) 111 (some (exExpr 5 112)) 113 0).1 = .stmt (.Case CS) ∧
        (ActOnCaseStmt exNested
          11 110 (exExpr 3 110) 111 (some (exExpr 5 112)) 113 0).2.SwitchStack =
          [exSwitch exInt [exScalar 2 4]] ++
            [{ exSwitch exInt [exDefault 3] with
              getSwitchCaseList :=
                (exSwitch exInt [exDefault 3]).getSwitchCaseList ++ [.Case CS] }]) ∧
      (ActOnDefaultStmt exNested
        12 120 113 0).1 = .stmt (.Default ⟨12, 120, 0⟩) ∧
      (ActOnDefaultStmt exNested
        12 120 113 0).2.SwitchStack =
        [exSwitch exInt [exScalar 2 4]] ++
          [{ exSwitch exInt [exDefault 3] with
            getSwitchCaseList :=
              (exSwitch exInt [exDefault 3]).getSwitchCaseList ++ [.Default ⟨12, 120, 0⟩] }] ∧
      ((ActOnCaseStmt exNested
          11 110 (exExpr 3 110) 111 (some (exExpr 5 112)) 113 0).2.SwitchStack.map
            SwitchStmt.addr =
        exNested.SwitchStack.map SwitchStmt.addr) ∧
      ((ActOnDefaultStmt exNested
          12 120 113 0).2.SwitchStack.map SwitchStmt.addr =
        exNested.SwitchStack.map SwitchStmt.addr) :=
  case_attaches_to_innermost_switch
    exNested
    [exSwitch exInt [exScalar 2 4]] (exSwitch exInt [exDefault 3]) 11 110 111 113 0
    (exExpr 3 110) (some (exExpr 5 112)) 12 120 rfl rfl

/-! # The properties of case labels outside a switch and of the integer conversion -/

/-- C11 (as stated, refuted): on a case label met while no switch is open, `ActOnCaseStmt` does
report the case-not-in-switch error, but what it returns is the sub-statement itself, a valid
statement result, and not the invalid marker. -/
theorem case_outside_switch_not_invalid :
    (ActOnCaseStmt exEmpty 11 110 (exExpr 3 110) 111 none 113 42).1 = .stmt (.ptr 42) ∧
      (ActOnCaseStmt exEmpty 11 110 (exExpr 3 110) 111 none 113 42).1 ≠ .invalid ∧
      (ActOnCaseStmt exEmpty 11 110 (exExpr 3 110) 111 none 113 42).2.Diags =
        [⟨110, .err_case_not_in_switch, []⟩] := by
  decide

/-- C11 (amended): when no switch is open and the bounds of the case label are integer constant
expressions, `ActOnCaseStmt` reports exactly the case-not-in-switch error at the location of
`case`, returns the sub-statement itself as a valid result (no case node is built), and changes
nothing else. -/
theorem case_outside_switch_returns_substatement (S : Sema) (newCS : Nat)
    (CaseLoc DotDotDotLoc ColonLoc : SourceLocation) (lhsval : Expr) (rhsval : Option Expr)
    (subStmt : Nat) (hS : S.SwitchStack = []) (hL : lhsval.ICE.isSome = true)
    (hR : ∀ R, rhsval = some R → R.ICE.isSome = true) :
    ActOnCaseStmt S newCS CaseLoc lhsval DotDotDotLoc rhsval ColonLoc subStmt =
      (.stmt (.ptr subStmt),
        { S with Diags := S.Diags ++ [⟨CaseLoc, .err_case_not_in_switch, []⟩] }) := by
  unfold ActOnCaseStmt
  obtain ⟨LV, hLV⟩ := Option.isSome_iff_exists.mp hL
  cases rhsval with
  | none => simp [hLV, hS, Sema.Diag]
  | some R =>
    obtain ⟨RV, hRV⟩ := Option.isSome_iff_exists.mp (hR R rfl)
    simp [hLV, hRV, hS, Sema.Diag]

/-- Witness of C11 (amended): `case 3:` with no open switch. -/
theorem case_outside_switch_returns_substatement_witness :
    ActOnCaseStmt exEmpty 11 110 (exExpr 3 110) 111 none 113 42 =
      (.stmt (.ptr 42),
        { exEmpty with Diags := exEmpty.Diags ++ [⟨110, .err_case_not_in_switch, []⟩] }) :=
  case_outside_switch_returns_substatement exEmpty 11 110 111 113 (exExpr 3 110) none 42 rfl rfl
    (fun R h => by cases h)

/-- C12: converting twice to the same width and signedness is the same as converting once:
the second conversion returns its input and emits no diagnostic. -/
theorem Convert_idempotent (L : APSInt) (w : Nat) (s : Bool) (Loc Loc2 : SourceLocation)
    (DiagID DiagID2 : diag) :
    ConvertIntegerToTypeWarnOnOverflow
        (ConvertIntegerToTypeWarnOnOverflow L w s Loc DiagID).1 w s Loc2 DiagID2 =
      ((ConvertIntegerToTypeWarnOnOverflow L w s Loc DiagID).1, []) := by
  obtain ⟨h1, h2⟩ := Convert_isSigned L w s Loc DiagID
  have e := Convert_same_shape (ConvertIntegerToTypeWarnOnOverflow L w s Loc DiagID).1 Loc2
    DiagID2
  rw [h1, h2] at e
  exact e

/-- C13: converting a value to width `w` and signedness `s` and then back to its own width and
signedness gives the value back whenever `w` is at least its width; when `w` is smaller, it gives
the value back exactly when the narrowing conversion emitted no diagnostic. -/
theorem Convert_round_trip (L : APSInt) (w : Nat) (s : Bool) (Loc Loc2 : SourceLocation)
    (DiagID DiagID2 : diag) :
    (ConvertIntegerToTypeWarnOnOverflow
        (ConvertIntegerToTypeWarnOnOverflow L w s Loc DiagID).1
        L.getBitWidth L.isSigned Loc2 DiagID2).1 = L ↔
      (L.getBitWidth ≤ w ∨ (ConvertIntegerToTypeWarnOnOverflow L w s Loc DiagID).2 = []) := by
  obtain ⟨h1, h2⟩ := Convert_isSigned L w s Loc DiagID
  unfold APSInt.getBitWidth at h1
  rcases Nat.lt_trichotomy L.BitWidth w with h | h | h
  · have hrt : (ConvertIntegerToTypeWarnOnOverflow
        (ConvertIntegerToTypeWarnOnOverflow L w s Loc DiagID).1
        L.getBitWidth L.isSigned Loc2 DiagID2).1 = L := by
      rw [Convert_narrow _ _ _ _ _ (by rw [h1]; exact h)]
      apply APSInt.eq_of_fields
      · rfl
      · show (ConvertIntegerToTypeWarnOnOverflow L w s Loc DiagID).1.VAL.val %
          2 ^ L.BitWidth = L.VAL.val
        rw [Convert_widen _ _ _ _ _ h]
        exact APSInt.trunc_extend L w (le_of_lt h)
      · simp [APSInt.setIsSigned, APSInt.isSigned]
    exact ⟨fun _ => Or.inl (le_of_lt h), fun _ => hrt⟩
  · have hrt : (ConvertIntegerToTypeWarnOnOverflow
        (ConvertIntegerToTypeWarnOnOverflow L w s Loc DiagID).1
        L.getBitWidth L.isSigned Loc2 DiagID2).1 = L := by
      subst h
      have e1 := Convert_same_width L s Loc DiagID
      unfold APSInt.getBitWidth at e1
      by_cases hs : (s != L.isSigned) = true
      · rw [e1, if_pos hs]
        show (ConvertIntegerToTypeWarnOnOverflow (L.setIsSigned s)
          (L.setIsSigned s).getBitWidth L.isSigned Loc2 DiagID2).1 = L
        have hs2 : (L.isSigned != (L.setIsSigned s).isSigned) = true := by
          have : (L.setIsSigned s).isSigned = s := by simp [APSInt.setIsSigned, APSInt.isSigned]
          rw [this]
          cases s <;> cases hL : L.isSigned <;> simp_all
        rw [Convert_same_width, if_pos hs2]
        apply APSInt.eq_of_fields
        · rfl
        · rfl
        · simp [APSInt.setIsSigned, APSInt.isSigned]
      · rw [e1, if_neg hs]
        show (ConvertIntegerToTypeWarnOnOverflow L L.getBitWidth L.isSigned Loc2 DiagID2).1 = L
        rw [Convert_same_shape]
    exact ⟨fun _ => Or.inl (le_of_eq h), fun _ => hrt⟩
  · have hrt : (ConvertIntegerToTypeWarnOnOverflow
        (ConvertIntegerToTypeWarnOnOverflow L w s Loc DiagID).1
        L.getBitWidth L.isSigned Loc2 DiagID2).1 =
        ((((L.trunc w).setIsSigned s).extend L.getBitWidth).setIsSigned L.isSigned) := by
      rw [Convert_widen _ _ _ _ _ (by rw [h1]; exact h), Convert_narrow _ _ _ _ _ h]
    have hne : ((((L.trunc w).setIsSigned s).extend L.getBitWidth).setIsSigned L.isSigned) = L ↔
        ((((L.trunc w).setIsSigned s).extend L.getBitWidth).setIsSigned L.isSigned).ne L =
          false := by
      constructor
      · intro e
        rw [e]
        simp [APSInt.ne, APSInt.eq]
      · intro e
        apply APSInt.eq_of_fields
        · exact APSInt.extend_BitWidth _ _
        · simpa [APSInt.ne, APSInt.eq] using e
        · simp [APSInt.setIsSigned, APSInt.isSigned]
    rw [hrt, hne, Convert_narrow _ _ _ _ _ h]
    have hnle : ¬ L.getBitWidth ≤ w := by
      unfold APSInt.getBitWidth
      omega
    cases hc : ((((L.trunc w).setIsSigned s).extend L.getBitWidth).setIsSigned L.isSigned).ne L
    · simp
    · simp [hnle]

/-- C14 (the code at the failing input): narrowing the unsigned 64-bit value
18446744073709551615 to a signed 32-bit type yields -1, a different mathematical integer, and
yet no diagnostic is emitted. -/
theorem Convert_unsigned_to_narrow_signed_silent :
    ConvertIntegerToTypeWarnOnOverflow (APSInt.get 64 18446744073709551615 true) 32 true 7
        .warn_case_value_overflow = (APSInt.get 32 4294967295 false, []) ∧
      (APSInt.get 64 18446744073709551615 true).toInt = 18446744073709551615 ∧
      (APSInt.get 32 4294967295 false).toInt = -1 := by
  decide

/-- C15: the result of the conversion has the requested width and signedness, and its bits are
the mathematical value of the input reduced modulo `2 ^ w`. -/
theorem Convert_result_bits (L : APSInt) (w : Nat) (s : Bool) (Loc : SourceLocation)
    (DiagID : diag) :
    (ConvertIntegerToTypeWarnOnOverflow L w s Loc DiagID).1.getBitWidth = w ∧
      (ConvertIntegerToTypeWarnOnOverflow L w s Loc DiagID).1.isSigned = s ∧
      ((ConvertIntegerToTypeWarnOnOverflow L w s Loc DiagID).1.VAL.val : Int) =
        L.toInt % 2 ^ w := by
  refine ⟨(Convert_isSigned L w s Loc DiagID).1, (Convert_isSigned L w s Loc DiagID).2, ?_⟩
  rw [Convert_bits]
  push_cast
  rfl

/-- C16: at equal width, converting to the value's own signedness changes nothing and emits
nothing; converting to the other signedness (in either direction) keeps the bits, and emits the
diagnostic exactly when the sign bit is set, which is exactly when the mathematical value
changes. -/
theorem Convert_equal_width (L : APSInt) (Loc : SourceLocation) (DiagID : diag) :
    ConvertIntegerToTypeWarnOnOverflow L L.getBitWidth L.isSigned Loc DiagID = (L, []) ∧
      ConvertIntegerToTypeWarnOnOverflow L L.getBitWidth (!L.isSigned) Loc DiagID =
        (L.setIsSigned (!L.isSigned),
          if L.isNegative = true then
            [⟨Loc, DiagID, [.str L.toString, .str (L.setIsSigned (!L.isSigned)).toString]⟩]
          else []) ∧
      (L.setIsSigned (!L.isSigned)).VAL.val = L.VAL.val ∧
      (L.setIsSigned (!L.isSigned)).getBitWidth = L.getBitWidth ∧
      (L.isNegative = true ↔ (L.setIsSigned (!L.isSigned)).toInt ≠ L.toInt) := by
  refine ⟨Convert_same_shape L Loc DiagID, ?_, rfl, rfl, ?_⟩
  · rw [Convert_same_width]
    have hs : ((!L.isSigned) != L.isSigned) = true := by cases L.isSigned <;> rfl
    rw [if_pos hs]
    rfl
  · exact APSInt.flip_sign_toInt L

/-! # The properties of labels, gotos and return statements -/

/-- C17: forward references keep identity. When, from function entry, `goto X` occurs (once or
more) and `X` is not yet defined, all these gotos reference one and the same label record, the
one stored under `X`; the later `ActOnLabelStmt` for `X` returns that same record (same
address), now carrying the sub-statement and the location of the definition. -/
theorem forward_references_keep_identity (S0 : Sema) (ops : List LabelOp) (X : IdentifierInfo)
    (newLS : Nat) (IdentLoc ColonLoc : SourceLocation) (subStmt : Nat)
    (hno : ∀ op ∈ ops, op.isLabel = true → op.ident ≠ X)
    (hgoto : ∃ op ∈ ops, op.ident = X) :
    ∃ Rs S L, runLabelOps S0.atFunctionEntry ops = some (Rs, S) ∧
      S.LabelMap X = some L ∧
      List.Forall₂ (fun op R => op.isLabel = false → op.ident = X →
        ∃ G : GotoStmt, R = .stmt (.Goto G) ∧ G.getLabel = L.addr) ops Rs ∧
      ∃ S2, ActOnLabelStmt S newLS IdentLoc X ColonLoc subStmt =
          some (.stmt (.Label ⟨L.addr, IdentLoc, X, some subStmt⟩), S2) ∧
        S2.LabelMap X = some ⟨L.addr, IdentLoc, X, some subStmt⟩ := by
  obtain ⟨Rs, S, L, hrun, hInv, hX, hid, hs, hall⟩ :=
    runLabelOps_forward ops S0.atFunctionEntry X (LabelMapConsistent_atFunctionEntry S0) rfl
      hno hgoto
  exact ⟨Rs, S, L, hrun, hX, hall, _,
    ActOnLabelStmt_forward S newLS IdentLoc ColonLoc X subStmt L hX hid hs,
    Function.update_same _ _ _⟩

/-- Witness of C17: two gotos to label 7 around the definition of label 9, then the definition
of label 7. -/
theorem forward_references_keep_identity_witness :
    ∃ Rs S L, runLabelOps exEmpty.atFunctionEntry exGotos = some (Rs, S) ∧
      S.LabelMap 7 = some L ∧
      List.Forall₂ (fun op R => op.isLabel = false → op.ident = 7 →
        ∃ G : GotoStmt, R = .stmt (.Goto G) ∧ G.getLabel = L.addr) exGotos Rs ∧
      ∃ S2, ActOnLabelStmt S 103 20 7 21 300 =
          some (.stmt (.Label ⟨L.addr, 20, 7, some 300⟩), S2) ∧
        S2.LabelMap 7 = some ⟨L.addr, 20, 7, some 300⟩ :=
  forward_references_keep_identity exEmpty exGotos 7 103 20 21 300 (by decide)
    ⟨.Goto 100 200 5 6 7, by decide, rfl⟩

/-- C18: redefinition of a label. After the first definition of `X` at `loc1` (whether it created
the record or filled in a forward reference), and whatever label actions follow, a further
definition of `X` at `loc2` reports exactly one redefinition error at `loc2` and one
previous-definition note at `loc1`, returns its own sub-statement, and leaves the label map (the
stored record included) as it was. -/
theorem label_redefinition_reported (S0 : Sema) (pre post : List LabelOp) (X : IdentifierInfo)
    (new1 : Nat) (loc1 colon1 : SourceLocation) (sub1 : Nat)
    (new2 : Nat) (loc2 colon2 : SourceLocation) (sub2 : Nat)
    (hfirst : ∀ op ∈ pre, op.isLabel = true → op.ident ≠ X) :
    ∃ Rs S L,
      runLabelOps S0.atFunctionEntry (pre ++ LabelOp.Label new1 loc1 X colon1 sub1 :: post) =
        some (Rs, S) ∧
      S.LabelMap X = some L ∧ L.getIdentLoc = loc1 ∧ L.getSubStmt = some sub1 ∧
      ActOnLabelStmt S new2 loc2 X colon2 sub2 =
        some (.stmt (.ptr sub2),
          { S with
            Diags := S.Diags ++ [⟨loc2, .err_redefinition_of_label, [.ident X]⟩,
              ⟨loc1, .err_previous_definition, []⟩] }) := by
  obtain ⟨Rs1, S1, hrun1, hInv1, hX1⟩ :=
    before_first_definition pre S0.atFunctionEntry X (LabelMapConsistent_atFunctionEntry S0) rfl
      hfirst
  obtain ⟨R, S1d, L, hdef, hInvd, hXd, hloc, hsub⟩ :=
    first_definition S1 X new1 loc1 colon1 sub1 hInv1 hX1
  have hsome : L.getSubStmt.isSome = true := by rw [hsub]; rfl
  obtain ⟨Rs2, S, hrun2, hInv2, hX2, _⟩ :=
    runLabelOps_fixed post S1d X L hInvd hXd (Or.inl hsome)
  refine ⟨Rs1 ++ R :: Rs2, S, L, ?_, hX2, hloc, hsub, ?_⟩
  · rw [runLabelOps_append _ pre _ Rs1 S1 hrun1,
      runLabelOps_cons S1 (.Label new1 loc1 X colon1 sub1) post R S1d Rs2 S hdef hrun2]
    rfl
  · rw [ActOnLabelStmt_defined S new2 loc2 colon2 X sub2 L hX2 (hInv2 X L hX2) hsome, hloc]

/-- Witness of C18: label 7 is referenced, defined at location 20, referenced again, and then
defined a second time at location 30. -/
theorem label_redefinition_reported_witness :
    ∃ Rs S L,
      runLabelOps exEmpty.atFunctionEntry
          ([LabelOp.Goto 100 200 5 6 7] ++ LabelOp.Label 103 20 7 21 300 ::
            [LabelOp.Goto 102 201 12 13 7]) = some (Rs, S) ∧
      S.LabelMap 7 = some L ∧ L.getIdentLoc = 20 ∧ L.getSubStmt = some 300 ∧
      ActOnLabelStmt S 104 30 7 31 301 =
        some (.stmt (.ptr 301),
          { S with
            Diags := S.Diags ++ [⟨30, .err_redefinition_of_label, [.ident 7]⟩,
              ⟨20, .err_previous_definition, []⟩] }) :=
  label_redefinition_reported exEmpty [LabelOp.Goto 100 200 5 6 7]
    [LabelOp.Goto 102 201 12 13 7] 7 103 20 21 300 104 30 31 301 (by decide)

/-- C19: the label map invariant. From the empty map of function entry, any sequence of gotos
and label definitions runs without the consistency assertion failing; after any part of it the
map holds a record for exactly the identifiers referenced or defined so far, the record stored
under `X` has ID `X`, every record present stays present with the same address through the rest
of the sequence, and a goto on an identifier already present leaves the state as it is. -/
theorem LabelMap_invariant (S0 : Sema) (ops1 ops2 : List LabelOp) :
    ∃ Rs1 S1 Rs2 S2,
      runLabelOps S0.atFunctionEntry ops1 = some (Rs1, S1) ∧
      runLabelOps S0.atFunctionEntry (ops1 ++ ops2) = some (Rs1 ++ Rs2, S2) ∧
      (∀ X, (S1.LabelMap X).isSome = true ↔ X ∈ ops1.map LabelOp.ident) ∧
      (∀ X L, S1.LabelMap X = some L → L.getID = X) ∧
      (∀ X L, S1.LabelMap X = some L → ∃ L2, S2.LabelMap X = some L2 ∧ L2.addr = L.addr) ∧
      (∀ (newLS newGS : Nat) (GotoLoc LabelLoc : SourceLocation) (X : IdentifierInfo),
        X ∈ ops1.map LabelOp.ident →
          (ActOnGotoStmt S1 newLS newGS GotoLoc LabelLoc X).2 = S1) := by
  obtain ⟨Rs1, S1, hrun1, hInv1, hiff1, _⟩ :=
    runLabelOps_ok ops1 S0.atFunctionEntry (LabelMapConsistent_atFunctionEntry S0)
  obtain ⟨Rs2, S2, hrun2, hInv2, _, haddr⟩ := runLabelOps_ok ops2 S1 hInv1
  have hpres : ∀ X, (S1.LabelMap X).isSome = true ↔ X ∈ ops1.map LabelOp.ident := by
    intro X
    rw [hiff1 X]
    simp [Sema.atFunctionEntry]
  refine ⟨Rs1, S1, Rs2, S2, hrun1, ?_, hpres, hInv1, haddr, ?_⟩
  · rw [runLabelOps_append _ ops1 ops2 Rs1 S1 hrun1, hrun2]
    rfl
  · intro newLS newGS GotoLoc LabelLoc X hX
    obtain ⟨L, hL⟩ := Option.isSome_iff_exists.mp ((hpres X).mpr hX)
    rw [ActOnGotoStmt_present S1 newLS newGS GotoLoc LabelLoc X L hL]

/-- C20: presence of the return expression. In a void function a return with an expression emits
exactly one diagnostic, the extension `ext_return_has_expr`, and the node carries the expression;
in a non-void function a return without an expression emits exactly one diagnostic,
`ext_return_missing_expr` in C99 mode and `warn_return_missing_expr` otherwise, and the node
carries no expression; in a void function a return without an expression emits nothing. -/
theorem ActOnReturnStmt_expression_presence
    (CheckSingleAssignmentConstraints : QualType → Expr → AssignmentCheckResult × Expr)
    (CheckReturnStackAddr : Expr → QualType → SourceLocation → List Diagnostic)
    (S : Sema) (newRS : Nat) (ReturnLoc : SourceLocation) (rex : Option Expr)
    (lhsType : QualType) (funcName : IdentifierInfo)
    (hCur : S.Cur = some (lhsType, funcName))
    (h : lhsType.isVoidType = true ∨ rex = none) :
    ActOnReturnStmt CheckSingleAssignmentConstraints CheckReturnStackAddr S newRS ReturnLoc rex =
      some (.stmt (.Return ⟨newRS, ReturnLoc, rex⟩),
        { S with
          Diags := S.Diags ++
            match rex with
            | some E =>
              [⟨ReturnLoc, .ext_return_has_expr,
                [.ident funcName, .range E.getLocStart E.getLocEnd]⟩]
            | none =>
              if lhsType.isVoidType = true then []
              else if S.getLangOptions.C99 = true then
                [⟨ReturnLoc, .ext_return_missing_expr, [.ident funcName]⟩]
              else [⟨ReturnLoc, .warn_return_missing_expr, [.ident funcName]⟩] }) := by
  unfold Sema.Cur at hCur
  unfold ActOnReturnStmt
  simp only [hCur]
  by_cases hv : lhsType.isVoidType = true
  · cases rex with
    | none => simp [hv]
    | some E => simp [hv, Sema.Diag]
  · have hn : rex = none := h.resolve_left hv
    subst hn
    by_cases hc : S.getLangOptions.C99 = true <;> simp [hv, hc, Sema.Diag]

/-- Witness of C20: `return;` in a C99 function returning `int`. -/
theorem ActOnReturnStmt_expression_presence_witness :
    ActOnReturnStmt (fun _ E => (.Compatible, E)) (fun _ _ _ => []) (exInFunction exInt) 400 40
        none =
      some (.stmt (.Return ⟨400, 40, none⟩),
        { exInFunction exInt with
          Diags := (exInFunction exInt).Diags ++
            match (none : Option Expr) with
            | some E =>
              [⟨40, .ext_return_has_expr, [.ident 77, .range E.getLocStart E.getLocEnd]⟩]
            | none =>
              if exInt.isVoidType = true then []
              else if (exInFunction exInt).getLangOptions.C99 = true then
                [⟨40, .ext_return_missing_expr, [.ident 77]⟩]
              else [⟨40, .warn_return_missing_expr, [.ident 77]⟩] }) :=
  ActOnReturnStmt_expression_presence (fun _ E => (.Compatible, E)) (fun _ _ _ => [])
    (exInFunction exInt) 400 40 none exInt 77 rfl (Or.inr rfl)

/-- C21 (as stated, refuted): in a function returning `int`, with a check for the address of
local storage that reports the expression, a return of an expression classified `Compatible`
does emit a diagnostic, and a return of an expression classified `Incompatible` emits two. -/
theorem compatible_return_still_diagnosed :
    (ActOnReturnStmt (exClassify .Compatible) exStackAddr (exInFunction exInt) 400 40
        (some (exExpr 3 110))).map (fun r => r.2.Diags) =
      some [⟨40, .warn_ret_stack_addr, []⟩] ∧
    (ActOnReturnStmt (exClassify .Incompatible) exStackAddr (exInFunction exInt) 400 40
        (some (exExpr 3 110))).map (fun r => r.2.Diags) =
      some [⟨40, .err_typecheck_return_incompatible,
          [.typeName exInt, .typeName exInt, .range 110 110]⟩,
        ⟨40, .warn_ret_stack_addr, []⟩] := by
  decide

/-- C21 (amended): for a non-void result type and a present expression, `ActOnReturnStmt`
always returns a return node carrying the expression (as the classifier hands it back),
whatever the classification, and the diagnostics it emits are exactly: for the classification,
nothing when it is `Compatible`, the one error `err_typecheck_return_incompatible` when it is
`Incompatible`, and one extension diagnostic for each of the four pointer-related
classifications; followed by what the check for the address of local storage reports on the
expression. -/
theorem ActOnReturnStmt_classification
    (CheckSingleAssignmentConstraints : QualType → Expr → AssignmentCheckResult × Expr)
    (CheckReturnStackAddr : Expr → QualType → SourceLocation → List Diagnostic)
    (S : Sema) (newRS : Nat) (ReturnLoc : SourceLocation) (E : Expr)
    (lhsType : QualType) (funcName : IdentifierInfo)
    (hCur : S.Cur = some (lhsType, funcName)) (hv : lhsType.isVoidType = false) :
    ActOnReturnStmt CheckSingleAssignmentConstraints CheckReturnStackAddr S newRS ReturnLoc
        (some E) =
      some (.stmt (.Return ⟨newRS, ReturnLoc, some (CheckSingleAssignmentConstraints lhsType E).2⟩),
        { S with
          Diags := S.Diags ++
            (match (CheckSingleAssignmentConstraints lhsType E).1 with
              | .Compatible => []
              | .Incompatible =>
                [⟨ReturnLoc, .err_typecheck_return_incompatible,
                  [.typeName lhsType, .typeName E.getType,
                   .range (CheckSingleAssignmentConstraints lhsType E).2.getLocStart
                     (CheckSingleAssignmentConstraints lhsType E).2.getLocEnd]⟩]
              | .PointerFromInt =>
                [⟨ReturnLoc, .ext_typecheck_return_pointer_int,
                  [.typeName lhsType, .typeName E.getType,
                   .range (CheckSingleAssignmentConstraints lhsType E).2.getLocStart
                     (CheckSingleAssignmentConstraints lhsType E).2.getLocEnd]⟩]
              | .IntFromPointer =>
                [⟨ReturnLoc, .ext_typecheck_return_pointer_int,
                  [.typeName lhsType, .typeName E.getType,
                   .range (CheckSingleAssignmentConstraints lhsType E).2.getLocStart
                     (CheckSingleAssignmentConstraints lhsType E).2.getLocEnd]⟩]
              | .IncompatiblePointer =>
                [⟨ReturnLoc, .ext_typecheck_return_incompatible_pointer,
                  [.typeName lhsType, .typeName E.getType,
                   .range (CheckSingleAssignmentConstraints lhsType E).2.getLocStart
                     (CheckSingleAssignmentConstraints lhsType E).2.getLocEnd]⟩]
              | .CompatiblePointerDiscardsQualifiers =>
                [⟨ReturnLoc, .ext_typecheck_return_discards_qualifiers,
                  [.typeName lhsType, .typeName E.getType,
                   .range (CheckSingleAssignmentConstraints lhsType E).2.getLocStart
                     (CheckSingleAssignmentConstraints lhsType E).2.getLocEnd]⟩]) ++
            CheckReturnStackAddr (CheckSingleAssignmentConstraints lhsType E).2 lhsType
              ReturnLoc }) :=
  ActOnReturnStmt_checked CheckSingleAssignmentConstraints CheckReturnStackAddr S newRS ReturnLoc
    E lhsType funcName hCur hv

/-- Witness of C21 (amended): an expression classified `Incompatible` returned from a function
returning `int`, with a check for the address of local storage that reports it. -/
theorem ActOnReturnStmt_classification_witness :
    ActOnReturnStmt (exClassify .Incompatible) exStackAddr (exInFunction exInt) 400 40
        (some (exExpr 3 110)) =
      some (.stmt (.Return ⟨400, 40, some (exExpr 3 110)⟩),
        { exInFunction exInt with
          Diags := [⟨40, .err_typecheck_return_incompatible,
              [.typeName exInt, .typeName exInt, .range 110 110]⟩,
            ⟨40, .warn_ret_stack_addr, []⟩] }) :=
  ActOnReturnStmt_classification (exClassify .Incompatible) exStackAddr (exInFunction exInt)
    400 40 (exExpr 3 110) exInt 77 rfl rfl

/-- C22 (as stated, refuted): the classifications `PointerFromInt` and `IntFromPointer` are
different, yet `ActOnReturnStmt` reports the same diagnostic,
`ext_typecheck_return_pointer_int`, for both. -/
theorem return_pointer_int_same_diagnostic :
    AssignmentCheckResult.PointerFromInt ≠ AssignmentCheckResult.IntFromPointer ∧
      (ActOnReturnStmt (exClassify .PointerFromInt) exNoStackAddr (exInFunction exInt) 400 40
          (some (exExpr 3 110))).map (fun r => r.2.Diags) =
        some [⟨40, .ext_typecheck_return_pointer_int,
          [.typeName exInt, .typeName exInt, .range 110 110]⟩] ∧
      (ActOnReturnStmt (exClassify .IntFromPointer) exNoStackAddr (exInFunction exInt) 400 40
          (some (exExpr 3 110))).map (fun r => r.2.Diags) =
        some [⟨40, .ext_typecheck_return_pointer_int,
          [.typeName exInt, .typeName exInt, .range 110 110]⟩] := by
  decide

/-- C22 (amended): among the four pointer-related classifications, two of them make
`ActOnReturnStmt` report the same diagnostic exactly when they are equal or are the pair
`PointerFromInt`, `IntFromPointer`, which share `ext_typecheck_return_pointer_int`; the other
two have a diagnostic identifier of their own. -/
theorem return_pointer_diagnostics
    (CheckReturnStackAddr : Expr → QualType → SourceLocation → List Diagnostic)
    (S : Sema) (newRS : Nat) (ReturnLoc : SourceLocation) (E : Expr)
    (lhsType : QualType) (funcName : IdentifierInfo) (r1 r2 : AssignmentCheckResult)
    (hCur : S.Cur = some (lhsType, funcName)) (hv : lhsType.isVoidType = false)
    (h1 : r1 ≠ .Compatible ∧ r1 ≠ .Incompatible) (h2 : r2 ≠ .Compatible ∧ r2 ≠ .Incompatible) :
    (ActOnReturnStmt (fun _ X => (r1, X)) CheckReturnStackAddr S newRS ReturnLoc (some E)).map
        (fun r => r.2.Diags) =
      (ActOnReturnStmt (fun _ X => (r2, X)) CheckReturnStackAddr S newRS ReturnLoc (some E)).map
        (fun r => r.2.Diags) ↔
    (r1 = r2 ∨ (r1 = .PointerFromInt ∧ r2 = .IntFromPointer) ∨
      (r1 = .IntFromPointer ∧ r2 = .PointerFromInt)) := by
  rw [ActOnReturnStmt_checked _ CheckReturnStackAddr S newRS ReturnLoc E lhsType funcName hCur hv,
    ActOnReturnStmt_checked _ CheckReturnStackAddr S newRS ReturnLoc E lhsType funcName hCur hv]
  obtain ⟨h1a, h1b⟩ := h1
  obtain ⟨h2a, h2b⟩ := h2
  cases r1 <;> cases r2 <;> simp at h1a h1b h2a h2b ⊢

/-- Witness of C22 (amended): `IncompatiblePointer` and `CompatiblePointerDiscardsQualifiers`
are reported differently. -/
theorem return_pointer_diagnostics_witness :
    (ActOnReturnStmt (fun _ X => (.IncompatiblePointer, X)) exNoStackAddr (exInFunction exInt)
          400 40 (some (exExpr 3 110))).map (fun r => r.2.Diags) =
      (ActOnReturnStmt (fun _ X => (.CompatiblePointerDiscardsQualifiers, X)) exNoStackAddr
          (exInFunction exInt) 400 40 (some (exExpr 3 110))).map (fun r => r.2.Diags) ↔
    (AssignmentCheckResult.IncompatiblePointer =
        AssignmentCheckResult.CompatiblePointerDiscardsQualifiers ∨
      (AssignmentCheckResult.IncompatiblePointer = .PointerFromInt ∧
        AssignmentCheckResult.CompatiblePointerDiscardsQualifiers = .IntFromPointer) ∨
      (AssignmentCheckResult.IncompatiblePointer = .IntFromPointer ∧
        AssignmentCheckResult.CompatiblePointerDiscardsQualifiers = .PointerFromInt)) :=
  return_pointer_diagnostics exNoStackAddr (exInFunction exInt) 400 40 (exExpr 3 110) exInt 77
    .IncompatiblePointer .CompatiblePointerDiscardsQualifiers rfl rfl (by decide) (by decide)

/-- C23 (as stated, refuted): in a function returning `void`, a return with an expression is
not passed to the check for the address of local storage: with a check that reports every
expression it is given, the only diagnostic is `ext_return_has_expr`. -/
theorem void_return_skips_stack_check :
    (ActOnReturnStmt (exClassify .Compatible) exStackAddr (exInFunction exVoid) 400 40
        (some (exExpr 3 110))).map (fun r => r.2.Diags) =
      some [⟨40, .ext_return_has_expr, [.ident 77, .range 110 110]⟩] ∧
    (⟨40, .warn_ret_stack_addr, []⟩ : Diagnostic) ∈ exStackAddr (exExpr 3 110) exVoid 40 := by
  decide

/-- C23 (amended): `ActOnReturnStmt` runs the check for the address of local storage on the
return expression (as the classifier hands it back) exactly when an expression is present and
the result type is not void: then what the check reports ends the diagnostics of the call; for
a void result type the result does not depend on the check at all. -/
theorem stack_check_only_for_non_void
    (CheckSingleAssignmentConstraints : QualType → Expr → AssignmentCheckResult × Expr)
    (CheckReturnStackAddr : Expr → QualType → SourceLocation → List Diagnostic)
    (S : Sema) (newRS : Nat) (ReturnLoc : SourceLocation) (E : Expr)
    (lhsType : QualType) (funcName : IdentifierInfo)
    (hCur : S.Cur = some (lhsType, funcName)) :
    if lhsType.isVoidType = true then
      ∀ Check2 : Expr → QualType → SourceLocation → List Diagnostic,
        ActOnReturnStmt CheckSingleAssignmentConstraints CheckReturnStackAddr S newRS ReturnLoc
            (some E) =
          ActOnReturnStmt CheckSingleAssignmentConstraints Check2 S newRS ReturnLoc (some E)
    else
      ∃ (R : StmtResult) (D : List Diagnostic) (S2 : Sema), D.length ≤ 1 ∧
        ActOnReturnStmt CheckSingleAssignmentConstraints CheckReturnStackAddr S newRS ReturnLoc
            (some E) = some (R, S2) ∧
        S2.Diags = S.Diags ++ D ++
          CheckReturnStackAddr (CheckSingleAssignmentConstraints lhsType E).2 lhsType
            ReturnLoc := by
  by_cases hv : lhsType.isVoidType = true
  · rw [if_pos hv]
    intro Check2
    rw [ActOnReturnStmt_void _ CheckReturnStackAddr S newRS ReturnLoc E lhsType funcName hCur hv,
      ActOnReturnStmt_void _ Check2 S newRS ReturnLoc E lhsType funcName hCur hv]
  · rw [if_neg hv]
    have hv2 : lhsType.isVoidType = false := by simpa using hv
    refine ⟨_, _, _, ?_,
      ActOnReturnStmt_checked CheckSingleAssignmentConstraints CheckReturnStackAddr S newRS
        ReturnLoc E lhsType funcName hCur hv2, rfl⟩
    cases (CheckSingleAssignmentConstraints lhsType E).1 <;> simp

/-- Witness of C23 (amended): in a function returning `int` the check is run. -/
theorem stack_check_only_for_non_void_witness :
    if exInt.isVoidType = true then
      ∀ Check2 : Expr → QualType → SourceLocation → List Diagnostic,
        ActOnReturnStmt (exClassify .Compatible) exStackAddr (exInFunction exInt) 400 40
            (some (exExpr 3 110)) =
          ActOnReturnStmt (exClassify .Compatible) Check2 (exInFunction exInt) 400 40
            (some (exExpr 3 110))
    else
      ∃ (R : StmtResult) (D : List Diagnostic) (S2 : Sema), D.length ≤ 1 ∧
        ActOnReturnStmt (exClassify .Compatible) exStackAddr (exInFunction exInt) 400 40
            (some (exExpr 3 110)) = some (R, S2) ∧
        S2.Diags = (exInFunction exInt).Diags ++ D ++
          exStackAddr (exClassify .Compatible exInt (exExpr 3 110)).2 exInt 40 :=
  stack_check_only_for_non_void (exClassify .Compatible) exStackAddr (exInFunction exInt) 400 40
    (exExpr 3 110) exInt 77 rfl

/-! # The properties of the remaining statements -/

/-- C25: for a `for` statement whose first clause is a declaration statement, `ActOnForStmt`
reports one `err_non_variable_decl_in_for` for each declarator, in order, that is not a block
variable with local storage and none for the others, going through all the declarators; these
reports never prevent construction: the for node is returned exactly when the second clause is
absent or, after the default function and array conversion, has scalar type. -/
theorem ActOnForStmt_declarations (DefaultFunctionArrayConversion : Expr → Expr) (S : Sema)
    (newFS : Nat) (ForLoc LParenLoc RParenLoc : SourceLocation) (a : Nat) (DS : DeclStmt)
    (second third : Option Expr) (body : Nat) :
    ActOnForStmt DefaultFunctionArrayConversion S newFS ForLoc LParenLoc
        (some ⟨a, .DeclStmt DS⟩) second third RParenLoc body =
      match second with
      | none =>
        (.stmt (.For ⟨newFS, some ⟨a, .DeclStmt DS⟩, none, third, body, ForLoc⟩),
          { S with
            Diags := S.Diags ++
              ((DS.getDecl :: DS.NextDeclarators).filter
                (fun D => !(D.isBlockVarDecl && D.hasLocalStorage))).map
                (fun D => ⟨D.getLocation, .err_non_variable_decl_in_for, []⟩) })
      | some Sec =>
        if (DefaultFunctionArrayConversion Sec).getType.isScalarType = true then
          (.stmt (.For ⟨newFS, some ⟨a, .DeclStmt DS⟩,
              some (DefaultFunctionArrayConversion Sec), third, body, ForLoc⟩),
            { S with
              Diags := S.Diags ++
                ((DS.getDecl :: DS.NextDeclarators).filter
                  (fun D => !(D.isBlockVarDecl && D.hasLocalStorage))).map
                  (fun D => ⟨D.getLocation, .err_non_variable_decl_in_for, []⟩) })
        else
          (.invalid,
            { S with
              Diags := S.Diags ++
                ((DS.getDecl :: DS.NextDeclarators).filter
                  (fun D => !(D.isBlockVarDecl && D.hasLocalStorage))).map
                  (fun D => ⟨D.getLocation, .err_non_variable_decl_in_for, []⟩) ++
                [⟨ForLoc, .err_typecheck_statement_requires_scalar,
                  [.typeName (DefaultFunctionArrayConversion Sec).getType,
                   .range (DefaultFunctionArrayConversion Sec).getLocStart
                     (DefaultFunctionArrayConversion Sec).getLocEnd]⟩] }) := by
  unfold ActOnForStmt
  simp only [checkForDecls_eq]
  cases second with
  | none => rfl
  | some Sec =>
    by_cases hsc : (DefaultFunctionArrayConversion Sec).getType.isScalarType = true
    · simp [hsc]
    · simp [hsc, Sema.Diag]

/-- C26: `ActOnBreakStmt` returns the invalid marker with exactly the error
`err_break_not_in_loop_or_switch` when the scope has no break parent and a break node with no
diagnostic otherwise; `ActOnContinueStmt` does the same with `err_continue_not_in_loop` and the
continue parent; neither changes the label map or the switch stack. -/
theorem break_continue_validation (S : Sema) (newBS newCS : Nat)
    (BreakLoc ContinueLoc : SourceLocation) (CurScope : Scope) :
    ActOnBreakStmt S newBS BreakLoc CurScope =
        (if CurScope.getBreakParent = none then
          (.invalid,
            { S with Diags := S.Diags ++ [⟨BreakLoc, .err_break_not_in_loop_or_switch, []⟩] })
        else (.stmt (.Break ⟨newBS, BreakLoc⟩), S)) ∧
      ActOnContinueStmt S newCS ContinueLoc CurScope =
        (if CurScope.getContinueParent = none then
          (.invalid,
            { S with Diags := S.Diags ++ [⟨ContinueLoc, .err_continue_not_in_loop, []⟩] })
        else (.stmt (.Continue ⟨newCS, ContinueLoc⟩), S)) ∧
      (ActOnBreakStmt S newBS BreakLoc CurScope).2.LabelMap = S.LabelMap ∧
      (ActOnBreakStmt S newBS BreakLoc CurScope).2.SwitchStack = S.SwitchStack ∧
      (ActOnContinueStmt S newCS ContinueLoc CurScope).2.LabelMap = S.LabelMap ∧
      (ActOnContinueStmt S newCS ContinueLoc CurScope).2.SwitchStack = S.SwitchStack := by
  unfold ActOnBreakStmt ActOnContinueStmt
  cases CurScope.getBreakParent <;> cases CurScope.getContinueParent <;>
    simp [Sema.Diag]

/-- C28: the loop that removes the empty ranges keeps `HiVals` aligned with `CaseRanges`. For
every list of case ranges (of the shape of the condition), the loop returns; the remaining
ranges are the non-empty ones in their order; `HiVals` has the length of the remaining list and
its entry `i` is the converted high bound of remaining range `i`; every remaining range has
low <= high; a list sorted by low bound stays sorted; so `HiVals[i]` and `HiVals[i-1]` exist for
every index `i` of the rescan, and the rescan returns. -/
theorem removeEmptyRanges_aligned (w : Nat) (s : Bool) (V Rs : List (APSInt × CaseStmt))
    (hR : ∀ p ∈ Rs, p.1.Shape w (!s) ∧ p.2.getRHS.isSome = true)
    (hs : Rs.Pairwise (fun a b => a.1.toInt ≤ b.1.toInt))
    (hV : ∀ p ∈ V, p.1.Shape w (!s))
    (hVs : V.Pairwise (fun a b => a.1.toInt ≤ b.1.toInt)) :
    ∃ R HiVals D, removeEmptyRanges w s Rs.length 0 Rs.length Rs = some (R, HiVals, D) ∧
      R = Rs.filter (fun p => !isEmptyRange w s p) ∧
      HiVals.length = R.length ∧
      (∀ (i : Nat) (p : APSInt × CaseStmt), R[i]? = some p →
        HiVals[i]? = some (HiValOf w s p.2).1) ∧
      (∀ p ∈ R, p.1.toInt ≤ (HiValOf w s p.2).1.toInt) ∧
      R.Pairwise (fun a b => a.1.toInt ≤ b.1.toInt) ∧
      (∀ i, i < R.length → (HiVals[i]?).isSome = true ∧ (HiVals[i - 1]?).isSome = true) ∧
      (rescanCaseRanges V R HiVals R.length R.length 0).isSome = true := by
  have hrem := removeEmptyRanges_eq w s Rs [] (fun p hp => (hR p hp).2)
  simp only [List.nil_append, List.length_nil] at hrem
  have hRf : ∀ p ∈ Rs.filter (fun p => !isEmptyRange w s p),
      p.1.Shape w (!s) ∧ p.2.getRHS.isSome = true :=
    fun p hp => hR p (List.mem_filter.1 hp).1
  refine ⟨_, _, _, hrem, rfl, by simp, ?_, ?_, hs.filter _, ?_, ?_⟩
  · intro i p hp
    rw [List.getElem?_map, hp]
    rfl
  · intro p hp
    have h := (List.mem_filter.1 hp).2
    rw [isEmptyRange_iff w s p (hRf p hp).1 (hRf p hp).2] at h
    exact of_decide_eq_true h
  · intro i hi
    constructor
    · rw [List.getElem?_map, List.getElem?_eq_getElem hi]
      rfl
    · have hi1 : i - 1 < (Rs.filter (fun p => !isEmptyRange w s p)).length := by omega
      rw [List.getElem?_map, List.getElem?_eq_getElem hi1]
      rfl
  · rw [rescanCaseRanges_eq w s V _ _ 0 (by simp)]
    obtain ⟨r, hr, _⟩ := rescanList_spec w s V hV hVs
      (Rs.filter (fun p => !isEmptyRange w s p)) none hRf (fun P hP => by cases hP)
      (hs.filter _)
    simp only [prevRange, if_true, List.drop_zero]
    rw [hr]
    rfl

/-- Witness of C28: six ranges of which the first, the third, the fourth and the last are
empty. -/
theorem removeEmptyRanges_aligned_witness :
    ∃ R HiVals D,
      removeEmptyRanges 32 true exRangesWithEmpty.length 0 exRangesWithEmpty.length
        exRangesWithEmpty = some (R, HiVals, D) ∧
      R = exRangesWithEmpty.filter (fun p => !isEmptyRange 32 true p) ∧
      HiVals.length = R.length ∧
      (∀ (i : Nat) (p : APSInt × CaseStmt), R[i]? = some p →
        HiVals[i]? = some (HiValOf 32 true p.2).1) ∧
      (∀ p ∈ R, p.1.toInt ≤ (HiValOf 32 true p.2).1.toInt) ∧
      R.Pairwise (fun a b => a.1.toInt ≤ b.1.toInt) ∧
      (∀ i, i < R.length → (HiVals[i]?).isSome = true ∧ (HiVals[i - 1]?).isSome = true) ∧
      (rescanCaseRanges [exVal 7 100] R HiVals R.length R.length 0).isSome = true :=
  removeEmptyRanges_aligned 32 true [exVal 7 100] exRangesWithEmpty (by decide) (by decide)
    (by decide) (by decide)

/-- C27: mixed declarations and code. `ActOnCompoundStmt` always builds the compound node with
all its elements. Among the diagnostics it emits, `ext_mixed_decls_code` occurs at most once,
never in C99 or C++ mode; otherwise it occurs exactly when some declaration statement comes
after a statement that is not a declaration, and it is then at the location of the first such
declaration: the one that follows the leading declarations `A` and the non-empty run `B` of
other statements after them. -/
theorem ActOnCompoundStmt_mixed_decls (S : Sema) (newCS : Nat) (L R : SourceLocation)
    (Elts : List StmtRef) (isStmtExpr : Bool) :
    ∃ D, ActOnCompoundStmt S newCS L R Elts Elts.length isStmtExpr =
        some (.stmt (.Compound ⟨newCS, Elts, L, R⟩), { S with Diags := S.Diags ++ D }) ∧
      (D.filter (fun d => decide (d.ID = .ext_mixed_decls_code))).length ≤ 1 ∧
      ((S.getLangOptions.C99 = true ∨ S.getLangOptions.CPlusPlus = true) →
        D.filter (fun d => decide (d.ID = .ext_mixed_decls_code)) = []) ∧
      (S.getLangOptions.C99 = false → S.getLangOptions.CPlusPlus = false →
        (D.filter (fun d => decide (d.ID = .ext_mixed_decls_code)) ≠ [] ↔
          ∃ pre E1 mid E2 post, Elts = pre ++ E1 :: (mid ++ E2 :: post) ∧
            E1.isaDeclStmt = false ∧ E2.isaDeclStmt = true) ∧
        ∀ d ∈ D.filter (fun d => decide (d.ID = .ext_mixed_decls_code)),
          ∃ A B a DS C, Elts = A ++ B ++ ⟨a, .DeclStmt DS⟩ :: C ∧
            (∀ E ∈ A, E.isaDeclStmt = true) ∧ B ≠ [] ∧ (∀ E ∈ B, E.isaDeclStmt = false) ∧
            d = ⟨DS.getDecl.getLocation, .ext_mixed_decls_code, []⟩) := by
  obtain ⟨D2, hID, hrun⟩ := ActOnCompoundStmt_eq S newCS L R Elts isStmtExpr
  have hD2 := filter_mixed_of_unused D2 hID
  refine ⟨_, by rw [hrun, List.append_assoc], ?_, ?_, ?_⟩
  · rw [List.filter_append, hD2, List.append_nil]
    split_ifs
    · cases firstDeclAfterStmt Elts <;> simp
    · simp
  · intro hmode
    rw [List.filter_append, hD2, List.append_nil]
    have hL : ¬ (!S.getLangOptions.C99 && !S.getLangOptions.CPlusPlus) = true := by
      rcases hmode with h | h <;> simp [h]
    rw [if_neg hL]
    rfl
  · intro h99 hcpp
    have hL : (!S.getLangOptions.C99 && !S.getLangOptions.CPlusPlus) = true := by
      simp [h99, hcpp]
    rw [List.filter_append, hD2, List.append_nil, if_pos hL]
    cases hf : firstDeclAfterStmt Elts with
    | none =>
      refine ⟨?_, fun d hd => by cases hd⟩
      constructor
      · intro h
        exact absurd rfl h
      · intro h
        exact absurd h (firstDeclAfterStmt_none Elts hf)
    | some DS =>
      obtain ⟨A, B, a, C, e, hA, hB0, hB⟩ := firstDeclAfterStmt_some Elts DS hf
      have hfil : List.filter (fun d : Diagnostic => decide (d.ID = .ext_mixed_decls_code))
          [⟨DS.getDecl.getLocation, .ext_mixed_decls_code, []⟩] =
          [⟨DS.getDecl.getLocation, .ext_mixed_decls_code, []⟩] := by
        simp
      simp only [hfil]
      refine ⟨?_, ?_⟩
      · constructor
        · intro _
          cases B with
          | nil => exact absurd rfl hB0
          | cons E1 B2 =>
            refine ⟨A, E1, B2, ⟨a, .DeclStmt DS⟩, C, ?_, hB E1 (List.mem_cons_self _ _), rfl⟩
            rw [e]
            simp
        · intro _
          simp
      · intro d hd
        rw [List.mem_singleton] at hd
        exact ⟨A, B, a, DS, C, e, hA, hB0, hB, hd⟩

/-- C24: for operands that are parenthesised expressions with narrow string literals,
`ActOnAsmStmt` returns; it returns the asm node exactly when no check fails, that is when every
output constraint validates and every output is a valid lvalue, every input constraint
validates (given the number of outputs) and no input has type void, and every clobber names a
valid register; otherwise it returns the invalid marker with exactly one diagnostic, that of the
first failing check in the order outputs (constraint, then lvalue), inputs (constraint, then
type), clobbers; and nothing after the failing operand is looked at: the result is the same for
any arrays that agree with the given ones up to that operand. -/
theorem ActOnAsmStmt_first_failure (Target : TargetInfo) (S : Sema) (newAS : Nat)
    (AsmLoc : SourceLocation) (IsVolatile : Bool) (Names : List String)
    (Outputs Inputs : List (StringLiteral × ParenExpr)) (AsmString : StringLiteral)
    (Clobbers : List StringLiteral) (RParenLoc : SourceLocation)
    (hO : ∀ o ∈ Outputs, o.1.isWide = false) (hI : ∀ o ∈ Inputs, o.1.isWide = false)
    (hC : ∀ c ∈ Clobbers, c.isWide = false) :
    ActOnAsmStmt Target S newAS AsmLoc IsVolatile Outputs.length Inputs.length Names
        ((Outputs ++ Inputs).map Prod.fst)
        ((Outputs ++ Inputs).map (fun o => OperandExpr.Paren o.2))
        AsmString Clobbers.length Clobbers RParenLoc =
      some (match firstFailure (asmChecks Target Outputs Inputs Clobbers) with
        | none =>
          (.stmt (.Asm ⟨newAS, AsmLoc, IsVolatile, Outputs.length, Inputs.length, Names,
            (Outputs ++ Inputs).map Prod.fst,
            (Outputs ++ Inputs).map (fun o => OperandExpr.Paren o.2),
            AsmString, Clobbers.length, Clobbers, RParenLoc⟩), S)
        | some d => (.invalid, { S with Diags := S.Diags ++ [d] })) ∧
    (firstFailure (asmChecks Target Outputs Inputs Clobbers) = none ↔
      (∀ o ∈ Outputs, Target.validateOutputConstraint o.1.getStrData = true ∧
        o.2.isLvalue = .LV_Valid) ∧
      (∀ o ∈ Inputs, Target.validateInputConstraint o.1.getStrData Outputs.length = true ∧
        o.2.getType.isVoidType = false) ∧
      (∀ c ∈ Clobbers, Target.isValidGCCRegisterName c.getStrData = true)) ∧
    (∀ d, firstFailure (asmChecks Target Outputs Inputs Clobbers) = some d →
      (∃ j, j < Outputs.length ∧
        ∀ (a2 : Nat) (loc2 : SourceLocation) (vol2 : Bool) (N1 N2 : Nat) (Names2 : List String)
          (Cs2 : List StringLiteral) (Es2 : List OperandExpr) (Str2 : StringLiteral) (N3 : Nat)
          (Cl2 : List StringLiteral) (rp2 : SourceLocation), j < N1 →
          Cs2.take (j + 1) = ((Outputs ++ Inputs).map Prod.fst).take (j + 1) →
          Es2.take (j + 1) =
            ((Outputs ++ Inputs).map (fun o => OperandExpr.Paren o.2)).take (j + 1) →
          ActOnAsmStmt Target S a2 loc2 vol2 N1 N2 Names2 Cs2 Es2 Str2 N3 Cl2 rp2 =
            some (.invalid, { S with Diags := S.Diags ++ [d] })) ∨
      (∃ j, Outputs.length ≤ j ∧ j < Outputs.length + Inputs.length ∧
        ∀ (a2 : Nat) (loc2 : SourceLocation) (vol2 : Bool) (N2 : Nat) (Names2 : List String)
          (Cs2 : List StringLiteral) (Es2 : List OperandExpr) (Str2 : StringLiteral) (N3 : Nat)
          (Cl2 : List StringLiteral) (rp2 : SourceLocation), j < Outputs.length + N2 →
          Cs2.take (j + 1) = ((Outputs ++ Inputs).map Prod.fst).take (j + 1) →
          Es2.take (j + 1) =
            ((Outputs ++ Inputs).map (fun o => OperandExpr.Paren o.2)).take (j + 1) →
          ActOnAsmStmt Target S a2 loc2 vol2 Outputs.length N2 Names2 Cs2 Es2 Str2 N3 Cl2 rp2 =
            some (.invalid, { S with Diags := S.Diags ++ [d] })) ∨
      (∃ j, j < Clobbers.length ∧
        ∀ (a2 : Nat) (loc2 : SourceLocation) (vol2 : Bool) (Names2 : List String)
          (Str2 : StringLiteral) (N3 : Nat) (Cl2 : List StringLiteral) (rp2 : SourceLocation),
          j < N3 → Cl2.take (j + 1) = Clobbers.take (j + 1) →
          ActOnAsmStmt Target S a2 loc2 vol2 Outputs.length Inputs.length Names2
              ((Outputs ++ Inputs).map Prod.fst)
              ((Outputs ++ Inputs).map (fun o => OperandExpr.Paren o.2)) Str2 N3 Cl2 rp2 =
            some (.invalid, { S with Diags := S.Diags ++ [d] }))) := by
  have e1 := asmOutputs_wellformed Target Outputs Inputs hO
  have e2 := asmInputs_wellformed Target Outputs Inputs hI
  have e3 := asmClobbers_wellformed Target Clobbers hC
  have hsplit : firstFailure (asmChecks Target Outputs Inputs Clobbers) =
      (firstFailure (Outputs.flatMap (outputChecks Target))).or
        ((firstFailure (Inputs.flatMap (inputChecks Target Outputs.length))).or
          (firstFailure (Clobbers.flatMap (clobberChecks Target)))) := by
    unfold asmChecks
    rw [firstFailure_append, firstFailure_append]
  refine ⟨?_, ?_, ?_⟩
  · rw [ActOnAsmStmt_loops, e1, e2, e3, hsplit]
    cases firstFailure (Outputs.flatMap (outputChecks Target)) with
    | some d => rfl
    | none =>
      cases firstFailure (Inputs.flatMap (inputChecks Target Outputs.length)) with
      | some d => rfl
      | none =>
        cases firstFailure (Clobbers.flatMap (clobberChecks Target)) with
        | some d => rfl
        | none => rfl
  · rw [firstFailure_eq_none]
    unfold asmChecks
    simp only [List.mem_append, List.mem_flatMap, outputChecks, inputChecks, clobberChecks,
      List.mem_cons, List.mem_singleton, List.not_mem_nil, or_false]
    constructor
    · intro h
      refine ⟨fun o ho => ⟨?_, ?_⟩, fun o ho => ⟨?_, ?_⟩, fun c hc => ?_⟩
      · exact h _ (Or.inl ⟨o, ho, Or.inl rfl⟩)
      · exact of_decide_eq_true (h _ (Or.inl ⟨o, ho, Or.inr rfl⟩))
      · exact h _ (Or.inr (Or.inl ⟨o, ho, Or.inl rfl⟩))
      · have := h _ (Or.inr (Or.inl ⟨o, ho, Or.inr rfl⟩))
        simpa using this
      · exact h _ (Or.inr (Or.inr ⟨c, hc, rfl⟩))
    · rintro ⟨h1, h2, h3⟩ x hx
      rcases hx with ⟨o, ho, rfl | rfl⟩ | ⟨o, ho, rfl | rfl⟩ | ⟨c, hc, rfl⟩
      · exact (h1 o ho).1
      · exact decide_eq_true (h1 o ho).2
      · exact (h2 o ho).1
      · simp [(h2 o ho).2]
      · exact h3 c hc
  · intro d hd
    rw [hsplit] at hd
    cases hfO : firstFailure (Outputs.flatMap (outputChecks Target)) with
    | some d1 =>
      rw [hfO] at hd e1
      cases hd
      left
      obtain ⟨j, _, hj2, hj⟩ := loopUntil_exit _ d _ _ e1
      refine ⟨j, by omega, ?_⟩
      intro a2 loc2 vol2 N1 N2 Names2 Cs2 Es2 Str2 N3 Cl2 rp2 hjN hCs hEs
      rw [ActOnAsmStmt_loops,
        hj (asmOutputStep Target Cs2 Es2) N1 (fun i _ hi => asmOutputStep_congr Target _ _ _ _ i
          (getElem?_of_take_eq _ _ (j + 1) i hCs (by omega))
          (getElem?_of_take_eq _ _ (j + 1) i hEs (by omega))) (by omega)]
    | none =>
      rw [hfO] at hd e1
      cases hfI : firstFailure (Inputs.flatMap (inputChecks Target Outputs.length)) with
      | some d2 =>
        rw [hfI] at hd e2
        cases hd
        right
        left
        obtain ⟨j, hj1, hj2, hj⟩ := loopUntil_exit _ d _ _ e2
        refine ⟨j, hj1, hj2, ?_⟩
        intro a2 loc2 vol2 N2 Names2 Cs2 Es2 Str2 N3 Cl2 rp2 hjN hCs hEs
        have hag : ∀ i, i ≤ j → asmOutputStep Target Cs2 Es2 i =
            asmOutputStep Target ((Outputs ++ Inputs).map Prod.fst)
              ((Outputs ++ Inputs).map (fun o => OperandExpr.Paren o.2)) i :=
          fun i hi => asmOutputStep_congr Target _ _ _ _ i
            (getElem?_of_take_eq _ _ (j + 1) i hCs (by omega))
            (getElem?_of_take_eq _ _ (j + 1) i hEs (by omega))
        rw [ActOnAsmStmt_loops,
          loopUntil_congr _ (asmOutputStep Target Cs2 Es2) _ (fun i hi => hag i (by
            have := (List.mem_range'_1.1 hi).2
            omega)), e1]
        simp only []
        rw [hj (asmInputStep Target Outputs.length Cs2 Es2) N2
          (fun i _ hi => asmInputStep_congr Target _ _ _ _ _ i
            (getElem?_of_take_eq _ _ (j + 1) i hCs (by omega))
            (getElem?_of_take_eq _ _ (j + 1) i hEs (by omega))) hjN]
      | none =>
        rw [hfI] at hd e2
        simp only [Option.or] at hd
        rw [hd] at e3
        right
        right
        obtain ⟨j, _, hj2, hj⟩ := loopUntil_exit _ d _ _ e3
        refine ⟨j, by omega, ?_⟩
        intro a2 loc2 vol2 Names2 Str2 N3 Cl2 rp2 hjN hCl
        rw [ActOnAsmStmt_loops, e1]
        simp only []
        rw [e2]
        simp only []
        rw [hj (asmClobberStep Target Cl2) N3 (fun i _ hi => asmClobberStep_congr Target _ _ i
          (getElem?_of_take_eq _ _ (j + 1) i hCl (by omega))) (by omega)]

/-- Witness of C24: two outputs of which the second is not an lvalue, an input with a rejected
constraint and an unknown clobber; the diagnostic is the one of the second output. -/
theorem ActOnAsmStmt_first_failure_witness :
    ActOnAsmStmt exTarget exEmpty 500 50 false exOutputs.length exInputs.length []
        ((exOutputs ++ exInputs).map Prod.fst)
        ((exOutputs ++ exInputs).map (fun o => OperandExpr.Paren o.2))
        ⟨false, "nop", 52⟩ exClobbers.length exClobbers 51 =
      some (match firstFailure (asmChecks exTarget exOutputs exInputs exClobbers) with
        | none =>
          (.stmt (.Asm ⟨500, 50, false, exOutputs.length, exInputs.length, [],
            (exOutputs ++ exInputs).map Prod.fst,
            (exOutputs ++ exInputs).map (fun o => OperandExpr.Paren o.2),
            ⟨false, "nop", 52⟩, exClobbers.length, exClobbers, 51⟩), exEmpty)
        | some d => (.invalid, { exEmpty with Diags := exEmpty.Diags ++ [d] })) :=
  (ActOnAsmStmt_first_failure exTarget exEmpty 500 50 false [] exOutputs exInputs
    ⟨false, "nop", 52⟩ exClobbers 51 (by decide) (by decide) (by decide)).1

end SemaStmt
